import Mathlib

/-!
Verification of the simple-sql-db storage engine and execution layer.

This file gives a shallow embedding, in Lean 4, of the parts of the Go
source that the verified claims are about:

* the value model (`types/types.go`, `parser` value implementations),
* the in-memory catalog (`catalog/memory.go`),
* the in-memory storage engine (`storage/memory.go`),
* the statement executor (`executor/executor.go`),
* the page manager (`pkg/storage/diskbased/page_manager.go`),
* the on-disk B+ tree (`pkg/storage/diskbased/bplustree.go`),
* the composite row-id codec and row-id generator
  (`pkg/storage/diskbased`, row-id file),
* the disk-based table store (`pkg/storage/diskbased`, storage file).

Go maps are embedded as association lists, Go slices as lists, Go byte
slices as `List Nat` (each element a byte value), machine integers as
`Nat`/`Int` with explicit `% 2 ^ w` at the points where the source
performs a narrowing conversion, and fallible Go functions as functions
returning `Except String` or a product with an `Option String` error
component, following the `(value, error)` convention of the source.
Loops are embedded as structural recursions; the unbounded loops of the
source (descent through tree pages, walking the leaf chain) take an
explicit fuel argument.
-/

set_option autoImplicit false

/-! ## Value model (`types/types.go`, `parser/statement.go` literal values)

`DataType` mirrors the `iota` enumeration: Null = 0, Int = 1, Float = 2,
String = 3, Bool = 4. -/

inductive DataType where
  | null
  | int
  | float
  | string
  | bool
deriving DecidableEq, Repr

/-- Numeric value of a `DataType`, as produced by Go's `byte(dataType)`. -/
def DataType.tag : DataType → Nat
  | .null => 0
  | .int => 1
  | .float => 2
  | .string => 3
  | .bool => 4

/-- `types.Constraint`: iota enumeration None, NotNull, Unique, PrimaryKey. -/
inductive Constraint where
  | none
  | notNull
  | unique
  | primaryKey
deriving DecidableEq, Repr

/-- `parser.literalValue`: the root-package `Value` implementation, a struct
carrying a tag and one payload field per type.  The `floatVal float64`
field is not modelled (no verified operation reads a float payload). -/
structure LitValue where
  dataType : DataType
  intVal : Int
  stringVal : String
  boolVal : Bool
deriving DecidableEq, Repr

/-- `literalValue.AsNull`: true exactly when the tag is `TypeNull`. -/
def LitValue.AsNull (v : LitValue) : Bool :=
  v.dataType = DataType.null

/-- `parser.columnDefinition` / the mock column definitions: name, type,
constraint list. -/
structure ColumnDef where
  name : String
  dataType : DataType
  constraints : List Constraint
deriving DecidableEq, Repr

/-- `catalog.memoryTableSchema`: table name plus ordered column list. -/
structure TableSchema where
  name : String
  columns : List ColumnDef
deriving DecidableEq, Repr

/-! ## Go maps as association lists

`map[string]V` is embedded as `List (String × V)` with `mapGet` (index),
`mapSet` (assignment) and `mapDel` (`delete`). -/

def mapGet {α : Type} : List (String × α) → String → Option α
  | [], _ => none
  | (k, v) :: rest, key => if k = key then some v else mapGet rest key

def mapSet {α : Type} : List (String × α) → String → α → List (String × α)
  | [], key, v => [(key, v)]
  | (k, v') :: rest, key, v =>
      if k = key then (key, v) :: rest else (k, v') :: mapSet rest key v

def mapDel {α : Type} : List (String × α) → String → List (String × α)
  | [], _ => []
  | (k, v) :: rest, key =>
      if k = key then mapDel rest key else (k, v) :: mapDel rest key

/-- A row: `map[string]parser.Value` in the source. -/
abbrev Row : Type := List (String × LitValue)

/-! ## Catalog (`catalog/memory.go`) -/

/-- `catalog.MemoryCatalog`: the table-name-to-schema map. -/
abbrev Catalog : Type := List (String × TableSchema)

/-- `MemoryCatalog.CreateTable`. -/
def Catalog.CreateTable (c : Catalog) (name : String) (columns : List ColumnDef) :
    Catalog × Option String :=
  match mapGet c name with
  | some _ => (c, some "table already exists")
  | none => (mapSet c name ⟨name, columns⟩, none)

/-- `MemoryCatalog.DropTable`. -/
def Catalog.DropTable (c : Catalog) (name : String) : Catalog × Option String :=
  match mapGet c name with
  | none => (c, some "table does not exist")
  | some _ => (mapDel c name, none)

/-- `MemoryCatalog.GetTable`. -/
def Catalog.GetTable (c : Catalog) (name : String) : Option TableSchema :=
  mapGet c name

/-- `memoryTableSchema.GetColumn`: first column with the given name. -/
def getColumnAux : List ColumnDef → String → Option ColumnDef
  | [], _ => none
  | c :: rest, n => if c.name = n then some c else getColumnAux rest n

def TableSchema.GetColumn (s : TableSchema) (n : String) : Option ColumnDef :=
  getColumnAux s.columns n

/-- `memoryTableSchema.HasColumn`. -/
def TableSchema.HasColumn (s : TableSchema) (n : String) : Bool :=
  (s.GetColumn n).isSome

/-! ## In-memory storage (`storage/memory.go`) -/

/-- `storage.MemoryStorage`: per-table row slices plus schemas. -/
structure MemoryStorage where
  tables : List (String × List Row)
  schemas : List (String × TableSchema)
deriving DecidableEq, Repr

/-- The `for _, constraint := range col.Constraints()` loop of
`MemoryStorage.Insert`: on a `NotNull` constraint, error when the value is
absent or is a Null value. -/
def insertNotNullCheck (colName : String) (present isNull : Bool) :
    List Constraint → Option String
  | [] => none
  | c :: rest =>
      if c = Constraint.notNull ∧ (present = false ∨ isNull = true) then
        some ("column " ++ colName ++ " cannot be NULL")
      else insertNotNullCheck colName present isNull rest

/-- The `for _, col := range schema.Columns()` validation loop of
`MemoryStorage.Insert`: NOT NULL check, then type check for present,
non-null values. -/
def insertValidate (values : Row) : List ColumnDef → Option String
  | [] => none
  | col :: rest =>
      match mapGet values col.name with
      | none =>
          -- `exists` is false; `isNull` is never computed on this path.
          match insertNotNullCheck col.name false false col.constraints with
          | some e => some e
          | none => insertValidate values rest
      | some v =>
          match insertNotNullCheck col.name true v.AsNull col.constraints with
          | some e => some e
          | none =>
              if v.AsNull = false ∧ v.dataType ≠ col.dataType then
                some ("type mismatch for column " ++ col.name)
              else insertValidate values rest

/-- `MemoryStorage.Insert`: validate against the schema, then append the
row.  Returns the (possibly unchanged) storage and the error, mirroring
the Go `(receiver, error)` pair. -/
def MemoryStorage.Insert (s : MemoryStorage) (tableName : String) (values : Row) :
    MemoryStorage × Option String :=
  match mapGet s.tables tableName with
  | none => (s, some "table does not exist")
  | some rows =>
      match mapGet s.schemas tableName with
      | none => (s, some "schema not found")
      | some schema =>
          match insertValidate values schema.columns with
          | some e => (s, some e)
          | none =>
              ({ s with tables := mapSet s.tables tableName (rows ++ [values]) }, none)

/-- `MemoryStorage.CreateTable`. -/
def MemoryStorage.CreateTable (s : MemoryStorage) (tableName : String)
    (schema : TableSchema) : MemoryStorage × Option String :=
  match mapGet s.tables tableName with
  | some _ => (s, some "table already exists in storage")
  | none =>
      ({ tables := mapSet s.tables tableName [],
         schemas := mapSet s.schemas tableName schema }, none)

/-- The inner `for _, constraint := range col.Constraints()` loop of
`MemoryStorage.Update`: a `NotNull` constraint rejects a Null value. -/
def updateNotNullCheck (colName : String) (isNull : Bool) :
    List Constraint → Option String
  | [] => none
  | c :: rest =>
      if c = Constraint.notNull ∧ isNull = true then
        some ("column " ++ colName ++ " cannot be NULL")
      else updateNotNullCheck colName isNull rest

/-- The `for colName, val := range values` validation loop of
`MemoryStorage.Update`: the SET column must exist, a non-null value must
match the column type, and NOT NULL columns reject Null. -/
def updateValidate (schema : TableSchema) : List (String × LitValue) → Option String
  | [] => none
  | (colName, val) :: rest =>
      match getColumnAux schema.columns colName with
      | none => some ("column " ++ colName ++ " does not exist")
      | some col =>
          let isNull := val.AsNull
          if isNull = false ∧ val.dataType ≠ col.dataType then
            some ("type mismatch for column " ++ colName)
          else
            match updateNotNullCheck colName isNull col.constraints with
            | some e => some e
            | none => updateValidate schema rest

/-- Set all SET values on a row: `for colName, val := range values`. -/
def applySetValues (r : Row) : List (String × LitValue) → Row
  | [] => r
  | (colName, val) :: rest => applySetValues (mapSet r colName val) rest

/-- The row loop of `MemoryStorage.Update`: apply the condition, update
matching rows in place, stop on a condition error.  Returns the updated
row slice, the match count and the error. -/
def updateRows (cond : Row → Except String Bool) (values : List (String × LitValue)) :
    List Row → Nat → List Row × Nat × Option String
  | [], count => ([], count, none)
  | r :: rest, count =>
      match cond r with
      | .error e => (r :: rest, count, some e)
      | .ok true =>
          let r' := applySetValues r values
          let (rs, c, e) := updateRows cond values rest (count + 1)
          (r' :: rs, c, e)
      | .ok false =>
          let (rs, c, e) := updateRows cond values rest count
          (r :: rs, c, e)

/-- `MemoryStorage.Update`: validate every SET value against the schema,
then update the rows matching the condition.  Result is the new storage,
the count of updated rows and the error. -/
def MemoryStorage.Update (s : MemoryStorage) (tableName : String)
    (values : List (String × LitValue)) (cond : Row → Except String Bool) :
    MemoryStorage × Nat × Option String :=
  match mapGet s.tables tableName with
  | none => (s, 0, some "table does not exist")
  | some rows =>
      match mapGet s.schemas tableName with
      | none => (s, 0, some "schema not found")
      | some schema =>
          match updateValidate schema values with
          | some e => (s, 0, some e)
          | none =>
              let (rs, count, e) := updateRows cond values rows 0
              ({ s with tables := mapSet s.tables tableName rs }, count, e)

/-! ## Executor (`executor/executor.go`) -/

/-- `types.ResultType`. -/
inductive ResultType where
  | success
  | rows
  | resultError
deriving DecidableEq, Repr

/-- `executor.executionResult` (the row iterator of SELECT results is not
needed by any verified claim and is omitted). -/
structure ExecutionResult where
  resultType : ResultType
  rowsAffected : Nat
  err : Option String
deriving DecidableEq, Repr

/-- The storage interface of the executor (`storage.Storage`), restricted
to the operations the verified statements use, over an abstract storage
state `σ`. -/
structure StorageOps (σ : Type) where
  CreateTable : σ → String → TableSchema → σ × Option String
  Insert : σ → String → Row → σ × Option String

/-- `Executor.executeCreateTable`: catalog first, then storage; on storage
failure the catalog entry is rolled back. -/
def executeCreateTable {σ : Type} (cat : Catalog) (st : StorageOps σ) (s : σ)
    (tableName : String) (columns : List ColumnDef) :
    Catalog × σ × ExecutionResult :=
  match cat.CreateTable tableName columns with
  | (cat1, some e) => (cat1, s, ⟨ResultType.resultError, 0, some e⟩)
  | (cat1, none) =>
      match cat1.GetTable tableName with
      | none =>
          (cat1, s, ⟨ResultType.resultError, 0,
            some ("table " ++ tableName ++ " not found after creation")⟩)
      | some schema =>
          match st.CreateTable s tableName schema with
          | (s1, some e) =>
              let (cat2, _) := cat1.DropTable tableName
              (cat2, s1, ⟨ResultType.resultError, 0, some e⟩)
          | (s1, none) => (cat1, s1, ⟨ResultType.success, 0, none⟩)

/-- The column-existence loop of `executeInsert`. -/
def insertCheckColumns (schema : TableSchema) : List String → Option String
  | [] => none
  | colName :: rest =>
      if schema.HasColumn colName = false then
        some ("column " ++ colName ++ " not found")
      else insertCheckColumns schema rest

/-- `row[colName] = values[i]` over the column list. -/
def buildRow : List String → List LitValue → Row → Row
  | colName :: cols, v :: vs, acc => buildRow cols vs (mapSet acc colName v)
  | _, _, acc => acc

/-- The `for _, values := range stmt.Values()` loop of `executeInsert`.
On an arity mismatch the source builds the error result *without* setting
`rowsAffected`, so that field carries Go's zero value 0; on a storage
error it carries the running count. -/
def insertLoop {σ : Type} (st : StorageOps σ) (tableName : String)
    (columns : List String) :
    σ → List (List LitValue) → Nat → σ × ExecutionResult
  | s, [], rowsAffected => (s, ⟨ResultType.success, rowsAffected, none⟩)
  | s, values :: rest, rowsAffected =>
      if values.length ≠ columns.length then
        (s, ⟨ResultType.resultError, 0, some "column count doesn't match value count"⟩)
      else
        let row := buildRow columns values []
        match st.Insert s tableName row with
        | (s1, some e) => (s1, ⟨ResultType.resultError, rowsAffected, some e⟩)
        | (s1, none) => insertLoop st tableName columns s1 rest (rowsAffected + 1)

/-- `Executor.executeInsert`. -/
def executeInsert {σ : Type} (cat : Catalog) (st : StorageOps σ) (s : σ)
    (tableName : String) (columns : List String) (values : List (List LitValue)) :
    σ × ExecutionResult :=
  match cat.GetTable tableName with
  | none => (s, ⟨ResultType.resultError, 0, some ("table " ++ tableName ++ " not found")⟩)
  | some schema =>
      match insertCheckColumns schema columns with
      | some e => (s, ⟨ResultType.resultError, 0, some e⟩)
      | none => insertLoop st tableName columns s values 0

/-! ## Validation characterisation for `MemoryStorage.Insert` (claim C6) -/

/-- The ways a single column can be violated by an inserted row, per the
spec: a NotNull column absent or bound to Null, or a present non-null
value whose tag differs from the declared type. -/
def ColViolation (values : Row) (col : ColumnDef) : Prop :=
  (Constraint.notNull ∈ col.constraints ∧
      (mapGet values col.name = none ∨
        ∃ v, mapGet values col.name = some v ∧ v.dataType = DataType.null))
  ∨ (∃ v, mapGet values col.name = some v ∧
      v.dataType ≠ DataType.null ∧ v.dataType ≠ col.dataType)

instance (values : Row) (col : ColumnDef) : Decidable (ColViolation values col) := by
  unfold ColViolation
  infer_instance

/-- A row violates a schema when some column of the schema is violated. -/
def InsertViolation (schema : TableSchema) (values : Row) : Prop :=
  ∃ col ∈ schema.columns, ColViolation values col

instance (schema : TableSchema) (values : Row) : Decidable (InsertViolation schema values) := by
  unfold InsertViolation
  infer_instance

/-! ## Violation predicates and concrete instances for the executor claims -/

/-- The ways a single SET entry can be rejected by `MemoryStorage.Update`:
unknown column, non-null type mismatch, or Null for a NOT NULL column. -/
def SetColViolation (schema : TableSchema) (p : String × LitValue) : Prop :=
  getColumnAux schema.columns p.1 = none
  ∨ (∃ col, getColumnAux schema.columns p.1 = some col ∧
      p.2.dataType ≠ DataType.null ∧ p.2.dataType ≠ col.dataType)
  ∨ (∃ col, getColumnAux schema.columns p.1 = some col ∧
      Constraint.notNull ∈ col.constraints ∧ p.2.dataType = DataType.null)

instance (schema : TableSchema) (p : String × LitValue) :
    Decidable (SetColViolation schema p) := by
  unfold SetColViolation
  infer_instance

/-- Some SET entry of an UPDATE violates the schema. -/
def SetViolation (schema : TableSchema) (values : List (String × LitValue)) : Prop :=
  ∃ p ∈ values, SetColViolation schema p

instance (schema : TableSchema) (values : List (String × LitValue)) :
    Decidable (SetViolation schema values) := by
  unfold SetViolation
  infer_instance

/-- An integer literal value (`literalValue` with `TypeInt`). -/
def intV (n : Int) : LitValue := ⟨DataType.int, n, "", false⟩

/-- A NULL literal value. -/
def nullV : LitValue := ⟨DataType.null, 0, "", false⟩

/-- The executor storage interface instantiated with `MemoryStorage`. -/
def memStorageOps : StorageOps MemoryStorage :=
  ⟨MemoryStorage.CreateTable, MemoryStorage.Insert⟩

/-- Schema `(id INT PRIMARY KEY, name TEXT NOT NULL)` of the spec example. -/
def schemaT : TableSchema :=
  ⟨"t", [⟨"id", DataType.int, [Constraint.primaryKey]⟩,
         ⟨"name", DataType.string, [Constraint.notNull]⟩]⟩

/-- A memory storage holding an empty table `t` with schema `schemaT`. -/
def storT : MemoryStorage := ⟨[("t", [])], [("t", schemaT)]⟩

/-- A row for `schemaT` that omits the NOT NULL column `name`. -/
def rowMissingName : Row := [("id", intV 1)]

/-- Single-column schema `(a INT)`. -/
def schemaA : TableSchema := ⟨"t", [⟨"a", DataType.int, []⟩]⟩

def catA : Catalog := [("t", schemaA)]

def storA : MemoryStorage := ⟨[("t", [])], [("t", schemaA)]⟩

/-- The memory storage after `storA` received the row `{a: 1}`. -/
def storA1 : MemoryStorage := ⟨[("t", [[("a", intV 1)]])], [("t", schemaA)]⟩

/-- A storage whose `CreateTable` always fails (models a disk error). -/
def failStorageOps : StorageOps Unit :=
  ⟨fun s _ _ => (s, some "storage create failed"), fun s _ _ => (s, none)⟩

/-! ## The `pkg` value model (`pkg/parser/values.go`)

The disk-based engine uses one `Value` implementation per type.  Go
strings are embedded as byte lists (`List Nat`). -/

inductive PValue where
  | int (value : Int)
  | str (value : List Nat)
  | bool (value : Bool)
  /-- `FloatValue`; its `float64` payload is not modelled (floating point),
  and no verified operation reads it. -/
  | float
  | null
deriving DecidableEq, Repr

def NewIntValue (value : Int) : PValue := PValue.int value

def NewStringValue (value : List Nat) : PValue := PValue.str value

def NewBoolValue (value : Bool) : PValue := PValue.bool value

/-- `Value.Type()` of each implementation. -/
def PValue.Type : PValue → DataType
  | .int _ => DataType.int
  | .str _ => DataType.string
  | .bool _ => DataType.bool
  | .float => DataType.float
  | .null => DataType.null

/-- The bytes of an ASCII string literal (Go strings are UTF-8 byte
strings; every string used here is ASCII). -/
def strBytes (s : String) : List Nat := s.data.map Char.toNat

/-- The digit-parsing core of `strconv.ParseInt` base 10. -/
def parseDigitsAux : List Nat → Nat → Option Nat
  | [], acc => some acc
  | b :: rest, acc =>
      if 48 ≤ b ∧ b ≤ 57 then parseDigitsAux rest (acc * 10 + (b - 48)) else none

/-- `strconv.ParseInt(s, 10, 64)`: optional sign, decimal digits, in-range
for int64; `none` models the error case. -/
def goParseInt (s : List Nat) : Option Int :=
  match s with
  | [] => none
  | b :: rest =>
      let neg := b = 45
      let digits := if b = 45 ∨ b = 43 then rest else s
      match digits with
      | [] => none
      | _ :: _ =>
          match parseDigitsAux digits 0 with
          | none => none
          | some n =>
              let v : Int := if neg then -(n : Int) else (n : Int)
              if -(2 ^ 63) ≤ v ∧ v < 2 ^ 63 then some v else none

/-- `strconv.ParseBool` plus the `"0"`/`"1"` fallback of
`StringValue.AsBool`; an unrecognised string yields `false` together with
an error, and the callers below drop the error. -/
def goParseBoolOrFalse (s : List Nat) : Bool :=
  if s = strBytes "1" ∨ s = strBytes "t" ∨ s = strBytes "T" ∨
      s = strBytes "TRUE" ∨ s = strBytes "true" ∨ s = strBytes "True" then
    true
  else false

/-- `value.AsInt()` with the error discarded (`v, _ := value.AsInt()`):
the error cases return Go's zero value 0. -/
def PValue.AsIntOrZero : PValue → Int
  | .int v => v
  | .str s =>
      match goParseInt s with
      | some i => i
      | none => 0
  | .bool b => if b then 1 else 0
  | .float => 0
  | .null => 0

/-- `value.AsBool()` with the error discarded. -/
def PValue.AsBoolOrFalse : PValue → Bool
  | .int v => v ≠ 0
  | .str s => goParseBoolOrFalse s
  | .bool b => b
  | .float => false
  | .null => false

/-- `value.AsString()` with the error discarded (none of these error). -/
def PValue.AsStringBytes : PValue → List Nat
  | .int v => strBytes (toString v)
  | .str s => s
  | .bool b => strBytes (if b then "true" else "false")
  | .float => []
  | .null => strBytes "NULL"

/-! ## Byte-order helpers (`encoding/binary`) -/

/-- `binary.LittleEndian.PutUintN`: `w` bytes, least significant first. -/
def leBytes : Nat → Nat → List Nat
  | 0, _ => []
  | w + 1, v => v % 256 :: leBytes w (v / 256)

/-- `binary.LittleEndian.UintN` over a byte list. -/
def leRead : List Nat → Nat
  | [] => 0
  | b :: rest => b + 256 * leRead rest

/-- `binary.BigEndian.PutUintN`: `w` bytes, most significant first. -/
def beBytes : Nat → Nat → List Nat
  | 0, _ => []
  | w + 1, v => beBytes w (v / 256) ++ [v % 256]

/-- Go's `uint64(i)` on an `int64`: the two's-complement value. -/
def toUInt64 (i : Int) : Nat := (i % (2 ^ 64 : Int)).toNat

/-- Go's `int64(n)` on a `uint64`. -/
def toInt64 (n : Nat) : Int :=
  if n < 2 ^ 63 then (n : Int) else (n : Int) - 2 ^ 64

/-! ## Composite row ids (`pkg/storage/diskbased` row-id codec) -/

structure CompositeRowID where
  values : List PValue
  types : List DataType
deriving DecidableEq, Repr

def NewCompositeRowID (values : List PValue) (types : List DataType) : CompositeRowID :=
  ⟨values, types⟩

/-- The payload appended by `CompositeRowID.Bytes` for one component; the
switch has no case for `TypeFloat`/`TypeNull`, so they append nothing. -/
def componentPayload (value : PValue) : DataType → List Nat
  | DataType.int => leBytes 8 (toUInt64 value.AsIntOrZero)
  | DataType.string =>
      let strB := value.AsStringBytes
      leBytes 4 strB.length ++ strB
  | DataType.bool => [if value.AsBoolOrFalse then 1 else 0]
  | _ => []

/-- The `for i, value := range c.values` loop of `CompositeRowID.Bytes`
(the source indexes `c.types[i]` in step with the values). -/
def compositeComponentsBytes : List PValue → List DataType → List Nat
  | v :: vs, t :: ts => t.tag :: componentPayload v t ++ compositeComponentsBytes vs ts
  | _, _ => []

/-- `CompositeRowID.Bytes`: a count byte (`byte(len(c.values))`, hence
modulo 256) followed by the tagged components. -/
def CompositeRowID.Bytes (c : CompositeRowID) : List Nat :=
  c.values.length % 256 :: compositeComponentsBytes c.values c.types

/-- The component-reading loop of `FromBytes`: `data` with a running
offset, and the remaining component count. -/
def fromBytesLoop (data : List Nat) : Nat → Nat → Except String (List PValue × List DataType)
  | _, 0 => Except.ok ([], [])
  | off, n + 1 =>
      if data.length ≤ off then Except.error "data too short to read component"
      else
        if data.getD off 0 = 1 then
          if data.length < off + 1 + 8 then Except.error "data too short to read int"
          else
            (fromBytesLoop data (off + 9) n).map
              (fun p => (NewIntValue (toInt64 (leRead ((data.drop (off + 1)).take 8))) :: p.1,
                DataType.int :: p.2))
        else if data.getD off 0 = 3 then
          if data.length < off + 1 + 4 then
            Except.error "data too short to read string length"
          else
            if data.length < off + 5 + leRead ((data.drop (off + 1)).take 4) then
              Except.error "data too short to read string"
            else
              (fromBytesLoop data (off + 5 + leRead ((data.drop (off + 1)).take 4)) n).map
                (fun p =>
                  (NewStringValue ((data.drop (off + 5)).take
                      (leRead ((data.drop (off + 1)).take 4))) :: p.1,
                    DataType.string :: p.2))
        else if data.getD off 0 = 4 then
          if data.length ≤ off + 1 then Except.error "data too short to read bool"
          else
            (fromBytesLoop data (off + 2) n).map
              (fun p => (NewBoolValue (data.getD (off + 1) 0 != 0) :: p.1,
                DataType.bool :: p.2))
        else Except.error "unknown data type"

/-- `FromBytes`: count byte then the components. -/
def FromBytes (data : List Nat) : Except String CompositeRowID :=
  if data.length < 1 then Except.error "data too short to be a composite row ID"
  else
    (fromBytesLoop data 1 (data.getD 0 0)).map fun p => NewCompositeRowID p.1 p.2

/-! ## Row ids and the generator (`pkg/storage/diskbased` row-id file) -/

inductive RowID where
  | auto (id : Int)
  | pkSingle (value : PValue) (dtype : DataType)
  | composite (c : CompositeRowID)
deriving DecidableEq, Repr

/-- `AutoRowID.Bytes` / `PrimaryKeyRowID.Bytes` / `CompositeRowID.Bytes`.
(The `fmt.Sprintf` fallback of `PrimaryKeyRowID.Bytes` for non-int,
non-string tags is approximated by `AsStringBytes`; no verified claim
reaches it.) -/
def RowID.Bytes : RowID → List Nat
  | .auto id => beBytes 8 (toUInt64 id)
  | .pkSingle v DataType.int => beBytes 8 (toUInt64 v.AsIntOrZero)
  | .pkSingle v DataType.string => v.AsStringBytes
  | .pkSingle v _ => v.AsStringBytes
  | .composite c => c.Bytes

/-- A `pkg` row: `map[string]parser.Value`. -/
abbrev PRow : Type := List (String × PValue)

/-- The inner constraint loop (with `break`) that detects a PRIMARY KEY
constraint on a column. -/
def colHasPrimaryKey : List Constraint → Bool
  | [] => false
  | c :: rest => if c = Constraint.primaryKey then true else colHasPrimaryKey rest

/-- The column loop shared by `getPrimaryKeyColumns` and
`NewTableRowIDGenerator`. -/
def gpkAux : List ColumnDef → List String
  | [] => []
  | col :: rest =>
      if colHasPrimaryKey col.constraints then col.name :: gpkAux rest else gpkAux rest

/-- `getPrimaryKeyColumns`. -/
def getPrimaryKeyColumns (schema : TableSchema) : List String :=
  gpkAux schema.columns

/-! ## JSON row serialization (`serializeRow` calls `json.Marshal`)

`serializeRow` is literally `json.Marshal(values)`.  The following
definitions model `encoding/json` for a `map[string]parser.Value`: map
keys are emitted sorted; every `parser.Value` implementation is a pointer
to a struct with only unexported fields, which `encoding/json` serializes
as the empty object. -/

/-- Insertion of a string into a sorted list (for json.Marshal's sorted
map keys). -/
def insertSortedString (x : String) : List String → List String
  | [] => [x]
  | y :: rest => if x ≤ y then x :: y :: rest else y :: insertSortedString x rest

def sortStrings : List String → List String
  | [] => []
  | x :: rest => insertSortedString x (sortStrings rest)

/-- `json.Marshal` of one `parser.Value`: a struct with only unexported
fields marshals as the empty JSON object (bytes 123, 125). -/
def jsonValueBytes : List Nat := [123, 125]

/-- A JSON object key: quote (34), the key bytes, quote.  Keys here never
need escaping. -/
def jsonKeyBytes (k : String) : List Nat := 34 :: strBytes k ++ [34]

def joinWith (sep : List Nat) : List (List Nat) → List Nat
  | [] => []
  | [x] => x
  | x :: rest => x ++ sep ++ joinWith sep rest

/-- Models `json.Marshal` on a `map[string]parser.Value` (see above):
`{` (123), comma-separated `"key":{}` entries in sorted key order,
`}` (125). -/
def jsonMarshalRowBytes (row : PRow) : List Nat :=
  let keys := sortStrings (row.map Prod.fst)
  123 :: joinWith [44] (keys.map fun k => jsonKeyBytes k ++ 58 :: jsonValueBytes) ++ [125]

/-- `serializeRow`: "Serialize as JSON for simplicity". -/
def serializeRow (values : PRow) (_schema : TableSchema) : List Nat :=
  jsonMarshalRowBytes values

/-- The value/type collection loop of `serializeCompositePrimaryKey`
(types are taken from the values). -/
def collectPK (values : PRow) : List String → Except String (List PValue × List DataType)
  | [] => Except.ok ([], [])
  | colName :: rest =>
      match mapGet values colName with
      | none => Except.error ("missing primary key column: " ++ colName)
      | some val =>
          (collectPK values rest).map fun p => (val :: p.1, val.Type :: p.2)

/-- `serializeCompositePrimaryKey`. -/
def serializeCompositePrimaryKey (values : PRow) (primaryKey : List String) :
    Except String (List Nat) :=
  (collectPK values primaryKey).map fun p => (NewCompositeRowID p.1 p.2).Bytes

/-- `createRowID`: a composite primary-key encoding when the schema has
primary-key columns, otherwise the serialized row itself ("Otherwise, use
all values"). -/
def createRowID (values : PRow) (schema : TableSchema) : Except String (List Nat) :=
  let primaryKeyColumns := getPrimaryKeyColumns schema
  if primaryKeyColumns.length > 0 then
    serializeCompositePrimaryKey values primaryKeyColumns
  else
    Except.ok (serializeRow values schema)

/-- `TableRowIDGenerator`. -/
structure TableRowIDGenerator where
  Schema : TableSchema
  AutoID : Int
  PrimaryKeyFields : List String
  HasPrimaryKey : Bool
deriving DecidableEq, Repr

/-- `NewTableRowIDGenerator`: identifies primary key columns, starts the
auto-increment counter at 1. -/
def NewTableRowIDGenerator (schema : TableSchema) : TableRowIDGenerator :=
  let primaryKeys := gpkAux schema.columns
  ⟨schema, 1, primaryKeys, !primaryKeys.isEmpty⟩

/-- The composite-key collection loop of `Generate` (values from the row,
types from the schema; `pkCol, _ := g.Schema.GetColumn(...)` ignores the
lookup failure, which cannot occur for fields found in the schema). -/
def collectPKFromSchema (schema : TableSchema) (row : PRow) :
    List String → Except String (List PValue × List DataType)
  | [] => Except.ok ([], [])
  | field :: rest =>
      match mapGet row field with
      | none => Except.error ("primary key field " ++ field ++ " not found in row")
      | some val =>
          let ty := ((getColumnAux schema.columns field).map (fun c => c.dataType)).getD
            DataType.null
          (collectPKFromSchema schema row rest).map fun p => (val :: p.1, ty :: p.2)

/-- `TableRowIDGenerator.Generate`. -/
def TableRowIDGenerator.Generate (g : TableRowIDGenerator) (row : PRow) :
    Except String (RowID × TableRowIDGenerator) :=
  if g.HasPrimaryKey then
    match g.PrimaryKeyFields with
    | [pkField] =>
        match mapGet row pkField with
        | none =>
            Except.error ("primary key field " ++ pkField ++ " not found in row")
        | some pkValue =>
            let ty := ((getColumnAux g.Schema.columns pkField).map
              (fun c => c.dataType)).getD DataType.null
            Except.ok (RowID.pkSingle pkValue ty, g)
    | fields =>
        (collectPKFromSchema g.Schema row fields).map fun p =>
          (RowID.composite (NewCompositeRowID p.1 p.2), g)
  else
    Except.ok (RowID.auto g.AutoID, { g with AutoID := g.AutoID + 1 })

/-- Iterate `Generate` on an empty row `n` times, collecting the ids. -/
def generateN (g : TableRowIDGenerator) : Nat → List RowID × TableRowIDGenerator
  | 0 => ([], g)
  | n + 1 =>
      match g.Generate [] with
      | Except.ok (rid, g1) =>
          let p := generateN g1 n
          (rid :: p.1, p.2)
      | Except.error _ => ([], g)

/-- The expected auto-id sequence `a, a+1, a+2, ...` of length `n`. -/
def autoSeq (a : Int) : Nat → List RowID
  | 0 => []
  | n + 1 => RowID.auto a :: autoSeq (a + 1) n

/-- 256 boolean components (for the C4 counterexample: the count byte
truncates). -/
def bools256 : List PValue := List.replicate 256 (PValue.bool false)

/-- A no-primary-key row `{a: 1}` for the C5 counterexample. -/
def rowA : PRow := [("a", PValue.int 1)]

instance {ε α : Type} [DecidableEq ε] [DecidableEq α] : DecidableEq (Except ε α) :=
  fun x y =>
    match x, y with
    | Except.ok a, Except.ok b =>
        if h : a = b then Decidable.isTrue (by rw [h])
        else Decidable.isFalse (fun hh => h (Except.ok.inj hh))
    | Except.ok _, Except.error _ => Decidable.isFalse (fun hh => Except.noConfusion hh)
    | Except.error _, Except.ok _ => Decidable.isFalse (fun hh => Except.noConfusion hh)
    | Except.error e, Except.error f =>
        if h : e = f then Decidable.isTrue (by rw [h])
        else Decidable.isFalse (fun hh => h (Except.error.inj hh))

/-- The values whose composite encoding is information-preserving: the tag
is one of Int/String/Bool, an Int fits in int64, and a String's length
fits the 4-byte length field. -/
def PValueEncodable : PValue → Prop
  | .int i => -(2 ^ 63) ≤ i ∧ i < 2 ^ 63
  | .str s => s.length < 2 ^ 32
  | .bool _ => True
  | .float => False
  | .null => False

instance : (v : PValue) → Decidable (PValueEncodable v)
  | .int i => inferInstanceAs (Decidable (-(2 ^ 63) ≤ i ∧ i < 2 ^ 63))
  | .str s => inferInstanceAs (Decidable (s.length < 2 ^ 32))
  | .bool _ => inferInstanceAs (Decidable True)
  | .float => inferInstanceAs (Decidable False)
  | .null => inferInstanceAs (Decidable False)

/-- Concrete round-trip witness values: an int, a string, a bool. -/
def rtVals : List PValue := [PValue.int (-5), PValue.str (strBytes "hi"), PValue.bool true]

/-! ## Page data (`pkg/storage/diskbased/page_manager.go`)

A page's 4096-byte buffer is embedded as a byte-addressed total function;
a Go slice write becomes a function update. -/

def PageData : Type := Nat → Nat

def PageSize : Nat := 4096

def zeroPageData : PageData := fun _ => 0

def writeByte (d : PageData) (i v : Nat) : PageData :=
  fun j => if j = i then v else d j

/-- `binary.LittleEndian.PutUint32`: four bytes, least significant
first (`byte(v)`, `byte(v>>8)`, `byte(v>>16)`, `byte(v>>24)`). -/
def putU32 (d : PageData) (off v : Nat) : PageData :=
  writeByte (writeByte (writeByte (writeByte d off (v % 256))
    (off + 1) (v / 256 % 256)) (off + 2) (v / 65536 % 256))
    (off + 3) (v / 16777216 % 256)

/-- `binary.LittleEndian.Uint32` on a page buffer. -/
def readU32 (d : PageData) (off : Nat) : Nat :=
  d off + 256 * d (off + 1) + 65536 * d (off + 2) + 16777216 * d (off + 3)

/-- `copy(d[off:off+len(src)], src)`. -/
def copyBytes (d : PageData) (off : Nat) : List Nat → PageData
  | [] => d
  | b :: rest => copyBytes (writeByte d off b) (off + 1) rest

/-- Read `n` bytes starting at `off`. -/
def readBytes (d : PageData) (off n : Nat) : List Nat :=
  (List.range n).map fun j => d (off + j)

/-! ## Page manager state -/

/-- `Page`: id, buffer, dirty flag, pin count. -/
structure DPage where
  id : Nat
  data : PageData
  dirty : Bool
  pinCount : Nat

/-- `PageManager`: page count, free list, cache, and the backing file
(`filePages` pages of content `fileData`). -/
structure PageManager where
  numPages : Nat
  freePages : List Nat
  pageCache : Nat → Option DPage
  filePages : Nat
  fileData : Nat → PageData

def cacheInsert (c : Nat → Option DPage) (id : Nat) (p : DPage) : Nat → Option DPage :=
  fun j => if j = id then some p else c j

def cacheErase (c : Nat → Option DPage) (id : Nat) : Nat → Option DPage :=
  fun j => if j = id then none else c j

/-- A write through a cached page pointer (`page.Data()` mutation). -/
def PageManager.writePage (pm : PageManager) (id : Nat) (f : PageData → PageData) :
    PageManager :=
  { pm with pageCache := fun j =>
      if j = id then (pm.pageCache id).map (fun p => { p with data := f p.data })
      else pm.pageCache j }

/-- `page.MarkDirty()` on a cached page. -/
def PageManager.markDirty (pm : PageManager) (id : Nat) : PageManager :=
  { pm with pageCache := fun j =>
      if j = id then (pm.pageCache id).map (fun p => { p with dirty := true })
      else pm.pageCache j }

/-- `page.Unpin()` on a cached page. -/
def PageManager.Unpin (pm : PageManager) (id : Nat) : PageManager :=
  { pm with pageCache := fun j =>
      if j = id then
        (pm.pageCache id).map fun p =>
          if p.pinCount > 0 then { p with pinCount := p.pinCount - 1 } else p
      else pm.pageCache j }

/-- `GetPage`: bounds check, cache hit (pin), else read from the file. -/
def PageManager.GetPage (pm : PageManager) (id : Nat) : Except String (DPage × PageManager) :=
  if pm.numPages ≤ id then Except.error "page ID out of range"
  else
    match pm.pageCache id with
    | some p =>
        Except.ok ({ p with pinCount := p.pinCount + 1 },
          { pm with pageCache :=
              cacheInsert pm.pageCache id { p with pinCount := p.pinCount + 1 } })
    | none =>
        if id < pm.filePages then
          Except.ok (⟨id, pm.fileData id, false, 1⟩,
            { pm with pageCache := cacheInsert pm.pageCache id ⟨id, pm.fileData id, false, 1⟩ })
        else Except.error "page does not exist (beyond EOF)"

/-- The free-id writing loop of `updateFreePageList`, with its overflow
`break`. -/
def writeFreeIds (d : PageData) (off : Nat) : List Nat → PageData
  | [] => d
  | id :: rest =>
      if off + 4 > PageSize then d
      else writeFreeIds (putU32 d off id) (off + 4) rest

/-- `updateFreePageList`: get the header page, write `numPages`, the free
count and the free ids, mark it dirty. -/
def PageManager.updateFreePageList (pm : PageManager) : Except String PageManager :=
  match pm.GetPage 0 with
  | Except.error e => Except.error e
  | Except.ok (_, pm1) =>
      Except.ok ((pm1.writePage 0 (fun d =>
        writeFreeIds (putU32 (putU32 d 0 pm1.numPages) 4 pm1.freePages.length)
          8 pm1.freePages)).markDirty 0)

/-- The common tail of `AllocatePage`: build the zeroed pinned dirty page,
cache it, update the header.  The returned `Page` value is the pointer's
contents at creation; the cache entry stays authoritative. -/
def allocFinish (pm : PageManager) (pageID : Nat) : Except String (DPage × PageManager) :=
  let page : DPage := ⟨pageID, zeroPageData, true, 1⟩
  let pmc : PageManager := { pm with pageCache := cacheInsert pm.pageCache pageID page }
  match pmc.updateFreePageList with
  | Except.error e => Except.error e
  | Except.ok pm2 => Except.ok (page, pm2)

/-- `AllocatePage`: reuse the last free page, else extend the file
(`extendFile` truncates to `numPages * PageSize`, zero-filling). -/
def PageManager.AllocatePage (pm : PageManager) : Except String (DPage × PageManager) :=
  match pm.freePages.getLast? with
  | some pageID => allocFinish { pm with freePages := pm.freePages.dropLast } pageID
  | none =>
      allocFinish
        { pm with
          numPages := pm.numPages + 1,
          filePages := pm.numPages + 1,
          fileData := fun i => if i < pm.filePages then pm.fileData i else zeroPageData }
        pm.numPages

/-- `FreePage`: refuse pinned cached pages; evict; push onto the free
list; rewrite the header. -/
def PageManager.FreePage (pm : PageManager) (pageID : Nat) : Except String PageManager :=
  match pm.pageCache pageID with
  | some p =>
      if p.pinCount > 0 then Except.error "cannot free a pinned page"
      else
        let pm1 : PageManager :=
          { pm with pageCache := cacheErase pm.pageCache pageID,
                    freePages := pm.freePages ++ [pageID] }
        pm1.updateFreePageList
  | none =>
      let pm1 : PageManager := { pm with freePages := pm.freePages ++ [pageID] }
      pm1.updateFreePageList

/-- The header page written by `NewPageManager` on an empty file:
`numPages = 1`, no free pages. -/
def headerPageData : PageData := putU32 (putU32 zeroPageData 0 1) 4 0

/-- `NewPageManager` on a nonexistent/empty file: one header page, in
cache only (the file stays empty until pages are flushed). -/
def newPageManagerEmpty : PageManager :=
  { numPages := 1, freePages := [],
    pageCache := cacheInsert (fun _ => none) 0 ⟨0, headerPageData, true, 1⟩,
    filePages := 0, fileData := fun _ => zeroPageData }

/-- The page id of an allocation result. -/
def allocId (r : Except String (DPage × PageManager)) : Except String Nat :=
  r.map fun p => p.1.id

/-- The page manager after the first allocation on a fresh file (total
function for the concrete C9 run). -/
def c9pm1 : PageManager :=
  match newPageManagerEmpty.AllocatePage with
  | Except.ok (_, pm) => pm
  | Except.error _ => newPageManagerEmpty

/-! ## B+-tree (`pkg/storage/diskbased/bplustree.go`)

Node layout: header of `NodeHeaderSize = 9` bytes — 1 type byte
(`0` = non-leaf, `1` = leaf), a 4-byte little-endian key count, a 4-byte
next-page id — followed by the entry area.  `order = MaxKeysPerNode = 128`. -/

def MaxKeysPerNode : Nat := 128

/-- The page buffer a fetched `Page` pointer aliases: the cached copy if
present, else the file contents.  After a successful `GetPage` the page
is always cached, so reads and writes through the pointer go to the
cache entry. -/
def pageContent (pm : PageManager) (id : Nat) : PageData :=
  match pm.pageCache id with
  | some p => p.data
  | none => pm.fileData id

/-- `BPlusTree`: the page manager, the root page id (mutated when the
root splits) and the order. -/
structure BPlusTree where
  pm : PageManager
  rootPageID : Nat
  order : Nat

/-- `bytes.Compare`: lexicographic byte-string comparison, a proper
prefix ordering before its extensions. -/
def bytesCompare : List Nat → List Nat → Ordering
  | [], [] => Ordering.eq
  | [], _ :: _ => Ordering.lt
  | _ :: _, [] => Ordering.gt
  | a :: as, b :: bs =>
      if a < b then Ordering.lt
      else if b < a then Ordering.gt
      else bytesCompare as bs

/-- The entry-reading loop of `getLeafNodeEntries`: each entry is a
4-byte key length, the key, a 4-byte value length, the value. -/
def readLeafEntriesAux (d : PageData) : Nat → Nat → List (List Nat × List Nat)
  | 0, _ => []
  | n + 1, off =>
      (readBytes d (off + 4) (readU32 d off),
        readBytes d (off + 4 + readU32 d off + 4) (readU32 d (off + 4 + readU32 d off)))
        :: readLeafEntriesAux d n
            (off + 4 + readU32 d off + 4 + readU32 d (off + 4 + readU32 d off))

/-- `getLeafNodeEntries`: fetch the page and decode `numKeys` entries
from offset 9 (the parallel `keys`/`values` arrays are zipped into one
pair list). -/
def getLeafNodeEntries (pm : PageManager) (nodeID : Nat) :
    Except String (List (List Nat × List Nat) × PageManager) :=
  match pm.GetPage nodeID with
  | Except.error e => Except.error e
  | Except.ok (_, pm1) =>
      Except.ok (readLeafEntriesAux (pageContent pm1 nodeID)
        (readU32 (pageContent pm1 nodeID) 1) 9, pm1)

/-- The entry-writing loop shared by `insertIntoLeaf`, `splitLeafNode`
and `deleteFromLeaf`. -/
def writeLeafEntriesAux (d : PageData) (off : Nat) : List (List Nat × List Nat) → PageData
  | [] => d
  | (k, v) :: rest =>
      writeLeafEntriesAux
        (copyBytes (putU32 (copyBytes (putU32 d off k.length) (off + 4) k)
          (off + 4 + k.length) v.length) (off + 4 + k.length + 4) v)
        (off + 4 + k.length + 4 + v.length) rest

/-- The insertion-position scan (`insertPosition`): index of the first
stored key greater than `key`, else the number of keys. -/
def leafInsertPos (key : List Nat) : List (List Nat × List Nat) → Nat
  | [] => 0
  | (k, _) :: rest =>
      if bytesCompare key k = Ordering.lt then 0 else leafInsertPos key rest + 1

/-- The duplicate scan of `insert` over a leaf's keys (`bytes.Equal`):
index and stored key of the first exact match. -/
def dupIndex (key : List Nat) : List (List Nat × List Nat) → Option (Nat × List Nat)
  | [] => none
  | (k, _) :: rest =>
      if k = key then some (0, k)
      else (dupIndex key rest).map (fun p => (p.1 + 1, p.2))

/-- `insertIntoLeaf`: splice the new pair in sorted position, bump the
key count and rewrite the entry area (`MarkDirty` before the writes). -/
def insertIntoLeaf (pm : PageManager) (nodeID : Nat) (key value : List Nat) :
    Except String PageManager :=
  match pm.GetPage nodeID with
  | Except.error e => Except.error e
  | Except.ok (_, pm1) =>
      match getLeafNodeEntries pm1 nodeID with
      | Except.error e => Except.error e
      | Except.ok (es, pm2) =>
          Except.ok ((pm2.markDirty nodeID).writePage nodeID (fun d =>
            writeLeafEntriesAux (putU32 d 1 (readU32 (pageContent pm1 nodeID) 1 + 1)) 9
              (es.take (leafInsertPos key es) ++ (key, value) :: es.drop (leafInsertPos key es))))

/-- `createNewRoot`: allocate a page, lay it out as a one-key non-leaf
node `left_ptr, key, right_ptr`, point the tree's root at it. -/
def createNewRoot (t : BPlusTree) (leftChildID rightChildID : Nat) (key : List Nat) :
    Except String BPlusTree :=
  match t.pm.AllocatePage with
  | Except.error e => Except.error e
  | Except.ok (rootPage, pm1) =>
      Except.ok { t with
        pm := (pm1.writePage rootPage.id (fun d =>
          putU32 (copyBytes (putU32 (putU32 (putU32 (writeByte d 0 0) 1 1) 9 leftChildID)
            13 key.length) 17 key) (17 + key.length) rightChildID)).markDirty rootPage.id,
        rootPageID := rootPage.id }

/-- The entry-reading loop of the non-leaf extraction in
`insertIntoNonLeaf`/`splitNonLeafNode`: each entry is a 4-byte key
length, the key, then the 4-byte child pointer to its right
(`keys[i]` zipped with `childPtrs[i+1]`; `childPtrs[0]` is read
separately at offset 9). -/
def readNodeEntriesAux (d : PageData) : Nat → Nat → List (List Nat × Nat)
  | 0, _ => []
  | n + 1, off =>
      (readBytes d (off + 4) (readU32 d off), readU32 d (off + 4 + readU32 d off))
        :: readNodeEntriesAux d n (off + 4 + readU32 d off + 4)

/-- The non-leaf entry-writing loop. -/
def writeNodeEntriesAux (d : PageData) (off : Nat) : List (List Nat × Nat) → PageData
  | [] => d
  | (k, c) :: rest =>
      writeNodeEntriesAux
        (putU32 (copyBytes (putU32 d off k.length) (off + 4) k) (off + 4 + k.length) c)
        (off + 4 + k.length + 4) rest

/-- The non-leaf insertion-position scan (`insertPos`). -/
def nodeInsertPos (key : List Nat) : List (List Nat × Nat) → Nat
  | [] => 0
  | (k, _) :: rest =>
      if bytesCompare key k = Ordering.lt then 0 else nodeInsertPos key rest + 1

/-- `insertIntoNonLeaf`: splice `(key, rightChildID)` after the child it
follows and rewrite the node (inserting the key at `insertPos` and the
pointer at `insertPos + 1` keeps each key paired with the pointer to its
right). -/
def insertIntoNonLeaf (pm : PageManager) (nodeID rightChildID : Nat) (key : List Nat) :
    Except String PageManager :=
  match pm.GetPage nodeID with
  | Except.error e => Except.error e
  | Except.ok (_, pm1) =>
      Except.ok ((pm1.markDirty nodeID).writePage nodeID (fun d0 =>
        writeNodeEntriesAux
          (putU32 (putU32 d0 1 (readU32 (pageContent pm1 nodeID) 1 + 1)) 9
            (readU32 (pageContent pm1 nodeID) 9)) 13
          ((readNodeEntriesAux (pageContent pm1 nodeID)
              (readU32 (pageContent pm1 nodeID) 1) 13).take
              (nodeInsertPos key (readNodeEntriesAux (pageContent pm1 nodeID)
                (readU32 (pageContent pm1 nodeID) 1) 13))
            ++ (key, rightChildID)
            :: (readNodeEntriesAux (pageContent pm1 nodeID)
              (readU32 (pageContent pm1 nodeID) 1) 13).drop
              (nodeInsertPos key (readNodeEntriesAux (pageContent pm1 nodeID)
                (readU32 (pageContent pm1 nodeID) 1) 13)))))

mutual

/-- `insertIntoParent`: insert the split key into the parent if it has
room, else split the parent (the source passes `nil` as the parent's own
parent, so a split parent always gets a new root).  `fuel` bounds the
mutual recursion. -/
def insertIntoParent : Nat → BPlusTree → Nat → Nat → Nat → List Nat → Except String BPlusTree
  | 0, _, _, _, _, _ => Except.error "fuel exhausted"
  | fuel + 1, t, parentID, _leftChildID, rightChildID, key =>
      match t.pm.GetPage parentID with
      | Except.error e => Except.error e
      | Except.ok (_, pm1) =>
          if readU32 (pageContent pm1 parentID) 1 < t.order - 1 then
            match insertIntoNonLeaf pm1 parentID rightChildID key with
            | Except.error e => Except.error e
            | Except.ok pm2 => Except.ok { t with pm := pm2 }
          else splitNonLeafNode fuel { t with pm := pm1 } parentID rightChildID key none

/-- `splitNonLeafNode`: splice the new key in, move the upper half (past
the middle key) to a freshly allocated non-leaf node, push the middle
key to a new root (or to the parent when one is given). -/
def splitNonLeafNode : Nat → BPlusTree → Nat → Nat → List Nat → Option Nat →
    Except String BPlusTree
  | fuel, t, nodeID, newChildID, newKey, parentID =>
      match t.pm.GetPage nodeID with
      | Except.error e => Except.error e
      | Except.ok (_, pm1) =>
          let d := pageContent pm1 nodeID
          let ptr0 := readU32 d 9
          let es := readNodeEntriesAux d (readU32 d 1) 13
          let pos := nodeInsertPos newKey es
          let nes := es.take pos ++ (newKey, newChildID) :: es.drop pos
          match pm1.AllocatePage with
          | Except.error e => Except.error e
          | Except.ok (newNode, pm2) =>
              let sp := nes.length / 2
              let pm3 := pm2.writePage newNode.id (fun d0 => writeByte d0 0 0)
              let pm4 := pm3.writePage nodeID (fun d0 =>
                writeNodeEntriesAux (putU32 (putU32 d0 1 sp) 9 ptr0) 13 (nes.take sp))
              let pm5 := pm4.writePage newNode.id (fun d0 =>
                writeNodeEntriesAux (putU32 (putU32 d0 1 (nes.length - (sp + 1))) 9
                  (nes.getD sp ([], 0)).2) 13 (nes.drop (sp + 1)))
              let pm6 := (pm5.markDirty newNode.id).markDirty nodeID
              match parentID with
              | none => createNewRoot { t with pm := pm6 } nodeID newNode.id (nes.getD sp ([], 0)).1
              | some pid =>
                  match fuel with
                  | 0 => Except.error "fuel exhausted"
                  | fuel + 1 =>
                      insertIntoParent fuel { t with pm := pm6 } pid nodeID newNode.id
                        (nes.getD sp ([], 0)).1

end

/-- `splitLeafNode`: splice the new pair in, keep the lower half
(`splitPoint = (numKeys + 1) / 2` entries) in place, move the upper half
to a freshly allocated leaf, link it into the leaf chain, and push the
first key of the upper half to the parent (a new root when `parentID` is
`nil`). -/
def splitLeafNode (fuel : Nat) (t : BPlusTree) (nodeID : Nat) (newKey newValue : List Nat)
    (parentID : Option Nat) : Except String BPlusTree :=
  match t.pm.GetPage nodeID with
  | Except.error e => Except.error e
  | Except.ok (_, pm1) =>
      match getLeafNodeEntries pm1 nodeID with
      | Except.error e => Except.error e
      | Except.ok (es, pm2) =>
          let pos := leafInsertPos newKey es
          let nes := es.take pos ++ (newKey, newValue) :: es.drop pos
          match pm2.AllocatePage with
          | Except.error e => Except.error e
          | Except.ok (newNode, pm3) =>
              let sp := nes.length / 2
              let pm4 := pm3.writePage newNode.id (fun d0 => writeByte d0 0 1)
              let pm5 := pm4.writePage nodeID (fun d0 => putU32 d0 1 sp)
              let oldNext := readU32 (pageContent pm5 nodeID) 5
              let pm6 := pm5.writePage newNode.id (fun d0 => putU32 d0 5 oldNext)
              let pm7 := pm6.writePage nodeID (fun d0 => putU32 d0 5 newNode.id)
              let pm8 := pm7.writePage nodeID (fun d0 => writeLeafEntriesAux d0 9 (nes.take sp))
              let pm9 := pm8.writePage newNode.id (fun d0 =>
                writeLeafEntriesAux (putU32 d0 1 (nes.length - sp)) 9 (nes.drop sp))
              let pm10 := (pm9.markDirty nodeID).markDirty newNode.id
              match parentID with
              | none => createNewRoot { t with pm := pm10 } nodeID newNode.id (nes.getD sp ([], [])).1
              | some pid =>
                  insertIntoParent fuel { t with pm := pm10 } pid nodeID newNode.id
                    (nes.getD sp ([], [])).1

/-- The scanning loop of `findChildNode` (`rem` counts the iterations
still to run, so `i = numKeys - rem`; the `0` case is the dead
past-the-loop return). -/
def findChildLoopAux (d : PageData) (key : List Nat) (numKeys firstChildID : Nat) :
    Nat → Nat → Nat
  | 0, off => readU32 d (off - 4)
  | rem + 1, off =>
      if bytesCompare key (readBytes d (off + 4) (readU32 d off)) = Ordering.lt then
        if rem + 1 = numKeys then firstChildID
        else readU32 d (off - 4)
      else if rem = 0 then readU32 d (off + 4 + readU32 d off)
      else findChildLoopAux d key numKeys firstChildID rem (off + 4 + readU32 d off + 4)

/-- `findChildNode`: pick the child pointer for `key` in a non-leaf node
(first child when `key` precedes the first stored key, the pointer left
of the first greater key, else the last pointer; an empty node yields
the pointer at offset 9). -/
def findChildNode (pm : PageManager) (nodeID : Nat) (key : List Nat) :
    Except String (Nat × PageManager) :=
  match pm.GetPage nodeID with
  | Except.error e => Except.error e
  | Except.ok (_, pm1) =>
      if readU32 (pageContent pm1 nodeID) 1 = 0 then
        Except.ok (readU32 (pageContent pm1 nodeID) 9, pm1)
      else
        Except.ok (findChildLoopAux (pageContent pm1 nodeID) key
          (readU32 (pageContent pm1 nodeID) 1) (readU32 (pageContent pm1 nodeID) 9)
          (readU32 (pageContent pm1 nodeID) 1) 13, pm1)

/-- `findLeafNode`: descend through non-leaf nodes until a node whose
type byte is `NodeTypeLeaf`; `fuel` bounds the descent. -/
def findLeafNode : Nat → PageManager → Nat → List Nat → Except String (Nat × PageManager)
  | 0, _, _, _ => Except.error "fuel exhausted"
  | fuel + 1, pm, nodeID, key =>
      match pm.GetPage nodeID with
      | Except.error e => Except.error e
      | Except.ok (_, pm1) =>
          if (pageContent pm1 nodeID) 0 = 1 then Except.ok (nodeID, pm1)
          else
            match findChildNode pm1 nodeID key with
            | Except.error e => Except.error e
            | Except.ok (childID, pm2) => findLeafNode fuel pm2 childID key

/-- The key scan of `Get` over a leaf's entry area. -/
def getScanAux (d : PageData) (key : List Nat) : Nat → Nat → Except String (List Nat)
  | 0, _ => Except.error "key not found"
  | n + 1, off =>
      if readBytes d (off + 4) (readU32 d off) = key then
        Except.ok (readBytes d (off + 4 + readU32 d off + 4)
          (readU32 d (off + 4 + readU32 d off)))
      else getScanAux d key n
        (off + 4 + readU32 d off + 4 + readU32 d (off + 4 + readU32 d off))

/-- `Get`: descend to the leaf for `key`, scan its entries, return the
value next to the first exact key match. -/
def BPlusTree.Get (t : BPlusTree) (fuel : Nat) (key : List Nat) :
    Except String (List Nat × PageManager) :=
  match findLeafNode fuel t.pm t.rootPageID key with
  | Except.error e => Except.error e
  | Except.ok (leafID, pm1) =>
      match pm1.GetPage leafID with
      | Except.error e => Except.error e
      | Except.ok (_, pm2) =>
          match getScanAux (pageContent pm2 leafID) key
              (readU32 (pageContent pm2 leafID) 1) 9 with
          | Except.error e => Except.error e
          | Except.ok v => Except.ok (v, pm2)

/-- The recursive `insert`: at a leaf, overwrite a duplicate in place
(the overwrite offset `9 + i*(len(existingKey)+8) + 4 + len(existingKey)`
counts 8 bytes of length fields per preceding entry but none of the
preceding value bytes), insert when below `order - 1` keys, else split;
at a non-leaf, descend into the chosen child. -/
def BPlusTree.insertRec : Nat → BPlusTree → Nat → List Nat → List Nat → Option Nat →
    Except String BPlusTree
  | 0, _, _, _, _, _ => Except.error "fuel exhausted"
  | fuel + 1, t, nodeID, key, value, parentID =>
      match t.pm.GetPage nodeID with
      | Except.error e => Except.error e
      | Except.ok (_, pm1) =>
          if (pageContent pm1 nodeID) 0 = 1 then
            match getLeafNodeEntries pm1 nodeID with
            | Except.error e => Except.error e
            | Except.ok (es, pm2) =>
                match dupIndex key es with
                | some (i, ek) =>
                    let pmw := (pm2.writePage nodeID (fun d0 =>
                      copyBytes
                        (putU32 d0 (9 + i * (ek.length + 8) + 4 + ek.length) value.length)
                        (9 + i * (ek.length + 8) + 4 + ek.length + 4) value)).markDirty nodeID
                    Except.ok { t with pm := pmw }
                | none =>
                    if readU32 (pageContent pm1 nodeID) 1 < t.order - 1 then
                      match insertIntoLeaf pm2 nodeID key value with
                      | Except.error e => Except.error e
                      | Except.ok pm3 => Except.ok { t with pm := pm3 }
                    else splitLeafNode fuel { t with pm := pm2 } nodeID key value parentID
          else if (pageContent pm1 nodeID) 0 = 0 then
            match findChildNode pm1 nodeID key with
            | Except.error e => Except.error e
            | Except.ok (childID, pm2) =>
                BPlusTree.insertRec fuel { t with pm := pm2 } childID key value (some nodeID)
          else Except.error "unknown node type"

/-- `Insert`: start the recursive insert at the root with no parent. -/
def BPlusTree.Insert (t : BPlusTree) (fuel : Nat) (key value : List Nat) :
    Except String BPlusTree :=
  BPlusTree.insertRec fuel t t.rootPageID key value none

/-- Has the scan passed `endKey` (`nil` end bound never stops)? -/
def pastEnd (endKey : Option (List Nat)) (cur : List Nat) : Bool :=
  match endKey with
  | none => false
  | some ek => bytesCompare cur ek == Ordering.gt

/-- Is `cur` within `[startKey, endKey]` (upper bound absent when
`endKey` is `nil`)? -/
def inRange (startKey : List Nat) (endKey : Option (List Nat)) (cur : List Nat) : Bool :=
  !(bytesCompare cur startKey == Ordering.lt) && !(pastEnd endKey cur)

/-- The per-leaf scan of `FindRange`: append in-range values to `acc`;
the `true` flag is the early return once a key passes `endKey`. -/
def findRangeScanAux (d : PageData) (startKey : List Nat) (endKey : Option (List Nat)) :
    Nat → Nat → List (List Nat) → List (List Nat) × Bool
  | 0, _, acc => (acc, false)
  | n + 1, off, acc =>
      let klen := readU32 d off
      let cur := readBytes d (off + 4) klen
      let vlen := readU32 d (off + 4 + klen)
      let acc1 :=
        if inRange startKey endKey cur then
          acc ++ [readBytes d (off + 4 + klen + 4) vlen]
        else acc
      if pastEnd endKey cur then (acc1, true)
      else findRangeScanAux d startKey endKey n (off + 4 + klen + 4 + vlen) acc1

/-- The leaf-chain walk of `FindRange` (`while leafNodeID != 0`); `fuel`
bounds the walk. -/
def findRangeLoop (startKey : List Nat) (endKey : Option (List Nat)) :
    Nat → PageManager → Nat → List (List Nat) →
    Except String (List (List Nat) × PageManager)
  | 0, _, _, _ => Except.error "fuel exhausted"
  | _ + 1, pm, 0, acc => Except.ok (acc, pm)
  | fuel + 1, pm, nid + 1, acc =>
      match pm.GetPage (nid + 1) with
      | Except.error e => Except.error e
      | Except.ok (_, pm1) =>
          match findRangeScanAux (pageContent pm1 (nid + 1)) startKey endKey
              (readU32 (pageContent pm1 (nid + 1)) 1) 9 acc with
          | (acc1, true) => Except.ok (acc1, pm1)
          | (acc1, false) =>
              findRangeLoop startKey endKey fuel pm1
                (readU32 (pageContent pm1 (nid + 1)) 5) acc1

/-- `FindRange`: descend to the leaf for `startKey`, then walk the leaf
chain collecting values of keys in `[startKey, endKey]`. -/
def BPlusTree.FindRange (t : BPlusTree) (fuel : Nat) (startKey : List Nat)
    (endKey : Option (List Nat)) : Except String (List (List Nat) × PageManager) :=
  match findLeafNode fuel t.pm t.rootPageID startKey with
  | Except.error e => Except.error e
  | Except.ok (leafID, pm1) => findRangeLoop startKey endKey fuel pm1 leafID []

/-- `NewBPlusTree`: order 128; a dirty root page (fresh allocation) is
initialised as an empty leaf. -/
def NewBPlusTree (pm : PageManager) (rootPageID : Nat) : Except String BPlusTree :=
  match pm.GetPage rootPageID with
  | Except.error e => Except.error e
  | Except.ok (p, pm1) =>
      if p.dirty then
        Except.ok ⟨pm1.writePage rootPageID
          (fun d => putU32 (putU32 (writeByte d 0 1) 1 0) 5 0), rootPageID, MaxKeysPerNode⟩
      else Except.ok ⟨pm1, rootPageID, MaxKeysPerNode⟩

/-- `CreateNewTree`: allocate a root page, initialise it as an empty
leaf, then run `NewBPlusTree` on it. -/
def CreateNewTree (pm : PageManager) : Except String BPlusTree :=
  match pm.AllocatePage with
  | Except.error e => Except.error e
  | Except.ok (p, pm1) =>
      NewBPlusTree (pm1.writePage p.id
        (fun d => putU32 (putU32 (writeByte d 0 1) 1 0) 5 0)) p.id

/-- Total byte size of a leaf entry area. -/
def leafEntriesSize : List (List Nat × List Nat) → Nat
  | [] => 0
  | (k, v) :: rest => 4 + k.length + 4 + v.length + leafEntriesSize rest

/-- Well-formed leaf entries: each key and value length fits its 4-byte
length field. -/
def LeafEntriesWF (es : List (List Nat × List Nat)) : Prop :=
  ∀ e ∈ es, e.1.length < 4294967296 ∧ e.2.length < 4294967296

/-! ## Concrete 127-key root leaf for the C3 run -/

/-- 127 leaf entries: single-byte keys `0 .. 126`, value `[0]`. -/
def c3entries : List (List Nat × List Nat) :=
  (List.range 127).map (fun i => ([i], [0]))

/-- The canonical page buffer of a root leaf holding `c3entries`:
type byte 1, count 127, next 0, then the entry area. -/
def c3leafData : PageData :=
  writeLeafEntriesAux (putU32 (putU32 (writeByte zeroPageData 0 1) 1 127) 5 0) 9 c3entries

/-- A cached, unpinned header page for the C3 page manager. -/
def c3header : DPage := ⟨0, headerPageData, false, 0⟩

/-- Page manager with the header and the full root leaf cached. -/
def c3pm : PageManager :=
  { numPages := 2, freePages := [],
    pageCache := fun j =>
      if j = 0 then some c3header
      else if j = 1 then some ⟨1, c3leafData, true, 1⟩ else none,
    filePages := 0, fileData := fun _ => zeroPageData }

/-- The tree whose root leaf holds 127 keys. -/
def c3tree : BPlusTree := ⟨c3pm, 1, 128⟩

/-! ## Concrete two-entry root leaf for the C1 run -/

/-- The leaf entries after `Insert("a","x")`, `Insert("b","y")`. -/
def c1entries : List (List Nat × List Nat) :=
  [(strBytes "a", strBytes "x"), (strBytes "b", strBytes "y")]

/-- Canonical page buffer of the root leaf holding `c1entries`. -/
def c1leafData : PageData :=
  writeLeafEntriesAux (putU32 (putU32 (writeByte zeroPageData 0 1) 1 2) 5 0) 9 c1entries

/-- Page manager with the header and the two-entry root leaf cached. -/
def c1pm : PageManager :=
  { numPages := 2, freePages := [],
    pageCache := fun j =>
      if j = 0 then some c3header
      else if j = 1 then some ⟨1, c1leafData, true, 1⟩ else none,
    filePages := 0, fileData := fun _ => zeroPageData }

/-- The tree holding `a ↦ x`, `b ↦ y`. -/
def c1tree : BPlusTree := ⟨c1pm, 1, 128⟩

/-! ## `DiskStorage.Insert` (`src/unnamed/part_004`)

`Insert` looks the table up, builds the row id, serializes the row and
inserts into the table's B+ tree — with no schema validation. -/

/-- `TableInfo`: the schema and the table's index tree (file-name fields
unmodeled; no claim touches them). -/
structure TableInfo where
  Schema : TableSchema
  IndexTree : BPlusTree

/-- `DiskStorage`: the tables map (directory, catalog file and mutex
unmodeled). -/
structure DiskStorage where
  tables : List (String × TableInfo)

/-- `DiskStorage.Insert`; `fuel` bounds the B+-tree insert descent. -/
def DiskStorage.Insert (ds : DiskStorage) (fuel : Nat) (tableName : String)
    (values : PRow) : Except String DiskStorage :=
  match mapGet ds.tables tableName with
  | none => Except.error ("table " ++ tableName ++ " does not exist")
  | some tableInfo =>
      match createRowID values tableInfo.Schema with
      | Except.error e => Except.error e
      | Except.ok rowID =>
          match tableInfo.IndexTree.Insert fuel rowID (serializeRow values tableInfo.Schema) with
          | Except.error e => Except.error e
          | Except.ok t' => Except.ok ⟨mapSet ds.tables tableName ⟨tableInfo.Schema, t'⟩⟩

/-- Empty-leaf root page for the C6 disk table. -/
def c6leafData : PageData := putU32 (putU32 (writeByte zeroPageData 0 1) 1 0) 5 0

/-- Page manager of the fresh C6 table: header plus empty root leaf. -/
def c6pm : PageManager :=
  { numPages := 2, freePages := [],
    pageCache := fun j =>
      if j = 0 then some c3header
      else if j = 1 then some ⟨1, c6leafData, true, 1⟩ else none,
    filePages := 0, fileData := fun _ => zeroPageData }

/-- The fresh B+ tree of the C6 disk table. -/
def c6tree : BPlusTree := ⟨c6pm, 1, 128⟩

/-- The NOT-NULL-violating row `{id: 1}` as a pkg row. -/
def c6row : PRow := [("id", PValue.int 1)]

/-- A disk storage holding the empty table `t` with schema `schemaT`. -/
def c6ds : DiskStorage := ⟨[("t", ⟨schemaT, c6tree⟩)]⟩

/-! ## Representation invariants for the C2 range-scan claim

The claim quantifies over "every B+-tree satisfying the node
invariants"; the predicates below formalise those invariants over the
page graph: a leaf page rendering an entry list, the leaf chain linked
through the next-page field, and an internal node whose children cover
consecutive slices of the chain, each slice bounded above by its
separator key. -/

/-- List-level shadow of the `FindRange` per-leaf scan. -/
def scanEntries (startKey : List Nat) (endKey : Option (List Nat)) :
    List (List Nat) → List (List Nat × List Nat) → List (List Nat) × Bool
  | acc, [] => (acc, false)
  | acc, (k, v) :: rest =>
      if pastEnd endKey k then
        (if inRange startKey endKey k then acc ++ [v] else acc, true)
      else
        scanEntries startKey endKey
          (if inRange startKey endKey k then acc ++ [v] else acc) rest

/-- List-level shadow of `findChildNode`: the child pointer left of the
first separator greater than `key`, else the last pointer. -/
def routeList (key : List Nat) (prev : Nat) : List (List Nat × Nat) → Nat
  | [] => prev
  | (k, p) :: rest =>
      if bytesCompare key k = Ordering.lt then prev else routeList key p rest

/-- A leaf page rendering the entry list `es`. -/
def LeafRepr (pm : PageManager) (id : Nat) (es : List (List Nat × List Nat)) : Prop :=
  (pageContent pm id) 0 = 1
  ∧ readU32 (pageContent pm id) 1 = es.length
  ∧ readLeafEntriesAux (pageContent pm id) es.length 9 = es
  ∧ id ≠ 0 ∧ id < pm.numPages
  ∧ (∃ p, pm.pageCache id = some p ∧ p.data = pageContent pm id)

/-- The leaf chain from `startId`: each chain element is a leaf page and
its entries, consecutive leaves linked by the next-page field, the last
leaf pointing to 0. -/
def ChainRepr (pm : PageManager) (startId : Nat) :
    List (Nat × List (List Nat × List Nat)) → Prop
  | [] => startId = 0
  | (id, es) :: rest => startId = id ∧ LeafRepr pm id es
      ∧ ChainRepr pm (readU32 (pageContent pm id) 5) rest

/-- The children of an internal node: starting from the pointer `prev`,
each separator key bounds (strictly, from above) every key in the slices
to its left that `R prev` covers. -/
def NodeChildren (R : Nat → List (Nat × List (List Nat × List Nat)) → Prop) :
    Nat → List (List Nat × Nat) → List (Nat × List (List Nat × List Nat)) → Prop
  | prev, [], part => R prev part
  | prev, (k, p) :: rest, part =>
      ∃ part1 part2, part = part1 ++ part2
        ∧ R prev part1
        ∧ (∀ le ∈ part1, ∀ e ∈ le.2, bytesCompare e.1 k = Ordering.lt)
        ∧ NodeChildren R p rest part2

/-- `NodeRepr pm depth id part`: the subtree of height `depth` rooted at
page `id` covers the consecutive chain slice `part`. -/
def NodeRepr (pm : PageManager) : Nat → Nat → List (Nat × List (List Nat × List Nat)) → Prop
  | 0, id, part => ∃ es, part = [(id, es)] ∧ LeafRepr pm id es
  | depth + 1, id, part =>
      (pageContent pm id) 0 = 0 ∧ id < pm.numPages
      ∧ (∃ p, pm.pageCache id = some p ∧ p.data = pageContent pm id)
      ∧ ∃ pairs, 1 ≤ pairs.length
          ∧ readU32 (pageContent pm id) 1 = pairs.length
          ∧ readNodeEntriesAux (pageContent pm id) pairs.length 13 = pairs
          ∧ NodeChildren (NodeRepr pm depth) (readU32 (pageContent pm id) 9) pairs part

/-- State evolution that preserves every page's content, the page count
and cached pages' data (`GetPage` pinning satisfies this). -/
def ContentPreserves (pm pmA : PageManager) : Prop :=
  pmA.numPages = pm.numPages
  ∧ (∀ j, pageContent pmA j = pageContent pm j)
  ∧ (∀ j p, pm.pageCache j = some p → ∃ q, pmA.pageCache j = some q ∧ q.data = p.data)

/-- The page id of the first leaf of a chain (0 for the empty chain). -/
def chainHeadId : List (Nat × List (List Nat × List Nat)) → Nat
  | [] => 0
  | (id, _) :: _ => id

/-! ### End of definitions (more definitions are inserted above this line) -/

/-! ## Association-list lemmas -/

theorem mapGet_mapSet_self {α : Type} (m : List (String × α)) (k : String) (v : α) :
    mapGet (mapSet m k v) k = some v := by
  induction m with
  | nil => simp [mapGet, mapSet]
  | cons p rest ih =>
      obtain ⟨k', v'⟩ := p
      by_cases h : k' = k
      · simp [mapGet, mapSet, h]
      · simp [mapGet, mapSet, h, ih]

theorem mapDel_mapSet_self {α : Type} (m : List (String × α)) (k : String) (v : α) :
    mapDel (mapSet m k v) k = mapDel m k := by
  induction m with
  | nil => simp [mapDel, mapSet]
  | cons p rest ih =>
      obtain ⟨k', v'⟩ := p
      by_cases h : k' = k
      · simp [mapDel, mapSet, h]
      · simp [mapDel, mapSet, h, ih]

theorem mapDel_of_not_mem {α : Type} (m : List (String × α)) (k : String)
    (h : mapGet m k = none) : mapDel m k = m := by
  induction m with
  | nil => simp [mapDel]
  | cons p rest ih =>
      obtain ⟨k', v'⟩ := p
      by_cases hk : k' = k
      · simp [mapGet, hk] at h
      · simp [mapGet, hk] at h
        simp [mapDel, hk, ih h]

theorem insertNotNullCheck_isSome (colName : String) (present isNull : Bool)
    (cs : List Constraint) :
    (insertNotNullCheck colName present isNull cs).isSome = true ↔
      (Constraint.notNull ∈ cs ∧ (present = false ∨ isNull = true)) := by
  induction cs with
  | nil => simp [insertNotNullCheck]
  | cons c rest ih =>
      simp only [insertNotNullCheck]
      by_cases h : c = Constraint.notNull ∧ (present = false ∨ isNull = true)
      · simp only [if_pos h, Option.isSome_some, List.mem_cons]
        exact ⟨fun _ => ⟨Or.inl h.1.symm, h.2⟩, fun _ => trivial⟩
      · simp only [if_neg h, ih, List.mem_cons]
        constructor
        · rintro ⟨hm, hd⟩
          exact ⟨Or.inr hm, hd⟩
        · rintro ⟨hm, hd⟩
          rcases hm with hm | hm
          · exact absurd ⟨hm.symm, hd⟩ h
          · exact ⟨hm, hd⟩

theorem colViolation_of_none (values : Row) (col : ColumnDef)
    (hv : mapGet values col.name = none) :
    ColViolation values col ↔ Constraint.notNull ∈ col.constraints := by
  unfold ColViolation
  rw [hv]
  simp

theorem colViolation_of_some (values : Row) (col : ColumnDef) (v : LitValue)
    (hv : mapGet values col.name = some v) :
    ColViolation values col ↔
      ((Constraint.notNull ∈ col.constraints ∧ v.dataType = DataType.null) ∨
        (v.dataType ≠ DataType.null ∧ v.dataType ≠ col.dataType)) := by
  unfold ColViolation
  rw [hv]
  simp

theorem insertValidate_cons_isSome (values : Row) (col : ColumnDef)
    (rest : List ColumnDef) :
    (insertValidate values (col :: rest)).isSome = true ↔
      (ColViolation values col ∨ (insertValidate values rest).isSome = true) := by
  simp only [insertValidate]
  cases hv : mapGet values col.name with
  | none =>
      rw [colViolation_of_none values col hv]
      cases hnn : insertNotNullCheck col.name false false col.constraints with
      | some e =>
          have hmem := (insertNotNullCheck_isSome col.name false false col.constraints).mp
            (by rw [hnn]; rfl)
          simp [hnn, hmem.1]
      | none =>
          have hnomem : ¬ (Constraint.notNull ∈ col.constraints) := by
            intro hmem
            have h2 : (insertNotNullCheck col.name false false col.constraints).isSome
                = true := by
              rw [insertNotNullCheck_isSome]
              exact ⟨hmem, Or.inl rfl⟩
            rw [hnn] at h2
            simp at h2
          simp [hnn, hnomem]
  | some v =>
      rw [colViolation_of_some values col v hv]
      cases hnn : insertNotNullCheck col.name true v.AsNull col.constraints with
      | some e =>
          have hmem := (insertNotNullCheck_isSome col.name true v.AsNull col.constraints).mp
            (by rw [hnn]; rfl)
          have hnull : v.dataType = DataType.null := by
            rcases hmem.2 with h | h
            · exact absurd h (by simp)
            · simpa [LitValue.AsNull] using h
          simp [hnn, hmem.1, hnull]
      | none =>
          have hno : ¬ (Constraint.notNull ∈ col.constraints ∧ v.AsNull = true) := by
            intro hmem
            have h2 : (insertNotNullCheck col.name true v.AsNull col.constraints).isSome
                = true := by
              rw [insertNotNullCheck_isSome]
              exact ⟨hmem.1, Or.inr hmem.2⟩
            rw [hnn] at h2
            simp at h2
          by_cases hty : v.AsNull = false ∧ v.dataType ≠ col.dataType
          · have hnnull : v.dataType ≠ DataType.null := by
              have h3 := hty.1
              simpa [LitValue.AsNull] using h3
            simp only [hnn]
            simp [hty.1, hnnull, hty.2]
          · by_cases hnull : v.dataType = DataType.null
            · have hAs : v.AsNull = true := by simp [LitValue.AsNull, hnull]
              have hnm : ¬ Constraint.notNull ∈ col.constraints := fun hm => hno ⟨hm, hAs⟩
              simp only [hnn]
              simp [hAs, hnull, hnm]
            · have hAs : v.AsNull = false := by simp [LitValue.AsNull, hnull]
              have hdt : v.dataType = col.dataType := by
                by_contra hne
                exact hty ⟨hAs, hne⟩
              simp only [hnn]
              simp [hAs, hnull, hdt]
              intro _ hcd
              exact absurd (hdt.trans hcd) hnull

theorem insertValidate_isSome (values : Row) (cols : List ColumnDef) :
    (insertValidate values cols).isSome = true ↔ ∃ col ∈ cols, ColViolation values col := by
  induction cols with
  | nil => simp [insertValidate]
  | cons col rest ih =>
      rw [insertValidate_cons_isSome, ih]
      constructor
      · rintro (h | ⟨c, hc, hviol⟩)
        · exact ⟨col, List.mem_cons_self col rest, h⟩
        · exact ⟨c, List.mem_cons_of_mem col hc, hviol⟩
      · rintro ⟨c, hc, hviol⟩
        rcases List.mem_cons.mp hc with hceq | hc
        · subst hceq
          exact Or.inl hviol
        · exact Or.inr ⟨c, hc, hviol⟩

/-! ## UPDATE validation (claim C10) -/

theorem updateNotNullCheck_isSome (colName : String) (isNull : Bool)
    (cs : List Constraint) :
    (updateNotNullCheck colName isNull cs).isSome = true ↔
      (Constraint.notNull ∈ cs ∧ isNull = true) := by
  induction cs with
  | nil => simp [updateNotNullCheck]
  | cons c rest ih =>
      simp only [updateNotNullCheck]
      by_cases h : c = Constraint.notNull ∧ isNull = true
      · simp only [if_pos h, Option.isSome_some, List.mem_cons]
        exact ⟨fun _ => ⟨Or.inl h.1.symm, h.2⟩, fun _ => trivial⟩
      · simp only [if_neg h, ih, List.mem_cons]
        constructor
        · rintro ⟨hm, hd⟩
          exact ⟨Or.inr hm, hd⟩
        · rintro ⟨hm, hd⟩
          rcases hm with hm | hm
          · exact absurd ⟨hm.symm, hd⟩ h
          · exact ⟨hm, hd⟩

theorem updateValidate_cons_isSome (schema : TableSchema) (colName : String)
    (val : LitValue) (rest : List (String × LitValue)) :
    (updateValidate schema ((colName, val) :: rest)).isSome = true ↔
      (SetColViolation schema (colName, val) ∨
        (updateValidate schema rest).isSome = true) := by
  simp only [updateValidate]
  cases hc : getColumnAux schema.columns colName with
  | none =>
      constructor
      · intro _
        exact Or.inl (Or.inl hc)
      · intro _
        rfl
  | some col =>
      dsimp only
      by_cases hty : val.AsNull = false ∧ val.dataType ≠ col.dataType
      · have hnnull : val.dataType ≠ DataType.null := by
          have h3 := hty.1
          simpa [LitValue.AsNull] using h3
        simp [SetColViolation, hc, hty, hnnull, hty.2]
      · cases hnn : updateNotNullCheck colName val.AsNull col.constraints with
        | some e =>
            have hmem := (updateNotNullCheck_isSome colName val.AsNull col.constraints).mp
              (by rw [hnn]; rfl)
            have hnull : val.dataType = DataType.null := by
              have h3 := hmem.2
              simpa [LitValue.AsNull] using h3
            rw [if_neg hty]
            simp [SetColViolation, hnn, hc, hmem.1, hnull]
        | none =>
            have hnoviol : ¬ SetColViolation schema (colName, val) := by
              intro hviol
              rcases hviol with hnone | ⟨col', hcol', hne, hnety⟩ | ⟨col', hcol', hmem, hnull⟩
              · rw [hc] at hnone
                exact Option.noConfusion hnone
              · rw [hc] at hcol'
                injection hcol' with hcol'
                subst hcol'
                refine hty ⟨?_, hnety⟩
                simp only [LitValue.AsNull, decide_eq_false_iff_not]
                exact hne
              · rw [hc] at hcol'
                injection hcol' with hcol'
                subst hcol'
                have h2 : (updateNotNullCheck colName val.AsNull col.constraints).isSome
                    = true := by
                  rw [updateNotNullCheck_isSome]
                  refine ⟨hmem, ?_⟩
                  simp only [LitValue.AsNull, decide_eq_true_eq]
                  exact hnull
                rw [hnn] at h2
                simp at h2
            simp [hty, hnn, hnoviol]

theorem updateValidate_isSome (schema : TableSchema)
    (values : List (String × LitValue)) :
    (updateValidate schema values).isSome = true ↔ SetViolation schema values := by
  induction values with
  | nil => simp [updateValidate, SetViolation]
  | cons p rest ih =>
      obtain ⟨colName, val⟩ := p
      rw [updateValidate_cons_isSome, ih]
      unfold SetViolation
      constructor
      · rintro (h | ⟨q, hq, hviol⟩)
        · exact ⟨(colName, val), List.mem_cons_self _ _, h⟩
        · exact ⟨q, List.mem_cons_of_mem _ hq, hviol⟩
      · rintro ⟨q, hq, hviol⟩
        rcases List.mem_cons.mp hq with hqe | hq
        · subst hqe
          exact Or.inl hviol
        · exact Or.inr ⟨q, hq, hviol⟩

/-- Claim C10: `MemoryStorage.Update` validates every SET value against the
schema before touching any row: when some SET column does not exist, or a
non-Null SET value's tag differs from the declared column type, or a SET
value is Null for a NOT NULL column, `Update` returns an error with zero
rows modified and the storage (hence every stored row) unchanged, whatever
the condition predicate matches. -/
theorem MemoryStorage.Update_validates_first (s : MemoryStorage) (tn : String)
    (values : List (String × LitValue)) (cond : Row → Except String Bool)
    (rows : List Row) (schema : TableSchema)
    (ht : mapGet s.tables tn = some rows) (hs2 : mapGet s.schemas tn = some schema)
    (hviol : SetViolation schema values) :
    ∃ e, MemoryStorage.Update s tn values cond = (s, 0, some e) := by
  have h2 : (updateValidate schema values).isSome = true :=
    (updateValidate_isSome schema values).mpr hviol
  cases hval : updateValidate schema values with
  | none => rw [hval] at h2; simp at h2
  | some e =>
      refine ⟨e, ?_⟩
      unfold MemoryStorage.Update
      simp only [ht, hs2, hval]

/-- Witness for C10: updating `name` to NULL on `schemaT` is rejected with
zero rows modified and unchanged storage. -/
theorem MemoryStorage.Update_validates_first_witness :
    ∃ e, MemoryStorage.Update storT "t" [("name", nullV)] (fun _ => Except.ok true)
      = (storT, 0, some e) :=
  MemoryStorage.Update_validates_first storT "t" [("name", nullV)]
    (fun _ => Except.ok true) [] schemaT rfl rfl
    (by decide)

/-! ## INSERT validation on the in-memory store (claim C6, amended part) -/

/-- Claim C6 (amended): `MemoryStorage.Insert` fails, leaving the table's
row set unchanged, exactly when some NotNull column is absent or Null or
some present column's tag differs from its declared type (Null permitted
unless NotNull); otherwise it succeeds and appends the row.  (The
disk-based store's `Insert` performs no such validation; see the
counterexample.) -/
theorem MemoryStorage.Insert_validates (s : MemoryStorage) (tn : String) (values : Row)
    (rows : List Row) (schema : TableSchema)
    (ht : mapGet s.tables tn = some rows) (hsc : mapGet s.schemas tn = some schema) :
    ((MemoryStorage.Insert s tn values).2.isSome = true ↔ InsertViolation schema values)
    ∧ (InsertViolation schema values → (MemoryStorage.Insert s tn values).1 = s)
    ∧ (¬ InsertViolation schema values →
        (MemoryStorage.Insert s tn values).1.tables
          = mapSet s.tables tn (rows ++ [values])) := by
  cases hval : insertValidate values schema.columns with
  | some e =>
      have hv : InsertViolation schema values :=
        (insertValidate_isSome values schema.columns).mp (by rw [hval]; rfl)
      unfold MemoryStorage.Insert
      simp only [ht, hsc, hval]
      exact ⟨by simp [hv], fun _ => by trivial, fun h => absurd hv h⟩
  | none =>
      have hnv : ¬ InsertViolation schema values := by
        intro h
        have h2 := (insertValidate_isSome values schema.columns).mpr h
        rw [hval] at h2
        simp at h2
      unfold MemoryStorage.Insert
      simp only [ht, hsc, hval]
      exact ⟨by simp [hnv], fun h => absurd h hnv, fun _ => by trivial⟩

/-- Witness for C6: on `schemaT`, inserting `{id: 1}` (no `name`) is a
violation and is rejected with the storage unchanged. -/
theorem MemoryStorage.Insert_validates_witness :
    ((MemoryStorage.Insert storT "t" rowMissingName).2.isSome = true
        ↔ InsertViolation schemaT rowMissingName)
    ∧ (InsertViolation schemaT rowMissingName →
        (MemoryStorage.Insert storT "t" rowMissingName).1 = storT)
    ∧ (¬ InsertViolation schemaT rowMissingName →
        (MemoryStorage.Insert storT "t" rowMissingName).1.tables
          = mapSet storT.tables "t" ([] ++ [rowMissingName])) :=
  MemoryStorage.Insert_validates storT "t" rowMissingName [] schemaT rfl rfl

/-! ## Multi-row INSERT error reporting (claim C7) -/

theorem insertLoop_append {σ : Type} (st : StorageOps σ) (tn : String)
    (cols : List String) (pre xs : List (List LitValue)) (s s' : σ) (k0 k : Nat)
    (h : insertLoop st tn cols s pre k0 = (s', ⟨ResultType.success, k, none⟩)) :
    insertLoop st tn cols s (pre ++ xs) k0 = insertLoop st tn cols s' xs k := by
  induction pre generalizing s k0 with
  | nil =>
      simp only [insertLoop] at h
      injection h with h1 h2
      injection h2 with h2a h2b _
      subst h1
      subst h2b
      simp
  | cons v pre ih =>
      simp only [insertLoop, List.cons_append] at h ⊢
      by_cases harity : v.length ≠ cols.length
      · rw [if_pos harity] at h
        simp at h
      · rw [if_neg harity] at h ⊢
        rcases hins : st.Insert s tn (buildRow cols v []) with ⟨s1, e?⟩
        rw [hins] at h
        cases e? with
        | some e => simp at h
        | none => exact ih s1 (k0 + 1) h

/-- Claim C7 (amended): in a multi-row INSERT whose first tuples all store
successfully, execution stops at the first failing tuple and the result
carries the error; `rows_affected` equals the count of stored tuples when
the failure is a storage error, but is 0 (the struct's zero value) when
the failure is an arity mismatch, even though the earlier tuples remain
stored. -/
theorem executeInsert_stops_at_failing_tuple {σ : Type} (cat : Catalog)
    (st : StorageOps σ) (s : σ) (tn : String) (cols : List String)
    (schema : TableSchema) (pre : List (List LitValue)) (bad : List LitValue)
    (rest : List (List LitValue)) (s' : σ) (k : Nat)
    (hcat : cat.GetTable tn = some schema)
    (hcols : insertCheckColumns schema cols = none)
    (hpre : insertLoop st tn cols s pre 0 = (s', ⟨ResultType.success, k, none⟩)) :
    (bad.length ≠ cols.length →
      executeInsert cat st s tn cols (pre ++ bad :: rest)
        = (s', ⟨ResultType.resultError, 0, some "column count doesn't match value count"⟩))
    ∧ (∀ s'' e, bad.length = cols.length →
        st.Insert s' tn (buildRow cols bad []) = (s'', some e) →
        executeInsert cat st s tn cols (pre ++ bad :: rest)
          = (s'', ⟨ResultType.resultError, k, some e⟩)) := by
  have hrun : executeInsert cat st s tn cols (pre ++ bad :: rest)
      = insertLoop st tn cols s' (bad :: rest) k := by
    unfold executeInsert
    simp only [hcat, hcols]
    exact insertLoop_append st tn cols pre (bad :: rest) s s' 0 k hpre
  constructor
  · intro harity
    rw [hrun]
    simp only [insertLoop]
    rw [if_pos harity]
  · intro s'' e harity hins
    rw [hrun]
    simp only [insertLoop]
    rw [if_neg (by simp [harity]), hins]

/-- Witness for C7: with table `t(a INT)` holding one inserted row, a
second tuple of wrong arity yields the error result with
`rows_affected = 0`, and a failing storage insert would yield
`rows_affected = 1`. -/
theorem executeInsert_stops_at_failing_tuple_witness :
    (([intV 1, intV 2] : List LitValue).length ≠ (["a"] : List String).length →
      executeInsert catA memStorageOps storA "t" ["a"] ([[intV 1]] ++ [intV 1, intV 2] :: [])
        = (storA1, ⟨ResultType.resultError, 0, some "column count doesn't match value count"⟩))
    ∧ (∀ s'' e, ([intV 1, intV 2] : List LitValue).length = (["a"] : List String).length →
        memStorageOps.Insert storA1 "t" (buildRow ["a"] [intV 1, intV 2] []) = (s'', some e) →
        executeInsert catA memStorageOps storA "t" ["a"] ([[intV 1]] ++ [intV 1, intV 2] :: [])
          = (s'', ⟨ResultType.resultError, 1, some e⟩)) :=
  executeInsert_stops_at_failing_tuple catA memStorageOps storA "t" ["a"] schemaA
    [[intV 1]] [intV 1, intV 2] [] storA1 1 rfl rfl rfl

/-- Counterexample for C7 as stated: the first tuple of the INSERT is
stored successfully (the table then holds one row) and the second tuple
fails the arity check, yet the result reports `rows_affected = 0`, not 1. -/
theorem executeInsert_arity_rowsAffected_zero :
    (executeInsert catA memStorageOps storA "t" ["a"] [[intV 1], [intV 1, intV 2]]).2
      = ⟨ResultType.resultError, 0, some "column count doesn't match value count"⟩
    ∧ (mapGet (executeInsert catA memStorageOps storA "t" ["a"]
        [[intV 1], [intV 1, intV 2]]).1.tables "t").map List.length = some 1 := by
  constructor
  · rfl
  · rfl

/-! ## CREATE TABLE catalog rollback (claim C8) -/

/-- Claim C8: CREATE TABLE is atomic with respect to the catalog: when the
schema registers in the catalog but storage-level creation fails, the
catalog entry is rolled back before the error result is returned, so the
table is absent from the catalog afterward (the catalog equals its
original value). -/
theorem executeCreateTable_rollback {σ : Type} (cat : Catalog) (st : StorageOps σ)
    (s : σ) (tn : String) (cols : List ColumnDef) (s1 : σ) (e : String)
    (hnew : mapGet cat tn = none)
    (hfail : st.CreateTable s tn ⟨tn, cols⟩ = (s1, some e)) :
    executeCreateTable cat st s tn cols
      = (cat, s1, ⟨ResultType.resultError, 0, some e⟩)
    ∧ mapGet (executeCreateTable cat st s tn cols).1 tn = none := by
  have hmain : executeCreateTable cat st s tn cols
      = (cat, s1, ⟨ResultType.resultError, 0, some e⟩) := by
    unfold executeCreateTable Catalog.CreateTable Catalog.GetTable Catalog.DropTable
    simp only [hnew, mapGet_mapSet_self, hfail, mapDel_mapSet_self,
      mapDel_of_not_mem cat tn hnew]
  exact ⟨hmain, by rw [hmain]; exact hnew⟩

/-- Witness for C8: a storage whose CreateTable fails rolls the catalog
back to empty. -/
theorem executeCreateTable_rollback_witness :
    executeCreateTable ([] : Catalog) failStorageOps () "t" [⟨"a", DataType.int, []⟩]
      = ([], (), ⟨ResultType.resultError, 0, some "storage create failed"⟩)
    ∧ mapGet (executeCreateTable ([] : Catalog) failStorageOps () "t"
        [⟨"a", DataType.int, []⟩]).1 "t" = none :=
  executeCreateTable_rollback [] failStorageOps () "t" [⟨"a", DataType.int, []⟩] ()
    "storage create failed" rfl rfl

/-! ## Composite row-id round-trip (claim C4) -/

theorem getD_append_len (l1 l2 : List Nat) (i : Nat) :
    (l1 ++ l2).getD (l1.length + i) 0 = l2.getD i 0 := by
  rw [List.getD_eq_getElem?_getD, List.getD_eq_getElem?_getD,
    List.getElem?_append_right (Nat.le_add_right _ _)]
  have h : l1.length + i - l1.length = i := by omega
  rw [h]

theorem leBytes_length (w v : Nat) : (leBytes w v).length = w := by
  induction w generalizing v with
  | zero => rfl
  | succ w ih => simp [leBytes, ih]

theorem leRead_leBytes (w v : Nat) : leRead (leBytes w v) = v % 2 ^ (8 * w) := by
  induction w generalizing v with
  | zero => simp [leBytes, leRead]; omega
  | succ w ih =>
      have h2 : 2 ^ (8 * (w + 1)) = 256 * 2 ^ (8 * w) := by ring
      rw [leBytes, leRead, ih, h2, Nat.mod_mul]

theorem toUInt64_lt (i : Int) : toUInt64 i < 2 ^ 64 := by
  unfold toUInt64
  have h1 := Int.emod_nonneg i (by norm_num : (2 : Int) ^ 64 ≠ 0)
  have h2 : i % (2 ^ 64 : Int) < 2 ^ 64 := Int.emod_lt_of_pos i (by norm_num)
  omega

theorem toInt64_toUInt64 (i : Int) (h1 : -(2 ^ 63) ≤ i) (h2 : i < 2 ^ 63) :
    toInt64 (toUInt64 i) = i := by
  have e63n : (2 : Nat) ^ 63 = 9223372036854775808 := by norm_num
  have e63i : (2 : Int) ^ 63 = 9223372036854775808 := by norm_num
  have e64i : (2 : Int) ^ 64 = 18446744073709551616 := by norm_num
  unfold toInt64 toUInt64
  simp only [e63n, e63i, e64i] at h1 h2 ⊢
  split <;> omega

theorem intPayload_roundtrip (i : Int) (h1 : -(2 ^ 63) ≤ i) (h2 : i < 2 ^ 63) :
    toInt64 (leRead (leBytes 8 (toUInt64 i))) = i := by
  rw [leRead_leBytes]
  rw [Nat.mod_eq_of_lt (by have := toUInt64_lt i; norm_num at this ⊢; omega)]
  exact toInt64_toUInt64 i h1 h2

theorem fromBytesLoop_encode (vs : List PValue) (front : List Nat)
    (henc : ∀ v ∈ vs, PValueEncodable v) :
    fromBytesLoop (front ++ compositeComponentsBytes vs (vs.map PValue.Type))
      front.length vs.length = Except.ok (vs, vs.map PValue.Type) := by
  induction vs generalizing front with
  | nil => simp [compositeComponentsBytes, fromBytesLoop]
  | cons v vs ih =>
      have hrest : ∀ w ∈ vs, PValueEncodable w :=
        fun w hw => henc w (List.mem_cons_of_mem v hw)
      cases v with
      | int i =>
          obtain ⟨hi1, hi2⟩ := henc (PValue.int i) (List.mem_cons_self _ _)
          have hplen : (leBytes 8 (toUInt64 i)).length = 8 := leBytes_length 8 _
          simp only [List.map_cons, List.length_cons, compositeComponentsBytes,
            componentPayload, PValue.Type, PValue.AsIntOrZero, DataType.tag]
          simp only [List.cons_append, List.nil_append, List.append_assoc]
          simp only [fromBytesLoop]
          have hc1 : ¬ ((front ++ 1 :: (leBytes 8 (toUInt64 i)
              ++ compositeComponentsBytes vs (List.map PValue.Type vs))).length
                ≤ front.length) := by
            simp only [List.length_append, List.length_cons]
            omega
          rw [if_neg hc1]
          have ht : (front ++ 1 :: (leBytes 8 (toUInt64 i)
              ++ compositeComponentsBytes vs (List.map PValue.Type vs))).getD
                front.length 0 = 1 := by
            have h0 := getD_append_len front (1 :: (leBytes 8 (toUInt64 i)
              ++ compositeComponentsBytes vs (List.map PValue.Type vs))) 0
            rw [Nat.add_zero] at h0
            rw [h0]
            rfl
          rw [ht, if_pos rfl]
          have hc2 : ¬ ((front ++ 1 :: (leBytes 8 (toUInt64 i)
              ++ compositeComponentsBytes vs (List.map PValue.Type vs))).length
                < front.length + 1 + 8) := by
            simp only [List.length_append, List.length_cons, List.length_append, hplen]
            omega
          rw [if_neg hc2]
          have hread : ((front ++ 1 :: (leBytes 8 (toUInt64 i)
              ++ compositeComponentsBytes vs (List.map PValue.Type vs))).drop
                (front.length + 1)).take 8 = leBytes 8 (toUInt64 i) := by
            have h1 : front ++ 1 :: (leBytes 8 (toUInt64 i)
                ++ compositeComponentsBytes vs (List.map PValue.Type vs))
                = (front ++ [1]) ++ (leBytes 8 (toUInt64 i)
                  ++ compositeComponentsBytes vs (List.map PValue.Type vs)) := by
              simp
            have h2 : front.length + 1 = (front ++ [1]).length := by simp
            rw [h1, h2, List.drop_left]
            exact List.take_left' hplen
          rw [hread, intPayload_roundtrip i hi1 hi2]
          have hrec : fromBytesLoop (front ++ 1 :: (leBytes 8 (toUInt64 i)
              ++ compositeComponentsBytes vs (List.map PValue.Type vs)))
                (front.length + 9) vs.length
              = Except.ok (vs, List.map PValue.Type vs) := by
            have h1 : front ++ 1 :: (leBytes 8 (toUInt64 i)
                ++ compositeComponentsBytes vs (List.map PValue.Type vs))
                = (front ++ 1 :: leBytes 8 (toUInt64 i))
                  ++ compositeComponentsBytes vs (List.map PValue.Type vs) := by
              simp
            have h2 : front.length + 9 = (front ++ 1 :: leBytes 8 (toUInt64 i)).length := by
              simp only [List.length_append, List.length_cons, hplen]
            rw [h1, h2]
            exact ih (front ++ 1 :: leBytes 8 (toUInt64 i)) hrest
          rw [hrec]
          simp [Except.map, NewIntValue]
      | str s =>
          have hs := henc (PValue.str s) (List.mem_cons_self _ _)
          have hs32 : s.length < 2 ^ 32 := hs
          have hplen : (leBytes 4 s.length).length = 4 := leBytes_length 4 _
          simp only [List.map_cons, List.length_cons, compositeComponentsBytes,
            componentPayload, PValue.Type, PValue.AsStringBytes, DataType.tag]
          simp only [List.cons_append, List.nil_append, List.append_assoc]
          simp only [fromBytesLoop]
          have hc1 : ¬ ((front ++ 3 :: (leBytes 4 s.length
              ++ (s ++ compositeComponentsBytes vs (List.map PValue.Type vs)))).length
                ≤ front.length) := by
            simp only [List.length_append, List.length_cons]
            omega
          rw [if_neg hc1]
          have ht : (front ++ 3 :: (leBytes 4 s.length
              ++ (s ++ compositeComponentsBytes vs (List.map PValue.Type vs)))).getD
                front.length 0 = 3 := by
            have h0 := getD_append_len front (3 :: (leBytes 4 s.length
              ++ (s ++ compositeComponentsBytes vs (List.map PValue.Type vs)))) 0
            rw [Nat.add_zero] at h0
            rw [h0]
            rfl
          rw [ht]
          rw [if_neg (by decide : ¬ (3 : Nat) = 1), if_pos rfl]
          have hc2 : ¬ ((front ++ 3 :: (leBytes 4 s.length
              ++ (s ++ compositeComponentsBytes vs (List.map PValue.Type vs)))).length
                < front.length + 1 + 4) := by
            simp only [List.length_append, List.length_cons, hplen]
            omega
          rw [if_neg hc2]
          have hread4 : ((front ++ 3 :: (leBytes 4 s.length
              ++ (s ++ compositeComponentsBytes vs (List.map PValue.Type vs)))).drop
                (front.length + 1)).take 4 = leBytes 4 s.length := by
            have h1 : front ++ 3 :: (leBytes 4 s.length
                ++ (s ++ compositeComponentsBytes vs (List.map PValue.Type vs)))
                = (front ++ [3]) ++ (leBytes 4 s.length
                  ++ (s ++ compositeComponentsBytes vs (List.map PValue.Type vs))) := by
              simp
            have h2 : front.length + 1 = (front ++ [3]).length := by simp
            rw [h1, h2, List.drop_left]
            exact List.take_left' hplen
          have hstrlen : leRead (((front ++ 3 :: (leBytes 4 s.length
              ++ (s ++ compositeComponentsBytes vs (List.map PValue.Type vs)))).drop
                (front.length + 1)).take 4) = s.length := by
            rw [hread4, leRead_leBytes]
            have : 2 ^ (8 * 4) = 2 ^ 32 := by norm_num
            rw [this]
            exact Nat.mod_eq_of_lt hs32
          rw [hstrlen]
          have hc3 : ¬ ((front ++ 3 :: (leBytes 4 s.length
              ++ (s ++ compositeComponentsBytes vs (List.map PValue.Type vs)))).length
                < front.length + 5 + s.length) := by
            simp only [List.length_append, List.length_cons, hplen]
            omega
          rw [if_neg hc3]
          have hreads : ((front ++ 3 :: (leBytes 4 s.length
              ++ (s ++ compositeComponentsBytes vs (List.map PValue.Type vs)))).drop
                (front.length + 5)).take s.length = s := by
            have h1 : front ++ 3 :: (leBytes 4 s.length
                ++ (s ++ compositeComponentsBytes vs (List.map PValue.Type vs)))
                = (front ++ 3 :: leBytes 4 s.length)
                  ++ (s ++ compositeComponentsBytes vs (List.map PValue.Type vs)) := by
              simp
            have h2 : front.length + 5 = (front ++ 3 :: leBytes 4 s.length).length := by
              simp only [List.length_append, List.length_cons, hplen]
            rw [h1, h2, List.drop_left]
            exact List.take_left' rfl
          rw [hreads]
          have hrec : fromBytesLoop (front ++ 3 :: (leBytes 4 s.length
              ++ (s ++ compositeComponentsBytes vs (List.map PValue.Type vs))))
                (front.length + 5 + s.length) vs.length
              = Except.ok (vs, List.map PValue.Type vs) := by
            have h1 : front ++ 3 :: (leBytes 4 s.length
                ++ (s ++ compositeComponentsBytes vs (List.map PValue.Type vs)))
                = (front ++ 3 :: (leBytes 4 s.length ++ s))
                  ++ compositeComponentsBytes vs (List.map PValue.Type vs) := by
              simp
            have h2 : front.length + 5 + s.length
                = (front ++ 3 :: (leBytes 4 s.length ++ s)).length := by
              simp only [List.length_append, List.length_cons, hplen]
              omega
            rw [h1, h2]
            exact ih (front ++ 3 :: (leBytes 4 s.length ++ s)) hrest
          rw [hrec]
          simp [Except.map, NewStringValue]
      | bool b =>
          simp only [List.map_cons, List.length_cons, compositeComponentsBytes,
            componentPayload, PValue.Type, PValue.AsBoolOrFalse, DataType.tag]
          simp only [List.cons_append, List.nil_append, List.append_assoc]
          simp only [fromBytesLoop]
          have hc1 : ¬ ((front ++ 4 :: ((if b then 1 else 0)
              :: compositeComponentsBytes vs (List.map PValue.Type vs))).length
                ≤ front.length) := by
            simp only [List.length_append, List.length_cons]
            omega
          rw [if_neg hc1]
          have ht : (front ++ 4 :: ((if b then 1 else 0)
              :: compositeComponentsBytes vs (List.map PValue.Type vs))).getD
                front.length 0 = 4 := by
            have h0 := getD_append_len front (4 :: ((if b then 1 else 0)
              :: compositeComponentsBytes vs (List.map PValue.Type vs))) 0
            rw [Nat.add_zero] at h0
            rw [h0]
            rfl
          rw [ht]
          rw [if_neg (by decide : ¬ (4 : Nat) = 1), if_neg (by decide : ¬ (4 : Nat) = 3),
            if_pos rfl]
          have hc2 : ¬ ((front ++ 4 :: ((if b then 1 else 0)
              :: compositeComponentsBytes vs (List.map PValue.Type vs))).length
                ≤ front.length + 1) := by
            simp only [List.length_append, List.length_cons]
            omega
          rw [if_neg hc2]
          have hbyte : (front ++ 4 :: ((if b then 1 else 0)
              :: compositeComponentsBytes vs (List.map PValue.Type vs))).getD
                (front.length + 1) 0 = (if b then 1 else 0) := by
            have h1 : front ++ 4 :: ((if b then 1 else 0)
                :: compositeComponentsBytes vs (List.map PValue.Type vs))
                = (front ++ [4]) ++ ((if b then 1 else 0)
                  :: compositeComponentsBytes vs (List.map PValue.Type vs)) := by
              simp
            have h0 := getD_append_len (front ++ [4]) ((if b then 1 else 0)
              :: compositeComponentsBytes vs (List.map PValue.Type vs)) 0
            rw [Nat.add_zero] at h0
            rw [h1]
            have h2 : (front ++ [4]).length = front.length + 1 := by simp
            rw [h2] at h0
            rw [h0]
            rfl
          rw [hbyte]
          have hrec : fromBytesLoop (front ++ 4 :: ((if b then 1 else 0)
              :: compositeComponentsBytes vs (List.map PValue.Type vs)))
                (front.length + 2) vs.length
              = Except.ok (vs, List.map PValue.Type vs) := by
            have h1 : front ++ 4 :: ((if b then 1 else 0)
                :: compositeComponentsBytes vs (List.map PValue.Type vs))
                = (front ++ [4, if b then 1 else 0])
                  ++ compositeComponentsBytes vs (List.map PValue.Type vs) := by
              simp
            have h2 : front.length + 2 = (front ++ [4, if b then 1 else 0]).length := by
              simp
            rw [h1, h2]
            exact ih (front ++ [4, if b then 1 else 0]) hrest
          rw [hrec]
          cases b <;> simp [Except.map, NewBoolValue]
      | float => exact absurd (henc PValue.float (List.mem_cons_self _ _)) (by simp [PValueEncodable])
      | null => exact absurd (henc PValue.null (List.mem_cons_self _ _)) (by simp [PValueEncodable])

/-- Claim C4 (amended): the composite row-id codec round-trips for every
list of values whose tags are all in {Int, String, Bool}, whose component
count is below 256 (the count byte is `byte(len)`), whose Int components
fit in int64 and whose String components are shorter than the 4-byte
length field allows: `FromBytes (Bytes id)` succeeds with the same
component count, the same type tags in order, and equal component
values. -/
theorem CompositeRowID_roundtrip (vs : List PValue)
    (henc : ∀ v ∈ vs, PValueEncodable v) (hcount : vs.length < 256) :
    FromBytes ((NewCompositeRowID vs (vs.map PValue.Type)).Bytes)
      = Except.ok (NewCompositeRowID vs (vs.map PValue.Type)) := by
  have hmod : vs.length % 256 = vs.length := Nat.mod_eq_of_lt hcount
  have hloop := fromBytesLoop_encode vs [vs.length % 256] henc
  simp only [List.singleton_append, List.length_singleton] at hloop
  rw [hmod] at hloop
  unfold FromBytes CompositeRowID.Bytes NewCompositeRowID
  dsimp only
  rw [if_neg (by simp), List.getD_cons_zero, hmod, hloop]
  rfl

set_option maxRecDepth 10000 in
/-- Witness for C4: the list [int -5, string "hi", bool true] round-trips. -/
theorem CompositeRowID_roundtrip_witness :
    FromBytes ((NewCompositeRowID rtVals (rtVals.map PValue.Type)).Bytes)
      = Except.ok (NewCompositeRowID rtVals (rtVals.map PValue.Type)) :=
  CompositeRowID_roundtrip rtVals (by decide) (by decide)

set_option maxRecDepth 100000 in
/-- Counterexample for C4 as stated: a composite row id of 256 Bool
components decodes to a row id with 0 components, because `Bytes` stores
the count as `byte(len(values))` and 256 truncates to 0. -/
theorem FromBytes_Bytes_truncates_count :
    FromBytes ((NewCompositeRowID bools256 (bools256.map PValue.Type)).Bytes)
      = Except.ok (NewCompositeRowID [] [])
    ∧ bools256.length ≠ ([] : List PValue).length := by
  constructor
  · rfl
  · decide

/-! ## Row-id generation without a primary key (claim C5) -/

theorem gpkAux_eq_nil (cols : List ColumnDef)
    (h : ∀ col ∈ cols, colHasPrimaryKey col.constraints = false) :
    gpkAux cols = [] := by
  induction cols with
  | nil => rfl
  | cons c rest ih =>
      simp only [gpkAux, h c (List.mem_cons_self _ _)]
      exact ih fun col hc => h col (List.mem_cons_of_mem _ hc)

theorem generateN_noPK (g : TableRowIDGenerator) (hg : g.HasPrimaryKey = false)
    (n : Nat) :
    generateN g n = (autoSeq g.AutoID n, { g with AutoID := g.AutoID + (n : Int) }) := by
  induction n generalizing g with
  | zero => simp [generateN, autoSeq]
  | succ n ih =>
      have hstep : g.Generate [] = Except.ok (RowID.auto g.AutoID,
          { g with AutoID := g.AutoID + 1 }) := by
        unfold TableRowIDGenerator.Generate
        rw [hg]
        simp
      simp only [generateN, hstep]
      rw [ih { g with AutoID := g.AutoID + 1 } hg]
      simp only [autoSeq]
      refine congrArg₂ Prod.mk rfl ?_
      congr 1
      omega

/-- Claim C5 (amended): for a schema with no PrimaryKey column, the
row-id used by the table store's insert path (`createRowID`) is the JSON
serialization of the row, not a counter; the auto-increment generator
`TableRowIDGenerator` (which the insert path never calls) would produce
ids 1, 2, 3, ..., increasing by 1 from 1. -/
theorem createRowID_noPK_json_and_generator (schema : TableSchema)
    (hnopk : ∀ col ∈ schema.columns, colHasPrimaryKey col.constraints = false) :
    (∀ values, createRowID values schema = Except.ok (serializeRow values schema))
    ∧ (∀ n, generateN (NewTableRowIDGenerator schema) n
        = (autoSeq 1 n,
            { NewTableRowIDGenerator schema with AutoID := 1 + (n : Int) })) := by
  have hpk : getPrimaryKeyColumns schema = [] := by
    unfold getPrimaryKeyColumns
    exact gpkAux_eq_nil _ hnopk
  constructor
  · intro values
    unfold createRowID
    rw [hpk]
    simp
  · intro n
    have hgen : (NewTableRowIDGenerator schema).HasPrimaryKey = false := by
      unfold NewTableRowIDGenerator
      simp only [gpkAux_eq_nil _ hnopk]
      rfl
    rw [generateN_noPK _ hgen n]
    rfl

/-- Witness for C5: the amended statement at the no-primary-key schema
`(a INT)`. -/
theorem createRowID_noPK_json_and_generator_witness :
    (∀ values, createRowID values schemaA = Except.ok (serializeRow values schemaA))
    ∧ (∀ n, generateN (NewTableRowIDGenerator schemaA) n
        = (autoSeq 1 n,
            { NewTableRowIDGenerator schemaA with AutoID := 1 + (n : Int) })) :=
  createRowID_noPK_json_and_generator schemaA (by decide)

/-- Counterexample for C5 as stated: inserting the first row `{a: 1}` into
a table with no primary key stores it under the JSON bytes of the row
map, which differ from the 8-byte big-endian auto-counter value 1. -/
theorem createRowID_noPK_is_json_not_counter :
    createRowID rowA schemaA = Except.ok (jsonMarshalRowBytes rowA)
    ∧ jsonMarshalRowBytes rowA ≠ (RowID.auto 1).Bytes := by
  constructor
  · rfl
  · decide

/-! ## Page allocation and the free list (claim C9) -/

theorem updateFreePageList_state (pm pm' : PageManager)
    (h : pm.updateFreePageList = Except.ok pm') :
    0 < pm.numPages
    ∧ pm'.numPages = pm.numPages ∧ pm'.freePages = pm.freePages
    ∧ pm'.filePages = pm.filePages ∧ pm'.fileData = pm.fileData
    ∧ (∀ j, j ≠ 0 → pm'.pageCache j = pm.pageCache j)
    ∧ (∃ hp, pm'.pageCache 0 = some hp) := by
  unfold PageManager.updateFreePageList at h
  cases hg : pm.GetPage 0 with
  | error e => rw [hg] at h; exact absurd h (by simp)
  | ok q =>
      rw [hg] at h
      obtain ⟨qp, pmg⟩ := q
      injection h with h
      subst h
      unfold PageManager.GetPage at hg
      by_cases hb : pm.numPages ≤ 0
      · rw [if_pos hb] at hg
        exact absurd hg (by simp)
      · rw [if_neg hb] at hg
        have hpos : 0 < pm.numPages := by omega
        cases hc : pm.pageCache 0 with
        | some hp =>
            rw [hc] at hg
            injection hg with hg
            injection hg with hg1 hg2
            subst hg2
            refine ⟨hpos, rfl, rfl, rfl, rfl, ?_, ?_⟩
            · intro j hj
              simp [PageManager.writePage, PageManager.markDirty, cacheInsert, hj]
            · simp [PageManager.writePage, PageManager.markDirty, cacheInsert]
        | none =>
            rw [hc] at hg
            by_cases hf : 0 < pm.filePages
            · rw [if_pos hf] at hg
              injection hg with hg
              injection hg with hg1 hg2
              subst hg2
              refine ⟨hpos, rfl, rfl, rfl, rfl, ?_, ?_⟩
              · intro j hj
                simp [PageManager.writePage, PageManager.markDirty, cacheInsert, hj]
              · simp [PageManager.writePage, PageManager.markDirty, cacheInsert]
            · rw [if_neg hf] at hg
              exact absurd hg (by simp)

theorem updateFreePageList_ok (pm : PageManager) (hpos : 0 < pm.numPages)
    (h0 : ∃ hp, pm.pageCache 0 = some hp) :
    ∃ pm', pm.updateFreePageList = Except.ok pm' := by
  obtain ⟨hp, hc⟩ := h0
  unfold PageManager.updateFreePageList PageManager.GetPage
  rw [if_neg (by omega), hc]
  exact ⟨_, rfl⟩

theorem allocFinish_state (pm : PageManager) (pid : Nat) (p : DPage) (pm1 : PageManager)
    (h : allocFinish pm pid = Except.ok (p, pm1)) :
    p = ⟨pid, zeroPageData, true, 1⟩
    ∧ 0 < pm1.numPages
    ∧ pm1.numPages = pm.numPages
    ∧ pm1.freePages = pm.freePages
    ∧ (p.id ≠ 0 → pm1.pageCache p.id = some p)
    ∧ (∃ hp, pm1.pageCache 0 = some hp) := by
  simp only [allocFinish] at h
  split at h
  · exact absurd h (by simp)
  · rename_i pm2 heq
    injection h with h
    injection h with h1 h2
    subst h1
    subst h2
    obtain ⟨hpos, hnum, hfree, _, _, hcache, hc0⟩ := updateFreePageList_state _ _ heq
    refine ⟨rfl, by rw [hnum]; exact hpos, hnum, hfree, ?_, hc0⟩
    intro hid
    rw [hcache _ hid]
    simp [cacheInsert]

theorem AllocatePage_state (pm : PageManager) (p : DPage) (pm1 : PageManager)
    (h : pm.AllocatePage = Except.ok (p, pm1)) :
    p.pinCount = 1 ∧ p.dirty = true
    ∧ 0 < pm1.numPages
    ∧ (p.id ≠ 0 → pm1.pageCache p.id = some p)
    ∧ (∃ hp, pm1.pageCache 0 = some hp) := by
  unfold PageManager.AllocatePage at h
  cases hfp : pm.freePages.getLast? with
  | some pid =>
      rw [hfp] at h
      obtain ⟨hp, hpos, _, _, hcp, hc0⟩ := allocFinish_state _ _ _ _ h
      subst hp
      exact ⟨rfl, rfl, hpos, hcp, hc0⟩
  | none =>
      rw [hfp] at h
      obtain ⟨hp, hpos, _, _, hcp, hc0⟩ := allocFinish_state _ _ _ _ h
      subst hp
      exact ⟨rfl, rfl, hpos, hcp, hc0⟩

/-- Claim C9 (amended): `AllocatePage` returns the page pinned, so the
freed-then-reallocated cycle requires an `Unpin`: after a successful
`AllocatePage` yielding page id `p.id ≠ 0`, `Unpin` followed by
`FreePage p.id` succeeds, and the next `AllocatePage` returns the same
page id, recycled from the free list.  (Without the `Unpin`, `FreePage`
fails on the pinned page and the next allocation extends the file with a
fresh id; see the counterexample.) -/
theorem PageManager_allocate_unpin_free_allocate (pm : PageManager) (p : DPage)
    (pm1 : PageManager) (halloc : pm.AllocatePage = Except.ok (p, pm1))
    (hid : p.id ≠ 0) :
    ∃ pm2 r, (pm1.Unpin p.id).FreePage p.id = Except.ok pm2
      ∧ pm2.AllocatePage = Except.ok r
      ∧ r.1.id = p.id := by
  obtain ⟨hpin, _, hpos, hcp, hc0⟩ := AllocatePage_state pm p pm1 halloc
  have hcp := hcp hid
  -- the unpinned cache entry has pin count 0
  have hunpin : (pm1.Unpin p.id).pageCache p.id = some { p with pinCount := 0 } := by
    simp [PageManager.Unpin, hcp, hpin]
  have hid0 : (0 : Nat) ≠ p.id := Ne.symm hid
  have hunpin0 : (pm1.Unpin p.id).pageCache 0 = pm1.pageCache 0 := by
    simp [PageManager.Unpin, hid0]
  -- FreePage succeeds
  unfold PageManager.FreePage
  rw [hunpin]
  dsimp only
  rw [if_neg (by simp)]
  have hupd := updateFreePageList_ok
    { pm1.Unpin p.id with pageCache := cacheErase (pm1.Unpin p.id).pageCache p.id,
                          freePages := (pm1.Unpin p.id).freePages ++ [p.id] }
    (by simpa [PageManager.Unpin] using hpos)
    (by
      obtain ⟨hp0, hc0⟩ := hc0
      refine ⟨hp0, ?_⟩
      simp only [cacheErase]
      rw [if_neg hid0, hunpin0]
      exact hc0)
  obtain ⟨pm2, hupd⟩ := hupd
  refine ⟨pm2, ?_⟩
  obtain ⟨hpos2a, hnum2, hfree2, _, _, hcache2, hc02⟩ := updateFreePageList_state _ _ hupd
  rw [hupd]
  -- second allocation pops p.id
  have hfree2' : pm2.freePages = (pm1.Unpin p.id).freePages ++ [p.id] := hfree2
  have hlast : pm2.freePages.getLast? = some p.id := by
    rw [hfree2']
    simp
  have hupd3 := updateFreePageList_ok
    { pm2 with freePages := pm2.freePages.dropLast,
               pageCache := cacheInsert pm2.pageCache p.id ⟨p.id, zeroPageData, true, 1⟩ }
    (by simp only []; rw [hnum2]; simpa [PageManager.Unpin] using hpos)
    (by
      obtain ⟨hp0, hc02⟩ := hc02
      refine ⟨hp0, ?_⟩
      simp only [cacheInsert]
      rw [if_neg hid0]
      exact hc02)
  obtain ⟨pm4, hupd3⟩ := hupd3
  refine ⟨(⟨p.id, zeroPageData, true, 1⟩, pm4), rfl, ?_, rfl⟩
  unfold PageManager.AllocatePage
  rw [hlast]
  simp only [allocFinish]
  rw [hupd3]

/-- Claim C9 counterexample: on a fresh page manager the first
`AllocatePage` returns page id 1, but the claim's immediate
`FreePage 1` fails with "cannot free a pinned page" because the
allocated page is returned pinned, and the subsequent `AllocatePage`
therefore returns the fresh id 2, not the recycled id 1. -/
theorem PageManager_freePage_pinned_counterexample :
    allocId newPageManagerEmpty.AllocatePage = Except.ok 1
      ∧ c9pm1.FreePage 1 = Except.error "cannot free a pinned page"
      ∧ allocId c9pm1.AllocatePage = Except.ok 2 :=
  ⟨rfl, rfl, rfl⟩

/-- Witness for `PageManager_allocate_unpin_free_allocate` at the fresh
page manager: the first allocation yields page 1 with manager `c9pm1`,
and after `Unpin 1` the `FreePage 1` succeeds and the next allocation
recycles id 1. -/
theorem PageManager_allocate_unpin_free_allocate_witness :
    newPageManagerEmpty.AllocatePage
        = Except.ok (⟨1, zeroPageData, true, 1⟩, c9pm1)
      ∧ ∃ pm2 r, (c9pm1.Unpin 1).FreePage 1 = Except.ok pm2
          ∧ pm2.AllocatePage = Except.ok r
          ∧ r.1.id = 1 :=
  ⟨rfl, PageManager_allocate_unpin_free_allocate newPageManagerEmpty
    ⟨1, zeroPageData, true, 1⟩ c9pm1 rfl (by decide)⟩

/-! ## Byte-level read/write lemmas for the page buffer -/

theorem writeByte_same (d : PageData) (i v : Nat) : writeByte d i v i = v := by
  simp [writeByte]

theorem writeByte_other (d : PageData) (i v j : Nat) (h : j ≠ i) :
    writeByte d i v j = d j := by
  simp [writeByte, h]

theorem putU32_frame (d : PageData) (off v j : Nat) (h : j < off ∨ off + 4 ≤ j) :
    putU32 d off v j = d j := by
  unfold putU32
  rw [writeByte_other _ _ _ _ (by omega), writeByte_other _ _ _ _ (by omega),
    writeByte_other _ _ _ _ (by omega), writeByte_other _ _ _ _ (by omega)]

theorem readU32_putU32 (d : PageData) (off v : Nat) :
    readU32 (putU32 d off v) off = v % 4294967296 := by
  unfold readU32 putU32
  rw [writeByte_other _ _ _ _ (by omega), writeByte_other _ _ _ _ (by omega),
    writeByte_other _ _ _ _ (by omega), writeByte_same]
  rw [writeByte_other _ _ _ _ (by omega), writeByte_other _ _ _ _ (by omega),
    writeByte_same]
  rw [writeByte_other _ _ _ _ (by omega), writeByte_same]
  rw [writeByte_same]
  omega

theorem copyBytes_frame (d : PageData) (off : Nat) (bs : List Nat) (j : Nat)
    (h : j < off ∨ off + bs.length ≤ j) : copyBytes d off bs j = d j := by
  induction bs generalizing d off with
  | nil => rfl
  | cons b rest ih =>
      simp only [copyBytes]
      rw [ih _ _ (by simp at h ⊢; omega), writeByte_other _ _ _ _ (by simp at h; omega)]

theorem copyBytes_get (d : PageData) (off : Nat) (bs : List Nat) (i : Nat)
    (h : i < bs.length) : copyBytes d off bs (off + i) = bs.getD i 0 := by
  induction bs generalizing d off i with
  | nil => simp at h
  | cons b rest ih =>
      cases i with
      | zero =>
          simp only [copyBytes]
          rw [copyBytes_frame _ _ _ _ (by omega)]
          simp [writeByte]
      | succ i' =>
          simp only [copyBytes, List.getD_cons_succ]
          have : off + (i' + 1) = (off + 1) + i' := by omega
          rw [this, ih _ _ _ (by simp at h; omega)]

theorem readBytes_zero (d : PageData) (off : Nat) : readBytes d off 0 = [] := rfl

theorem readBytes_succ (d : PageData) (off n : Nat) :
    readBytes d off (n + 1) = d off :: readBytes d (off + 1) n := by
  simp only [readBytes, List.range_succ_eq_map, List.map_cons, List.map_map]
  congr 1
  apply List.map_congr_left
  intro a ha
  show d (off + Nat.succ a) = d (off + 1 + a)
  congr 1
  omega

theorem readBytes_congr (d1 d2 : PageData) (off n : Nat)
    (h : ∀ j, j < n → d1 (off + j) = d2 (off + j)) :
    readBytes d1 off n = readBytes d2 off n := by
  simp only [readBytes]
  apply List.map_congr_left
  intro j hj
  exact h j (List.mem_range.mp hj)

theorem readBytes_copyBytes (d : PageData) (off : Nat) (bs : List Nat) :
    readBytes (copyBytes d off bs) off bs.length = bs := by
  induction bs generalizing d off with
  | nil => rfl
  | cons b rest ih =>
      simp only [List.length_cons, readBytes_succ, copyBytes]
      congr 1
      · rw [copyBytes_frame _ _ _ _ (by omega)]
        simp [writeByte]
      · exact ih _ _

theorem readU32_frame (d1 d2 : PageData) (off : Nat)
    (h : ∀ j, j < 4 → d1 (off + j) = d2 (off + j)) :
    readU32 d1 off = readU32 d2 off := by
  unfold readU32
  have h0 := h 0 (by omega)
  have h1 := h 1 (by omega)
  have h2 := h 2 (by omega)
  have h3 := h 3 (by omega)
  simp only [Nat.add_zero] at h0
  rw [h0, h1, h2, h3]

/-! ## Leaf entry area: frame and read-back lemmas -/

theorem writeLeafEntriesAux_frame (es : List (List Nat × List Nat)) (d : PageData)
    (off j : Nat) (h : j < off) : writeLeafEntriesAux d off es j = d j := by
  induction es generalizing d off with
  | nil => rfl
  | cons e rest ih =>
      obtain ⟨k, v⟩ := e
      simp only [writeLeafEntriesAux]
      rw [ih _ _ (by omega)]
      rw [copyBytes_frame _ _ _ _ (by omega), putU32_frame _ _ _ _ (by omega),
        copyBytes_frame _ _ _ _ (by omega), putU32_frame _ _ _ _ (by omega)]

theorem leafEntry_read (d : PageData) (off : Nat) (k v : List Nat)
    (hk : k.length < 4294967296) (hv : v.length < 4294967296)
    (dd : PageData)
    (hdd : ∀ j, j < 4 + k.length + 4 + v.length → dd (off + j) =
      copyBytes (putU32 (copyBytes (putU32 d off k.length) (off + 4) k)
        (off + 4 + k.length) v.length) (off + 4 + k.length + 4) v (off + j)) :
    readU32 dd off = k.length
    ∧ readBytes dd (off + 4) k.length = k
    ∧ readU32 dd (off + 4 + k.length) = v.length
    ∧ readBytes dd (off + 4 + k.length + 4) v.length = v := by
  refine ⟨?_, ?_, ?_, ?_⟩
  · have h1 : readU32 dd off =
        readU32 (putU32 d off k.length) off := by
      apply readU32_frame
      intro j hj
      rw [hdd j (by omega)]
      rw [copyBytes_frame _ _ _ _ (by omega), putU32_frame _ _ _ _ (by omega),
        copyBytes_frame _ _ _ _ (by omega)]
    rw [h1, readU32_putU32, Nat.mod_eq_of_lt hk]
  · have h1 : readBytes dd (off + 4) k.length =
        readBytes (copyBytes (putU32 d off k.length) (off + 4) k) (off + 4) k.length := by
      apply readBytes_congr
      intro j hj
      have e1 : off + 4 + j = off + (4 + j) := by omega
      rw [e1, hdd (4 + j) (by omega)]
      rw [copyBytes_frame _ _ _ _ (by omega), putU32_frame _ _ _ _ (by omega)]
    rw [h1, readBytes_copyBytes]
  · have h1 : readU32 dd (off + 4 + k.length) =
        readU32 (putU32 (copyBytes (putU32 d off k.length) (off + 4) k)
          (off + 4 + k.length) v.length) (off + 4 + k.length) := by
      apply readU32_frame
      intro j hj
      have e1 : off + 4 + k.length + j = off + (4 + k.length + j) := by omega
      rw [e1, hdd (4 + k.length + j) (by omega)]
      rw [copyBytes_frame _ _ _ _ (by omega)]
    rw [h1, readU32_putU32, Nat.mod_eq_of_lt hv]
  · have h1 : readBytes dd (off + 4 + k.length + 4) v.length =
        readBytes (copyBytes (putU32 (copyBytes (putU32 d off k.length) (off + 4) k)
          (off + 4 + k.length) v.length) (off + 4 + k.length + 4) v)
          (off + 4 + k.length + 4) v.length := by
      apply readBytes_congr
      intro j hj
      have e1 : off + 4 + k.length + 4 + j = off + (4 + k.length + 4 + j) := by omega
      rw [e1, hdd (4 + k.length + 4 + j) (by omega)]
    rw [h1, readBytes_copyBytes]

theorem readLeafEntries_writeLeafEntries (es : List (List Nat × List Nat))
    (d : PageData) (off : Nat) (hwf : LeafEntriesWF es) :
    readLeafEntriesAux (writeLeafEntriesAux d off es) es.length off = es := by
  induction es generalizing d off with
  | nil => rfl
  | cons e rest ih =>
      obtain ⟨k, v⟩ := e
      have hk : k.length < 4294967296 := (hwf (k, v) (by simp)).1
      have hv : v.length < 4294967296 := (hwf (k, v) (by simp)).2
      simp only [writeLeafEntriesAux, List.length_cons]
      obtain ⟨f1, f2, f3, f4⟩ := leafEntry_read d off k v hk hv
        (writeLeafEntriesAux
          (copyBytes (putU32 (copyBytes (putU32 d off k.length) (off + 4) k)
            (off + 4 + k.length) v.length) (off + 4 + k.length + 4) v)
          (off + 4 + k.length + 4 + v.length) rest)
        (fun j hj => writeLeafEntriesAux_frame _ _ _ _ (by omega))
      simp only [readLeafEntriesAux, f1]
      have e1 : off + 4 + k.length + 4 + v.length = off + (4 + k.length + 4 + v.length) := by
        omega
      rw [f2, f3, f4]
      exact congrArg _ (ih _ _ (fun e he => hwf e (by simp [he])))

/-! ## Page-manager operation spec lemmas -/

theorem GetPage_cached (pm : PageManager) (id : Nat) (p : DPage)
    (hlt : id < pm.numPages) (hc : pm.pageCache id = some p) :
    pm.GetPage id = Except.ok ({ p with pinCount := p.pinCount + 1 },
      { pm with pageCache :=
          cacheInsert pm.pageCache id { p with pinCount := p.pinCount + 1 } }) := by
  unfold PageManager.GetPage
  rw [if_neg (by omega), hc]

theorem pageContent_cacheInsert_same (pm : PageManager) (id : Nat) (p : DPage) :
    pageContent { pm with pageCache := cacheInsert pm.pageCache id p } id = p.data := by
  simp [pageContent, cacheInsert]

theorem pageContent_cacheInsert_other (pm : PageManager) (id : Nat) (p : DPage) (j : Nat)
    (h : j ≠ id) :
    pageContent { pm with pageCache := cacheInsert pm.pageCache id p } j =
      pageContent pm j := by
  simp [pageContent, cacheInsert, h]

theorem getLeafNodeEntries_cached (pm : PageManager) (id : Nat) (p : DPage)
    (hlt : id < pm.numPages) (hc : pm.pageCache id = some p) :
    getLeafNodeEntries pm id =
      Except.ok (readLeafEntriesAux p.data (readU32 p.data 1) 9,
        { pm with pageCache :=
            cacheInsert pm.pageCache id { p with pinCount := p.pinCount + 1 } }) := by
  unfold getLeafNodeEntries
  rw [GetPage_cached pm id p hlt hc]
  simp [pageContent, cacheInsert]

theorem pageContent_writePage_cached (pm : PageManager) (id : Nat) (p : DPage)
    (f : PageData → PageData) (hc : pm.pageCache id = some p) :
    pageContent (pm.writePage id f) id = f p.data := by
  simp [pageContent, PageManager.writePage, hc]

theorem pageContent_writePage_other (pm : PageManager) (id : Nat)
    (f : PageData → PageData) (j : Nat) (h : j ≠ id) :
    pageContent (pm.writePage id f) j = pageContent pm j := by
  simp [pageContent, PageManager.writePage, h]

theorem pageCache_writePage_cached (pm : PageManager) (id : Nat) (p : DPage)
    (f : PageData → PageData) (hc : pm.pageCache id = some p) :
    (pm.writePage id f).pageCache id = some { p with data := f p.data } := by
  simp [PageManager.writePage, hc]

theorem pageCache_writePage_other (pm : PageManager) (id : Nat)
    (f : PageData → PageData) (j : Nat) (h : j ≠ id) :
    (pm.writePage id f).pageCache j = pm.pageCache j := by
  simp [PageManager.writePage, h]

theorem pageContent_markDirty (pm : PageManager) (id j : Nat) :
    pageContent (pm.markDirty id) j = pageContent pm j := by
  by_cases h : j = id
  · subst h
    cases hc : pm.pageCache j with
    | none => simp [pageContent, PageManager.markDirty, hc]
    | some p => simp [pageContent, PageManager.markDirty, hc]
  · simp [pageContent, PageManager.markDirty, h]

theorem pageCache_markDirty_other (pm : PageManager) (id j : Nat) (h : j ≠ id) :
    (pm.markDirty id).pageCache j = pm.pageCache j := by
  simp [PageManager.markDirty, h]

theorem pageCache_markDirty_cached (pm : PageManager) (id : Nat) (p : DPage)
    (hc : pm.pageCache id = some p) :
    (pm.markDirty id).pageCache id = some { p with dirty := true } := by
  simp [PageManager.markDirty, hc]

theorem allocFinish_fresh (pm : PageManager) (pid : Nat) (hpos : 0 < pm.numPages)
    (hpid : pid ≠ 0) (h0 : ∃ hp, pm.pageCache 0 = some hp) :
    ∃ pm1, allocFinish pm pid = Except.ok (⟨pid, zeroPageData, true, 1⟩, pm1)
      ∧ pm1.numPages = pm.numPages
      ∧ pm1.freePages = pm.freePages
      ∧ (∀ j, j ≠ 0 → j ≠ pid → pm1.pageCache j = pm.pageCache j)
      ∧ pm1.pageCache pid = some ⟨pid, zeroPageData, true, 1⟩
      ∧ (∃ hp, pm1.pageCache 0 = some hp) := by
  obtain ⟨hp, hc0⟩ := h0
  unfold allocFinish
  dsimp only
  obtain ⟨pm2, hupd⟩ := updateFreePageList_ok
    { pm with pageCache := cacheInsert pm.pageCache pid ⟨pid, zeroPageData, true, 1⟩ }
    (by simpa using hpos)
    ⟨hp, by
      simp only [cacheInsert]
      rw [if_neg (by omega)]
      exact hc0⟩
  obtain ⟨hpos2, hnum2, hfree2, _, _, hcache2, hc02⟩ := updateFreePageList_state _ _ hupd
  refine ⟨pm2, ?_, by simpa using hnum2, by simpa using hfree2, ?_, ?_, hc02⟩
  · rw [hupd]
  · intro j hj0 hjn
    rw [hcache2 j hj0]
    simp only [cacheInsert]
    rw [if_neg hjn]
  · rw [hcache2 _ hpid]
    simp [cacheInsert]

theorem AllocatePage_fresh (pm : PageManager) (hfree : pm.freePages = [])
    (hpos : 0 < pm.numPages) (h0 : ∃ hp, pm.pageCache 0 = some hp) :
    ∃ pm1, pm.AllocatePage = Except.ok (⟨pm.numPages, zeroPageData, true, 1⟩, pm1)
      ∧ pm1.numPages = pm.numPages + 1
      ∧ pm1.freePages = []
      ∧ (∀ j, j ≠ 0 → j ≠ pm.numPages → pm1.pageCache j = pm.pageCache j)
      ∧ pm1.pageCache pm.numPages = some ⟨pm.numPages, zeroPageData, true, 1⟩
      ∧ (∃ hp, pm1.pageCache 0 = some hp) := by
  obtain ⟨hp, hc0⟩ := h0
  unfold PageManager.AllocatePage
  rw [hfree]
  simp only [List.getLast?_nil]
  obtain ⟨pm1, heq, hnum, hfree1, hcachej, hcachen, h01⟩ := allocFinish_fresh
    { pm with freePages := [], numPages := pm.numPages + 1, filePages := pm.numPages + 1,
              fileData := fun i => if i < pm.filePages then pm.fileData i else zeroPageData }
    pm.numPages (by simp) (by omega) ⟨hp, by simpa using hc0⟩
  exact ⟨pm1, heq, by simpa using hnum, by simpa using hfree1, hcachej, hcachen, h01⟩

theorem readLeafEntriesAux_length (d : PageData) (n off : Nat) :
    (readLeafEntriesAux d n off).length = n := by
  induction n generalizing off with
  | zero => rfl
  | succ n ih => simp [readLeafEntriesAux, ih]

theorem leafInsertPos_le (key : List Nat) (es : List (List Nat × List Nat)) :
    leafInsertPos key es ≤ es.length := by
  induction es with
  | nil => simp [leafInsertPos]
  | cons e rest ih =>
      obtain ⟨k, v⟩ := e
      simp only [leafInsertPos, List.length_cons]
      split
      · omega
      · omega

theorem leafInsert_length (key value : List Nat) (es : List (List Nat × List Nat)) :
    (es.take (leafInsertPos key es) ++ (key, value) :: es.drop (leafInsertPos key es)).length
      = es.length + 1 := by
  have h := leafInsertPos_le key es
  simp [List.length_take, List.length_drop]
  omega

theorem leafInsert_wf (key value : List Nat) (es : List (List Nat × List Nat))
    (hwf : LeafEntriesWF es) (hk : key.length < 4294967296) (hv : value.length < 4294967296) :
    LeafEntriesWF (es.take (leafInsertPos key es) ++ (key, value) ::
      es.drop (leafInsertPos key es)) := by
  intro e he
  simp only [List.mem_append, List.mem_cons] at he
  rcases he with h | h | h
  · exact hwf e (List.mem_of_mem_take h)
  · subst h; exact ⟨hk, hv⟩
  · exact hwf e (List.mem_of_mem_drop h)

theorem GetPage_cached_obs (pm : PageManager) (id : Nat) (p : DPage)
    (hlt : id < pm.numPages) (hc : pm.pageCache id = some p) :
    ∃ q pmA, pm.GetPage id = Except.ok (q, pmA)
      ∧ q.data = p.data ∧ q.dirty = p.dirty
      ∧ pmA.numPages = pm.numPages ∧ pmA.freePages = pm.freePages
      ∧ pmA.pageCache id = some q
      ∧ (∀ j, j ≠ id → pmA.pageCache j = pm.pageCache j)
      ∧ (∀ j, pageContent pmA j = pageContent pm j) := by
  refine ⟨{ p with pinCount := p.pinCount + 1 }, _, GetPage_cached pm id p hlt hc,
    rfl, rfl, rfl, rfl, by simp [cacheInsert], ?_, ?_⟩
  · intro j hj
    simp [cacheInsert, hj]
  · intro j
    by_cases hj : j = id
    · subst hj
      rw [pageContent_cacheInsert_same]
      simp [pageContent, hc]
    · exact pageContent_cacheInsert_other _ _ _ _ hj

theorem getLeafNodeEntries_obs (pm : PageManager) (id : Nat) (p : DPage)
    (hlt : id < pm.numPages) (hc : pm.pageCache id = some p) :
    ∃ pmA, getLeafNodeEntries pm id =
        Except.ok (readLeafEntriesAux p.data (readU32 p.data 1) 9, pmA)
      ∧ pmA.numPages = pm.numPages ∧ pmA.freePages = pm.freePages
      ∧ (∃ q, pmA.pageCache id = some q ∧ q.data = p.data)
      ∧ (∀ j, j ≠ id → pmA.pageCache j = pm.pageCache j)
      ∧ (∀ j, pageContent pmA j = pageContent pm j) := by
  obtain ⟨q, pmA, hg, hqd, _, hnum, hfree, hcq, hcj, hpc⟩ :=
    GetPage_cached_obs pm id p hlt hc
  unfold getLeafNodeEntries
  rw [hg]
  dsimp only
  have hpca : pageContent pmA id = p.data := by
    rw [hpc id]
    simp [pageContent, hc]
  rw [hpca]
  exact ⟨pmA, rfl, hnum, hfree, ⟨q, hcq, hqd⟩, hcj, hpc⟩

theorem insertIntoLeaf_spec (pm : PageManager) (id : Nat) (p : DPage) (key value : List Nat)
    (hlt : id < pm.numPages) (hc : pm.pageCache id = some p) :
    ∃ pm3, insertIntoLeaf pm id key value = Except.ok pm3
      ∧ pm3.numPages = pm.numPages
      ∧ pm3.freePages = pm.freePages
      ∧ pageContent pm3 id =
          writeLeafEntriesAux (putU32 p.data 1 (readU32 p.data 1 + 1)) 9
            ((readLeafEntriesAux p.data (readU32 p.data 1) 9).take
                (leafInsertPos key (readLeafEntriesAux p.data (readU32 p.data 1) 9))
              ++ (key, value) ::
              (readLeafEntriesAux p.data (readU32 p.data 1) 9).drop
                (leafInsertPos key (readLeafEntriesAux p.data (readU32 p.data 1) 9)))
      ∧ (∃ q, pm3.pageCache id = some q ∧ q.data = pageContent pm3 id)
      ∧ (∀ j, j ≠ id → pm3.pageCache j = pm.pageCache j)
      ∧ (∀ j, j ≠ id → pageContent pm3 j = pageContent pm j) := by
  obtain ⟨q, pmA, hg, hqd, _, hnumA, hfreeA, hcq, hcjA, hpcA⟩ :=
    GetPage_cached_obs pm id p hlt hc
  unfold insertIntoLeaf
  rw [hg]
  dsimp only
  obtain ⟨pmB, hgl, hnumB, hfreeB, ⟨r, hcr, hrd⟩, hcjB, hpcB⟩ :=
    getLeafNodeEntries_obs pmA id q (by omega) hcq
  rw [hgl]
  dsimp only
  have hpcaid : pageContent pmA id = p.data := by
    rw [hpcA id]; simp [pageContent, hc]
  rw [hpcaid, hqd]
  have hcrm : (pmB.markDirty id).pageCache id = some { r with dirty := true } :=
    pageCache_markDirty_cached _ _ _ hcr
  refine ⟨_, rfl, hnumB.trans hnumA, hfreeB.trans hfreeA, ?_, ?_, ?_, ?_⟩
  · rw [pageContent_writePage_cached _ _ { r with dirty := true } _ hcrm]
    rw [show ({ r with dirty := true } : DPage).data = r.data from rfl, hrd, hqd]
  · refine ⟨_, pageCache_writePage_cached _ _ { r with dirty := true } _ hcrm, ?_⟩
    rw [pageContent_writePage_cached _ _ { r with dirty := true } _ hcrm]
  · intro j hj
    rw [pageCache_writePage_other _ _ _ _ hj, pageCache_markDirty_other _ _ _ hj,
      hcjB j hj, hcjA j hj]
  · intro j hj
    rw [pageContent_writePage_other _ _ _ _ hj, pageContent_markDirty, hpcB j, hpcA j]

theorem insertRec_leaf_nosplit (fuel : Nat) (t : BPlusTree) (p : DPage) (key value : List Nat)
    (hc : t.pm.pageCache t.rootPageID = some p)
    (hlt : t.rootPageID < t.pm.numPages)
    (hleaf : p.data 0 = 1)
    (horder : t.order = 128)
    (hn : readU32 p.data 1 < 127)
    (hdup : dupIndex key (readLeafEntriesAux p.data (readU32 p.data 1) 9) = none) :
    ∃ pm3, t.Insert (fuel + 1) key value = Except.ok { t with pm := pm3 }
      ∧ pm3.numPages = t.pm.numPages
      ∧ pm3.freePages = t.pm.freePages
      ∧ pageContent pm3 t.rootPageID =
          writeLeafEntriesAux (putU32 p.data 1 (readU32 p.data 1 + 1)) 9
            ((readLeafEntriesAux p.data (readU32 p.data 1) 9).take
                (leafInsertPos key (readLeafEntriesAux p.data (readU32 p.data 1) 9))
              ++ (key, value) ::
              (readLeafEntriesAux p.data (readU32 p.data 1) 9).drop
                (leafInsertPos key (readLeafEntriesAux p.data (readU32 p.data 1) 9)))
      ∧ (∃ q, pm3.pageCache t.rootPageID = some q ∧ q.data = pageContent pm3 t.rootPageID)
      ∧ (∀ j, j ≠ t.rootPageID → pageContent pm3 j = pageContent t.pm j)
      ∧ (∀ j, j ≠ t.rootPageID → pm3.pageCache j = t.pm.pageCache j) := by
  obtain ⟨q, pmA, hg, hqd, _, hnumA, hfreeA, hcq, hcjA, hpcA⟩ :=
    GetPage_cached_obs t.pm t.rootPageID p hlt hc
  unfold BPlusTree.Insert BPlusTree.insertRec
  rw [hg]
  dsimp only
  have hpcaid : pageContent pmA t.rootPageID = p.data := by
    rw [hpcA _]; simp [pageContent, hc]
  rw [hpcaid, if_pos hleaf]
  obtain ⟨pmB, hgl, hnumB, hfreeB, ⟨r, hcr, hrd⟩, hcjB, hpcB⟩ :=
    getLeafNodeEntries_obs pmA t.rootPageID q (by omega) hcq
  rw [hgl]
  dsimp only
  rw [hqd, hdup, horder]
  rw [if_pos (by omega)]
  obtain ⟨pm3, hins, hnum3, hfree3, hcontent, hq3, hcj3, hpc3⟩ :=
    insertIntoLeaf_spec pmB t.rootPageID r key value (by omega) hcr
  rw [hins]
  dsimp only
  rw [hrd, hqd] at hcontent
  refine ⟨pm3, rfl, by omega, by rw [hfree3, hfreeB, hfreeA], hcontent, hq3, ?_, ?_⟩
  · intro j hj
    rw [hpc3 j hj, hpcB j, hpcA j]
  · intro j hj
    rw [hcj3 j hj, hcjB j hj, hcjA j hj]

theorem rootPageWrites_reads (d : PageData) (l r : Nat) (key : List Nat)
    (hl : l < 4294967296) (hr : r < 4294967296) :
    (putU32 (copyBytes (putU32 (putU32 (putU32 (writeByte d 0 0) 1 1) 9 l) 13 key.length)
        17 key) (17 + key.length) r) 0 = 0
    ∧ readU32 (putU32 (copyBytes (putU32 (putU32 (putU32 (writeByte d 0 0) 1 1) 9 l)
        13 key.length) 17 key) (17 + key.length) r) 1 = 1
    ∧ readU32 (putU32 (copyBytes (putU32 (putU32 (putU32 (writeByte d 0 0) 1 1) 9 l)
        13 key.length) 17 key) (17 + key.length) r) 9 = l
    ∧ readU32 (putU32 (copyBytes (putU32 (putU32 (putU32 (writeByte d 0 0) 1 1) 9 l)
        13 key.length) 17 key) (17 + key.length) r) 13 = key.length % 4294967296
    ∧ readBytes (putU32 (copyBytes (putU32 (putU32 (putU32 (writeByte d 0 0) 1 1) 9 l)
        13 key.length) 17 key) (17 + key.length) r) 17 key.length = key
    ∧ readU32 (putU32 (copyBytes (putU32 (putU32 (putU32 (writeByte d 0 0) 1 1) 9 l)
        13 key.length) 17 key) (17 + key.length) r) (17 + key.length) = r := by
  refine ⟨?_, ?_, ?_, ?_, ?_, ?_⟩
  · rw [putU32_frame _ _ _ _ (by omega), copyBytes_frame _ _ _ _ (by omega),
      putU32_frame _ _ _ _ (by omega), putU32_frame _ _ _ _ (by omega),
      putU32_frame _ _ _ _ (by omega), writeByte_same]
  · have h1 : readU32 (putU32 (copyBytes (putU32 (putU32 (putU32 (writeByte d 0 0) 1 1) 9 l)
        13 key.length) 17 key) (17 + key.length) r) 1 =
        readU32 (putU32 (writeByte d 0 0) 1 1) 1 := by
      apply readU32_frame
      intro j hj
      rw [putU32_frame _ _ _ _ (by omega), copyBytes_frame _ _ _ _ (by omega),
        putU32_frame _ _ _ _ (by omega), putU32_frame _ _ _ _ (by omega)]
    rw [h1, readU32_putU32]
  · have h1 : readU32 (putU32 (copyBytes (putU32 (putU32 (putU32 (writeByte d 0 0) 1 1) 9 l)
        13 key.length) 17 key) (17 + key.length) r) 9 =
        readU32 (putU32 (putU32 (writeByte d 0 0) 1 1) 9 l) 9 := by
      apply readU32_frame
      intro j hj
      rw [putU32_frame _ _ _ _ (by omega), copyBytes_frame _ _ _ _ (by omega),
        putU32_frame _ _ _ _ (by omega)]
    rw [h1, readU32_putU32]
    omega
  · have h1 : readU32 (putU32 (copyBytes (putU32 (putU32 (putU32 (writeByte d 0 0) 1 1) 9 l)
        13 key.length) 17 key) (17 + key.length) r) 13 =
        readU32 (putU32 (putU32 (putU32 (writeByte d 0 0) 1 1) 9 l) 13 key.length) 13 := by
      apply readU32_frame
      intro j hj
      rw [putU32_frame _ _ _ _ (by omega), copyBytes_frame _ _ _ _ (by omega)]
    rw [h1, readU32_putU32]
  · have h1 : readBytes (putU32 (copyBytes (putU32 (putU32 (putU32 (writeByte d 0 0) 1 1) 9 l)
        13 key.length) 17 key) (17 + key.length) r) 17 key.length =
        readBytes (copyBytes (putU32 (putU32 (putU32 (writeByte d 0 0) 1 1) 9 l)
          13 key.length) 17 key) 17 key.length := by
      apply readBytes_congr
      intro j hj
      rw [putU32_frame _ _ _ _ (by omega)]
    rw [h1, readBytes_copyBytes]
  · rw [readU32_putU32]
    omega

set_option maxHeartbeats 2000000 in
theorem createNewRoot_spec (t : BPlusTree) (l r : Nat) (key : List Nat)
    (hfree : t.pm.freePages = []) (hpos : 0 < t.pm.numPages)
    (h0 : ∃ hp, t.pm.pageCache 0 = some hp)
    (hl : l < 4294967296) (hr : r < 4294967296) :
    ∃ t', createNewRoot t l r key = Except.ok t'
      ∧ t'.rootPageID = t.pm.numPages
      ∧ t'.order = t.order
      ∧ t'.pm.numPages = t.pm.numPages + 1
      ∧ t'.pm.freePages = []
      ∧ pageContent t'.pm t.pm.numPages 0 = 0
      ∧ readU32 (pageContent t'.pm t.pm.numPages) 1 = 1
      ∧ readU32 (pageContent t'.pm t.pm.numPages) 9 = l
      ∧ readU32 (pageContent t'.pm t.pm.numPages) 13 = key.length % 4294967296
      ∧ readBytes (pageContent t'.pm t.pm.numPages) 17 key.length = key
      ∧ readU32 (pageContent t'.pm t.pm.numPages) (17 + key.length) = r
      ∧ (∀ j q, j ≠ 0 → j ≠ t.pm.numPages → t.pm.pageCache j = some q →
          t'.pm.pageCache j = some q ∧ pageContent t'.pm j = q.data)
      ∧ (∃ hp, t'.pm.pageCache 0 = some hp) := by
  obtain ⟨pm1, halloc, hnum1, hfree1, hcachej, hcachen, h01⟩ :=
    AllocatePage_fresh t.pm hfree hpos h0
  unfold createNewRoot
  rw [halloc]
  dsimp only
  have hpcw := pageContent_writePage_cached pm1 t.pm.numPages
    ⟨t.pm.numPages, zeroPageData, true, 1⟩
    (fun d => putU32 (copyBytes (putU32 (putU32 (putU32 (writeByte d 0 0) 1 1) 9 l) 13 key.length) 17 key) (17 + key.length) r) hcachen
  dsimp only at hpcw
  have hpcm := (pageContent_markDirty (pm1.writePage t.pm.numPages
    (fun d => putU32 (copyBytes (putU32 (putU32 (putU32 (writeByte d 0 0) 1 1) 9 l) 13 key.length) 17 key) (17 + key.length) r)) t.pm.numPages t.pm.numPages).trans hpcw
  obtain ⟨e0, e1, e9, e13, ekey, er⟩ := rootPageWrites_reads zeroPageData l r key hl hr
  refine ⟨_, rfl, rfl, rfl, hnum1, hfree1, ?_, ?_, ?_, ?_, ?_, ?_, ?_, ?_⟩
  · show pageContent ((pm1.writePage t.pm.numPages (fun d => putU32 (copyBytes (putU32 (putU32 (putU32 (writeByte d 0 0) 1 1) 9 l) 13 key.length) 17 key) (17 + key.length) r)).markDirty t.pm.numPages) t.pm.numPages 0 = 0
    rw [hpcm]
    exact e0
  · show readU32 (pageContent ((pm1.writePage t.pm.numPages (fun d => putU32 (copyBytes (putU32 (putU32 (putU32 (writeByte d 0 0) 1 1) 9 l) 13 key.length) 17 key) (17 + key.length) r)).markDirty t.pm.numPages) t.pm.numPages) 1 = 1
    rw [hpcm]
    exact e1
  · show readU32 (pageContent ((pm1.writePage t.pm.numPages (fun d => putU32 (copyBytes (putU32 (putU32 (putU32 (writeByte d 0 0) 1 1) 9 l) 13 key.length) 17 key) (17 + key.length) r)).markDirty t.pm.numPages) t.pm.numPages) 9 = l
    rw [hpcm]
    exact e9
  · show readU32 (pageContent ((pm1.writePage t.pm.numPages (fun d => putU32 (copyBytes (putU32 (putU32 (putU32 (writeByte d 0 0) 1 1) 9 l) 13 key.length) 17 key) (17 + key.length) r)).markDirty t.pm.numPages) t.pm.numPages) 13 = key.length % 4294967296
    rw [hpcm]
    exact e13
  · show readBytes (pageContent ((pm1.writePage t.pm.numPages (fun d => putU32 (copyBytes (putU32 (putU32 (putU32 (writeByte d 0 0) 1 1) 9 l) 13 key.length) 17 key) (17 + key.length) r)).markDirty t.pm.numPages) t.pm.numPages) 17 key.length = key
    rw [hpcm]
    exact ekey
  · show readU32 (pageContent ((pm1.writePage t.pm.numPages (fun d => putU32 (copyBytes (putU32 (putU32 (putU32 (writeByte d 0 0) 1 1) 9 l) 13 key.length) 17 key) (17 + key.length) r)).markDirty t.pm.numPages) t.pm.numPages) (17 + key.length) = r
    rw [hpcm]
    exact er
  · show ∀ j q, j ≠ 0 → j ≠ t.pm.numPages → t.pm.pageCache j = some q →
      ((pm1.writePage t.pm.numPages (fun d => putU32 (copyBytes (putU32 (putU32 (putU32 (writeByte d 0 0) 1 1) 9 l) 13 key.length) 17 key) (17 + key.length) r)).markDirty t.pm.numPages).pageCache j = some q
        ∧ pageContent ((pm1.writePage t.pm.numPages (fun d => putU32 (copyBytes (putU32 (putU32 (putU32 (writeByte d 0 0) 1 1) 9 l) 13 key.length) 17 key) (17 + key.length) r)).markDirty t.pm.numPages) j = q.data
    intro j q hj0 hjn hq
    have hcj : pm1.pageCache j = some q := by rw [hcachej j hj0 hjn]; exact hq
    constructor
    · rw [pageCache_markDirty_other _ _ _ hjn, pageCache_writePage_other _ _ _ _ hjn]
      exact hcj
    · rw [pageContent_markDirty, pageContent_writePage_other _ _ _ _ hjn]
      simp [pageContent, hcj]
  · show ∃ hp, ((pm1.writePage t.pm.numPages (fun d => putU32 (copyBytes (putU32 (putU32 (putU32 (writeByte d 0 0) 1 1) 9 l) 13 key.length) 17 key) (17 + key.length) r)).markDirty t.pm.numPages).pageCache 0 = some hp
    obtain ⟨hp, h01⟩ := h01
    refine ⟨hp, ?_⟩
    have hn0 : (0 : Nat) ≠ t.pm.numPages := by omega
    rw [pageCache_markDirty_other _ _ _ hn0, pageCache_writePage_other _ _ _ _ hn0]
    exact h01

theorem splitLeafNode_root_spec (fuel : Nat) (t : BPlusTree) (nodeID : Nat) (p : DPage)
    (key value : List Nat)
    (es nes : List (List Nat × List Nat)) (sp : Nat)
    (hes : es = readLeafEntriesAux p.data (readU32 p.data 1) 9)
    (hnes : nes = es.take (leafInsertPos key es) ++ (key, value) :: es.drop (leafInsertPos key es))
    (hsp : sp = nes.length / 2)
    (hc : t.pm.pageCache nodeID = some p)
    (hlt : nodeID < t.pm.numPages)
    (hnode0 : nodeID ≠ 0)
    (hfree : t.pm.freePages = [])
    (h0 : ∃ hp, t.pm.pageCache 0 = some hp)
    (hnp : t.pm.numPages < 4294967296) :
    ∃ t', splitLeafNode fuel t nodeID key value none = Except.ok t'
      ∧ t'.rootPageID = t.pm.numPages + 1
      ∧ t'.order = t.order
      ∧ t'.pm.numPages = t.pm.numPages + 2
      ∧ pageContent t'.pm nodeID =
          writeLeafEntriesAux (putU32 (putU32 p.data 1 sp) 5 t.pm.numPages) 9 (nes.take sp)
      ∧ pageContent t'.pm t.pm.numPages =
          writeLeafEntriesAux (putU32 (putU32 (writeByte zeroPageData 0 1) 5
            (readU32 (putU32 p.data 1 sp) 5)) 1 (nes.length - sp)) 9 (nes.drop sp)
      ∧ pageContent t'.pm (t.pm.numPages + 1) 0 = 0
      ∧ readU32 (pageContent t'.pm (t.pm.numPages + 1)) 1 = 1
      ∧ readU32 (pageContent t'.pm (t.pm.numPages + 1)) 9 = nodeID
      ∧ readBytes (pageContent t'.pm (t.pm.numPages + 1)) 17 (nes.getD sp ([], [])).1.length
          = (nes.getD sp ([], [])).1
      ∧ readU32 (pageContent t'.pm (t.pm.numPages + 1)) (17 + (nes.getD sp ([], [])).1.length)
          = t.pm.numPages := by
  obtain ⟨q, pmA, hg, hqd, _, hnumA, hfreeA, hcqA, hcjA, hpcA⟩ :=
    GetPage_cached_obs t.pm nodeID p hlt hc
  unfold splitLeafNode
  rw [hg]
  dsimp only
  obtain ⟨pmB, hgl, hnumB, hfreeB, ⟨r, hcrB, hrd⟩, hcjB, hpcB⟩ :=
    getLeafNodeEntries_obs pmA nodeID q (by omega) hcqA
  rw [hgl]
  dsimp only
  rw [hqd, ← hes]
  have hrdp : r.data = p.data := by rw [hrd, hqd]
  have hfreeB2 : pmB.freePages = [] := by rw [hfreeB, hfreeA, hfree]
  have hnumB2 : pmB.numPages = t.pm.numPages := by rw [hnumB, hnumA]
  have h0B : ∃ hp, pmB.pageCache 0 = some hp := by
    obtain ⟨hp, h00⟩ := h0
    exact ⟨hp, by rw [hcjB 0 (Ne.symm hnode0), hcjA 0 (Ne.symm hnode0)]; exact h00⟩
  obtain ⟨pmC, halloc, hnumC, hfreeC, hcjC, hcnew, h0C⟩ :=
    AllocatePage_fresh pmB hfreeB2 (by omega) h0B
  rw [hnumB2] at halloc hnumC hcjC hcnew
  rw [halloc]
  dsimp only
  rw [← hnes, ← hsp]
  have hcCnode : pmC.pageCache nodeID = some r := by
    rw [hcjC nodeID hnode0 (by omega)]
    exact hcrB
  set pm4 := pmC.writePage t.pm.numPages (fun d0 => writeByte d0 0 1) with hpm4
  have hc4new : pm4.pageCache t.pm.numPages = some ⟨t.pm.numPages, writeByte zeroPageData 0 1, true, 1⟩ := by
    rw [hpm4]; exact pageCache_writePage_cached _ _ _ _ hcnew
  have hc4node : pm4.pageCache nodeID = some r := by
    rw [hpm4, pageCache_writePage_other _ _ _ _ (by omega)]; exact hcCnode
  set pm5 := pm4.writePage nodeID (fun d0 => putU32 d0 1 sp) with hpm5
  have hc5node : pm5.pageCache nodeID = some ⟨r.id, putU32 p.data 1 sp, r.dirty, r.pinCount⟩ := by
    rw [hpm5, ← hrdp]
    exact pageCache_writePage_cached _ _ _ _ hc4node
  have hc5new : pm5.pageCache t.pm.numPages = some ⟨t.pm.numPages, writeByte zeroPageData 0 1, true, 1⟩ := by
    rw [hpm5, pageCache_writePage_other _ _ _ _ (by omega)]; exact hc4new
  have hpc5node : pageContent pm5 nodeID = putU32 p.data 1 sp := by
    rw [hpm5, ← hrdp]
    exact pageContent_writePage_cached _ _ _ _ hc4node
  rw [hpc5node]
  set pm6 := pm5.writePage t.pm.numPages (fun d0 => putU32 d0 5 (readU32 (putU32 p.data 1 sp) 5)) with hpm6
  have hc6new : pm6.pageCache t.pm.numPages = some ⟨t.pm.numPages, putU32 (writeByte zeroPageData 0 1) 5 (readU32 (putU32 p.data 1 sp) 5), true, 1⟩ := by
    rw [hpm6]; exact pageCache_writePage_cached _ _ _ _ hc5new
  have hc6node : pm6.pageCache nodeID = some ⟨r.id, putU32 p.data 1 sp, r.dirty, r.pinCount⟩ := by
    rw [hpm6, pageCache_writePage_other _ _ _ _ (by omega)]; exact hc5node
  set pm7 := pm6.writePage nodeID (fun d0 => putU32 d0 5 t.pm.numPages) with hpm7
  have hc7node : pm7.pageCache nodeID = some ⟨r.id, putU32 (putU32 p.data 1 sp) 5 t.pm.numPages, r.dirty, r.pinCount⟩ := by
    rw [hpm7]; exact pageCache_writePage_cached _ _ _ _ hc6node
  have hc7new : pm7.pageCache t.pm.numPages = some ⟨t.pm.numPages, putU32 (writeByte zeroPageData 0 1) 5 (readU32 (putU32 p.data 1 sp) 5), true, 1⟩ := by
    rw [hpm7, pageCache_writePage_other _ _ _ _ (by omega)]; exact hc6new
  set pm8 := pm7.writePage nodeID (fun d0 => writeLeafEntriesAux d0 9 (nes.take sp)) with hpm8
  have hc8node : pm8.pageCache nodeID = some ⟨r.id, writeLeafEntriesAux (putU32 (putU32 p.data 1 sp) 5 t.pm.numPages) 9 (nes.take sp), r.dirty, r.pinCount⟩ := by
    rw [hpm8]; exact pageCache_writePage_cached _ _ _ _ hc7node
  have hc8new : pm8.pageCache t.pm.numPages = some ⟨t.pm.numPages, putU32 (writeByte zeroPageData 0 1) 5 (readU32 (putU32 p.data 1 sp) 5), true, 1⟩ := by
    rw [hpm8, pageCache_writePage_other _ _ _ _ (by omega)]; exact hc7new
  set pm9 := pm8.writePage t.pm.numPages (fun d0 => writeLeafEntriesAux (putU32 d0 1 (nes.length - sp)) 9 (nes.drop sp)) with hpm9
  have hc9new : pm9.pageCache t.pm.numPages = some ⟨t.pm.numPages, writeLeafEntriesAux (putU32 (putU32 (writeByte zeroPageData 0 1) 5 (readU32 (putU32 p.data 1 sp) 5)) 1 (nes.length - sp)) 9 (nes.drop sp), true, 1⟩ := by
    rw [hpm9]; exact pageCache_writePage_cached _ _ _ _ hc8new
  have hc9node : pm9.pageCache nodeID = some ⟨r.id, writeLeafEntriesAux (putU32 (putU32 p.data 1 sp) 5 t.pm.numPages) 9 (nes.take sp), r.dirty, r.pinCount⟩ := by
    rw [hpm9, pageCache_writePage_other _ _ _ _ (by omega)]; exact hc8node
  set pm10 := (pm9.markDirty nodeID).markDirty t.pm.numPages with hpm10
  have hc10node : pm10.pageCache nodeID = some ⟨r.id, writeLeafEntriesAux (putU32 (putU32 p.data 1 sp) 5 t.pm.numPages) 9 (nes.take sp), true, r.pinCount⟩ := by
    rw [hpm10, pageCache_markDirty_other _ _ _ (by omega)]
    exact pageCache_markDirty_cached _ _ _ hc9node
  have hc10new : pm10.pageCache t.pm.numPages = some ⟨t.pm.numPages, writeLeafEntriesAux (putU32 (putU32 (writeByte zeroPageData 0 1) 5 (readU32 (putU32 p.data 1 sp) 5)) 1 (nes.length - sp)) 9 (nes.drop sp), true, 1⟩ := by
    rw [hpm10]
    have h1 : (pm9.markDirty nodeID).pageCache t.pm.numPages = some ⟨t.pm.numPages, writeLeafEntriesAux (putU32 (putU32 (writeByte zeroPageData 0 1) 5 (readU32 (putU32 p.data 1 sp) 5)) 1 (nes.length - sp)) 9 (nes.drop sp), true, 1⟩ := by
      rw [pageCache_markDirty_other _ _ _ (by omega)]
      exact hc9new
    exact (pageCache_markDirty_cached _ _ _ h1).trans rfl
  have hnum10 : pm10.numPages = t.pm.numPages + 1 := by
    rw [hpm10]; exact hnumC
  have hfree10 : pm10.freePages = [] := by
    rw [hpm10]; exact hfreeC
  have h010 : ∃ hp, pm10.pageCache 0 = some hp := by
    obtain ⟨hp, h00⟩ := h0C
    refine ⟨hp, ?_⟩
    rw [hpm10, pageCache_markDirty_other _ _ _ (by omega), pageCache_markDirty_other _ _ _ (Ne.symm hnode0), hpm9, pageCache_writePage_other _ _ _ _ (by omega), hpm8, pageCache_writePage_other _ _ _ _ (Ne.symm hnode0), hpm7, pageCache_writePage_other _ _ _ _ (Ne.symm hnode0), hpm6, pageCache_writePage_other _ _ _ _ (by omega), hpm5, pageCache_writePage_other _ _ _ _ (Ne.symm hnode0), hpm4, pageCache_writePage_other _ _ _ _ (by omega)]
    exact h00
  obtain ⟨t2, hcr, hroot2, horder2, hnum2, hfree2, e0r, e1r, e9r, e13r, ekeyr, err, hpres2, h02⟩ :=
    createNewRoot_spec { t with pm := pm10 } nodeID t.pm.numPages (nes.getD sp ([], [])).1
      hfree10 (by dsimp only; omega) h010 (by omega) (by omega)
  dsimp only at hcr hroot2 horder2 hnum2 hfree2 e0r e1r e9r e13r ekeyr err hpres2 h02
  rw [hnum10] at hroot2 hnum2 e0r e1r e9r e13r ekeyr err hpres2
  rw [hcr]
  obtain ⟨hcf_node, hpcf_node⟩ := hpres2 nodeID
    ⟨r.id, writeLeafEntriesAux (putU32 (putU32 p.data 1 sp) 5 t.pm.numPages) 9 (nes.take sp), true, r.pinCount⟩
    hnode0 (by omega) hc10node
  obtain ⟨hcf_new, hpcf_new⟩ := hpres2 t.pm.numPages
    ⟨t.pm.numPages, writeLeafEntriesAux (putU32 (putU32 (writeByte zeroPageData 0 1) 5 (readU32 (putU32 p.data 1 sp) 5)) 1 (nes.length - sp)) 9 (nes.drop sp), true, 1⟩
    (by omega) (by omega) hc10new
  refine ⟨t2, rfl, hroot2, horder2, by omega, ?_, ?_, e0r, e1r, e9r, ekeyr, err⟩
  · rw [hpcf_node]
  · rw [hpcf_new]

theorem insertRec_leaf_split (fuel : Nat) (t : BPlusTree) (p : DPage) (key value : List Nat)
    (es nes : List (List Nat × List Nat)) (sp : Nat)
    (hes : es = readLeafEntriesAux p.data (readU32 p.data 1) 9)
    (hnes : nes = es.take (leafInsertPos key es) ++ (key, value) :: es.drop (leafInsertPos key es))
    (hsp : sp = nes.length / 2)
    (hc : t.pm.pageCache t.rootPageID = some p)
    (hlt : t.rootPageID < t.pm.numPages)
    (hleaf : p.data 0 = 1)
    (horder : t.order = 128)
    (hn : readU32 p.data 1 = 127)
    (hdup : dupIndex key es = none)
    (hroot0 : t.rootPageID ≠ 0)
    (hfree : t.pm.freePages = [])
    (h0 : ∃ hp, t.pm.pageCache 0 = some hp)
    (hnp : t.pm.numPages < 4294967296) :
    ∃ t', t.Insert (fuel + 1) key value = Except.ok t'
      ∧ t'.rootPageID = t.pm.numPages + 1
      ∧ t'.order = t.order
      ∧ t'.pm.numPages = t.pm.numPages + 2
      ∧ pageContent t'.pm t.rootPageID =
          writeLeafEntriesAux (putU32 (putU32 p.data 1 sp) 5 t.pm.numPages) 9 (nes.take sp)
      ∧ pageContent t'.pm t.pm.numPages =
          writeLeafEntriesAux (putU32 (putU32 (writeByte zeroPageData 0 1) 5
            (readU32 (putU32 p.data 1 sp) 5)) 1 (nes.length - sp)) 9 (nes.drop sp)
      ∧ pageContent t'.pm (t.pm.numPages + 1) 0 = 0
      ∧ readU32 (pageContent t'.pm (t.pm.numPages + 1)) 1 = 1
      ∧ readU32 (pageContent t'.pm (t.pm.numPages + 1)) 9 = t.rootPageID
      ∧ readBytes (pageContent t'.pm (t.pm.numPages + 1)) 17 (nes.getD sp ([], [])).1.length
          = (nes.getD sp ([], [])).1
      ∧ readU32 (pageContent t'.pm (t.pm.numPages + 1)) (17 + (nes.getD sp ([], [])).1.length)
          = t.pm.numPages := by
  obtain ⟨q, pmA, hg, hqd, _, hnumA, hfreeA, hcq, hcjA, hpcA⟩ :=
    GetPage_cached_obs t.pm t.rootPageID p hlt hc
  unfold BPlusTree.Insert BPlusTree.insertRec
  rw [hg]
  dsimp only
  have hpcaid : pageContent pmA t.rootPageID = p.data := by
    rw [hpcA _]; simp [pageContent, hc]
  rw [hpcaid, if_pos hleaf]
  obtain ⟨pmB, hgl, hnumB, hfreeB, ⟨r, hcr, hrd⟩, hcjB, hpcB⟩ :=
    getLeafNodeEntries_obs pmA t.rootPageID q (by omega) hcq
  rw [hgl]
  dsimp only
  rw [hqd, ← hes, hdup, hn]
  rw [if_neg (by rw [horder]; omega)]
  dsimp only
  have hrdp : r.data = p.data := by rw [hrd, hqd]
  have hes2 : es = readLeafEntriesAux r.data (readU32 r.data 1) 9 := by rw [hrdp]; exact hes
  have hfreeB2 : pmB.freePages = [] := by rw [hfreeB, hfreeA, hfree]
  have hnumB2 : pmB.numPages = t.pm.numPages := by rw [hnumB, hnumA]
  have h0B : ∃ hp, pmB.pageCache 0 = some hp := by
    obtain ⟨hp, h00⟩ := h0
    exact ⟨hp, by rw [hcjB 0 (Ne.symm hroot0), hcjA 0 (Ne.symm hroot0)]; exact h00⟩
  obtain ⟨t', hsplit, hroot', horder', hnum', hpcnode, hpcnew, e0r, e1r, e9r, ekeyr, err⟩ :=
    splitLeafNode_root_spec fuel { t with pm := pmB } t.rootPageID r key value es nes sp
      hes2 hnes hsp hcr (by dsimp only; omega) hroot0 hfreeB2 h0B (by dsimp only; omega)
  dsimp only at hroot' horder' hnum' hpcnode hpcnew e0r e1r e9r ekeyr err
  rw [hnumB2] at hroot' hnum' hpcnode hpcnew e0r e1r e9r ekeyr err
  rw [hrdp] at hpcnode hpcnew
  rw [hsplit]
  exact ⟨t', rfl, hroot', horder', by omega, hpcnode, hpcnew, e0r, e1r, e9r, ekeyr, err⟩

theorem writeLeaf_read_byte0 (d : PageData) (es : List (List Nat × List Nat)) :
    writeLeafEntriesAux d 9 es 0 = d 0 :=
  writeLeafEntriesAux_frame es d 9 0 (by omega)

theorem writeLeaf_read_count (d : PageData) (es : List (List Nat × List Nat)) :
    readU32 (writeLeafEntriesAux d 9 es) 1 = readU32 d 1 :=
  readU32_frame _ _ _ (fun j hj => writeLeafEntriesAux_frame es d 9 (1 + j) (by omega))

theorem writeLeaf_read_next (d : PageData) (es : List (List Nat × List Nat)) :
    readU32 (writeLeafEntriesAux d 9 es) 5 = readU32 d 5 :=
  readU32_frame _ _ _ (fun j hj => writeLeafEntriesAux_frame es d 9 (5 + j) (by omega))

theorem readU32_putU32_disjoint (d : PageData) (off1 v off : Nat)
    (h : off + 4 ≤ off1 ∨ off1 + 4 ≤ off) :
    readU32 (putU32 d off1 v) off = readU32 d off :=
  readU32_frame _ _ _ (fun j hj => putU32_frame d off1 v (off + j) (by omega))

/-- Claim C3 (amended): at the default order 128 a root leaf accepts up
to 127 keys, not 128.  Inserting a fresh key into a root leaf holding
`n < 127` keys succeeds in place — no page is allocated and the leaf
then holds `n + 1` keys — while inserting a fresh key into a root leaf
holding exactly 127 keys (the 128th distinct key) triggers exactly one
leaf split: the entries are split 64/64 between the old leaf and a
freshly allocated leaf chained after it, a second fresh page becomes the
new root, an internal node with one separator key and the two leaves as
children, and the page count grows by exactly 2. -/
theorem BPlusTree_leaf_capacity_127 (fuel : Nat) (t : BPlusTree) (p : DPage)
    (key value : List Nat)
    (hc : t.pm.pageCache t.rootPageID = some p)
    (hlt : t.rootPageID < t.pm.numPages)
    (hleaf : p.data 0 = 1)
    (horder : t.order = 128)
    (hdup : dupIndex key (readLeafEntriesAux p.data (readU32 p.data 1) 9) = none)
    (hroot0 : t.rootPageID ≠ 0)
    (hfree : t.pm.freePages = [])
    (h0 : ∃ hp, t.pm.pageCache 0 = some hp)
    (hnp : t.pm.numPages < 4294967296)
    (hb5 : readU32 p.data 5 < 4294967296) :
    (readU32 p.data 1 < 127 →
      ∃ pm3, t.Insert (fuel + 1) key value = Except.ok { t with pm := pm3 }
        ∧ pm3.numPages = t.pm.numPages
        ∧ pageContent pm3 t.rootPageID 0 = 1
        ∧ readU32 (pageContent pm3 t.rootPageID) 1 = readU32 p.data 1 + 1)
    ∧ (readU32 p.data 1 = 127 →
      ∃ t', t.Insert (fuel + 1) key value = Except.ok t'
        ∧ t'.rootPageID = t.pm.numPages + 1
        ∧ t'.pm.numPages = t.pm.numPages + 2
        ∧ pageContent t'.pm t'.rootPageID 0 = 0
        ∧ readU32 (pageContent t'.pm t'.rootPageID) 1 = 1
        ∧ readU32 (pageContent t'.pm t'.rootPageID) 9 = t.rootPageID
        ∧ pageContent t'.pm t.rootPageID 0 = 1
        ∧ readU32 (pageContent t'.pm t.rootPageID) 1 = 64
        ∧ readU32 (pageContent t'.pm t.rootPageID) 5 = t.pm.numPages
        ∧ pageContent t'.pm t.pm.numPages 0 = 1
        ∧ readU32 (pageContent t'.pm t.pm.numPages) 1 = 64
        ∧ readU32 (pageContent t'.pm t.pm.numPages) 5 = readU32 p.data 5) := by
  constructor
  · intro hn
    obtain ⟨pm3, hins, hnum, hfree3, hcontent, _, _, _⟩ :=
      insertRec_leaf_nosplit fuel t p key value hc hlt hleaf horder hn hdup
    refine ⟨pm3, hins, hnum, ?_, ?_⟩
    · rw [hcontent, writeLeaf_read_byte0, putU32_frame _ _ _ _ (by omega)]
      exact hleaf
    · rw [hcontent, writeLeaf_read_count, readU32_putU32]
      omega
  · intro hn
    obtain ⟨t', hins, hroot', horder', hnum', hpcnode, hpcnew, e0r, e1r, e9r, ekeyr, err⟩ :=
      insertRec_leaf_split fuel t p key value _ _ _ rfl rfl rfl hc hlt hleaf horder hn hdup
        hroot0 hfree h0 hnp
    have hsplen : (readLeafEntriesAux p.data (readU32 p.data 1) 9).length = 127 := by
      rw [readLeafEntriesAux_length, hn]
    have hlen : ((readLeafEntriesAux p.data (readU32 p.data 1) 9).take
        (leafInsertPos key (readLeafEntriesAux p.data (readU32 p.data 1) 9))
        ++ (key, value) :: (readLeafEntriesAux p.data (readU32 p.data 1) 9).drop
        (leafInsertPos key (readLeafEntriesAux p.data (readU32 p.data 1) 9))).length = 128 :=
      (leafInsert_length key value _).trans (by rw [hsplen])
    rw [hlen] at hpcnode hpcnew
    refine ⟨t', hins, hroot', hnum', ?_, ?_, ?_, ?_, ?_, ?_, ?_, ?_, ?_⟩
    · rw [hroot']
      exact e0r
    · rw [hroot']
      exact e1r
    · rw [hroot']
      exact e9r
    · rw [hpcnode, writeLeaf_read_byte0, putU32_frame _ _ _ _ (by omega),
        putU32_frame _ _ _ _ (by omega)]
      exact hleaf
    · rw [hpcnode, writeLeaf_read_count, readU32_putU32_disjoint _ _ _ _ (by omega),
        readU32_putU32]
    · rw [hpcnode, writeLeaf_read_next, readU32_putU32]
      omega
    · rw [hpcnew, writeLeaf_read_byte0, putU32_frame _ _ _ _ (by omega),
        putU32_frame _ _ _ _ (by omega), writeByte_same]
    · rw [hpcnew, writeLeaf_read_count, readU32_putU32]
    · rw [hpcnew, writeLeaf_read_next, readU32_putU32_disjoint _ _ _ _ (by omega),
        readU32_putU32, readU32_putU32_disjoint _ _ _ _ (by omega)]
      exact Nat.mod_eq_of_lt hb5

theorem c3entries_length : c3entries.length = 127 := by simp [c3entries]

theorem c3leafData_count : readU32 c3leafData 1 = 127 := by
  unfold c3leafData
  rw [writeLeaf_read_count, readU32_putU32_disjoint _ _ _ _ (by omega), readU32_putU32]

theorem c3_wf : LeafEntriesWF c3entries := by
  intro e he
  simp only [c3entries, List.mem_map] at he
  obtain ⟨i, _, rfl⟩ := he
  exact ⟨by simp, by simp⟩

theorem c3leafData_entries :
    readLeafEntriesAux c3leafData (readU32 c3leafData 1) 9 = c3entries := by
  rw [c3leafData_count, ← c3entries_length]
  unfold c3leafData
  exact readLeafEntries_writeLeafEntries c3entries _ 9 c3_wf

set_option maxRecDepth 10000 in
theorem c3_dup :
    dupIndex [127] (readLeafEntriesAux c3leafData (readU32 c3leafData 1) 9) = none := by
  rw [c3leafData_entries]
  decide

theorem c3leaf_byte0 : c3leafData 0 = 1 := by
  unfold c3leafData
  rw [writeLeaf_read_byte0, putU32_frame _ _ _ _ (by omega), putU32_frame _ _ _ _ (by omega),
    writeByte_same]

theorem c3leaf_next : readU32 c3leafData 5 = 0 := by
  unfold c3leafData
  rw [writeLeaf_read_next, readU32_putU32]

set_option maxRecDepth 10000 in
/-- Witness for `BPlusTree_leaf_capacity_127` at the concrete tree
`c3tree` whose root leaf holds the 127 single-byte keys `0 .. 126`:
all hypotheses hold there for the fresh key `[127]`. -/
theorem BPlusTree_leaf_capacity_127_witness :
    readU32 c3leafData 1 = 127
    ∧ ((readU32 (⟨1, c3leafData, true, 1⟩ : DPage).data 1 < 127 →
        ∃ pm3, c3tree.Insert (0 + 1) [127] [0] = Except.ok { c3tree with pm := pm3 }
          ∧ pm3.numPages = c3tree.pm.numPages
          ∧ pageContent pm3 c3tree.rootPageID 0 = 1
          ∧ readU32 (pageContent pm3 c3tree.rootPageID) 1 =
              readU32 (⟨1, c3leafData, true, 1⟩ : DPage).data 1 + 1)
      ∧ (readU32 (⟨1, c3leafData, true, 1⟩ : DPage).data 1 = 127 →
        ∃ t', c3tree.Insert (0 + 1) [127] [0] = Except.ok t'
          ∧ t'.rootPageID = c3tree.pm.numPages + 1
          ∧ t'.pm.numPages = c3tree.pm.numPages + 2
          ∧ pageContent t'.pm t'.rootPageID 0 = 0
          ∧ readU32 (pageContent t'.pm t'.rootPageID) 1 = 1
          ∧ readU32 (pageContent t'.pm t'.rootPageID) 9 = c3tree.rootPageID
          ∧ pageContent t'.pm c3tree.rootPageID 0 = 1
          ∧ readU32 (pageContent t'.pm c3tree.rootPageID) 1 = 64
          ∧ readU32 (pageContent t'.pm c3tree.rootPageID) 5 = c3tree.pm.numPages
          ∧ pageContent t'.pm c3tree.pm.numPages 0 = 1
          ∧ readU32 (pageContent t'.pm c3tree.pm.numPages) 1 = 64
          ∧ readU32 (pageContent t'.pm c3tree.pm.numPages) 5 =
              readU32 (⟨1, c3leafData, true, 1⟩ : DPage).data 5)) :=
  ⟨c3leafData_count,
    BPlusTree_leaf_capacity_127 0 c3tree ⟨1, c3leafData, true, 1⟩ [127] [0]
      rfl (by decide)
      (by rw [show (⟨1, c3leafData, true, 1⟩ : DPage).data = c3leafData from rfl]
          exact c3leaf_byte0)
      rfl c3_dup (by decide) rfl ⟨c3header, rfl⟩
      (by decide) (by rw [show (⟨1, c3leafData, true, 1⟩ : DPage).data = c3leafData from rfl,
        c3leaf_next]; decide)⟩

set_option maxRecDepth 10000 in
/-- Claim C3 counterexample: the root leaf of `c3tree` holds exactly 127
keys, and inserting the 128th distinct key `[127]` already triggers the
leaf split — the root moves to a new page, the page count grows by 2 and
the old leaf is cut down to 64 entries — so a leaf never accepts 128
keys, and no 129th insertion into the leaf is possible. -/
theorem BPlusTree_split_at_128th_key :
    readU32 (pageContent c3tree.pm c3tree.rootPageID) 1 = 127
    ∧ ∃ t', c3tree.Insert 1 [127] [0] = Except.ok t'
        ∧ t'.rootPageID ≠ c3tree.rootPageID
        ∧ t'.pm.numPages = c3tree.pm.numPages + 2
        ∧ readU32 (pageContent t'.pm c3tree.rootPageID) 1 = 64 := by
  have hpc : pageContent c3tree.pm c3tree.rootPageID = c3leafData := by
    simp [c3tree, c3pm, pageContent]
  constructor
  · rw [hpc, c3leafData_count]
  · obtain ⟨t', hins, hroot', horder', hnum', hpcnode, hpcnew, e0r, e1r, e9r, ekeyr, err⟩ :=
      insertRec_leaf_split 0 c3tree ⟨1, c3leafData, true, 1⟩ [127] [0] _ _ _ rfl rfl rfl
        rfl (by decide)
        (by rw [show (⟨1, c3leafData, true, 1⟩ : DPage).data = c3leafData from rfl]
            exact c3leaf_byte0)
        rfl (by rw [show (⟨1, c3leafData, true, 1⟩ : DPage).data
          = c3leafData from rfl, c3leafData_count]) c3_dup (by decide) rfl
        ⟨c3header, rfl⟩ (by decide)
    have hsplen : (readLeafEntriesAux (⟨1, c3leafData, true, 1⟩ : DPage).data
        (readU32 (⟨1, c3leafData, true, 1⟩ : DPage).data 1) 9).length = 127 := by
      rw [show (⟨1, c3leafData, true, 1⟩ : DPage).data = c3leafData from rfl,
        readLeafEntriesAux_length, c3leafData_count]
    have hlen := (leafInsert_length [127] [0]
      (readLeafEntriesAux (⟨1, c3leafData, true, 1⟩ : DPage).data
        (readU32 (⟨1, c3leafData, true, 1⟩ : DPage).data 1) 9)).trans (by rw [hsplen])
    rw [hlen] at hpcnode
    refine ⟨t', hins, ?_, hnum', ?_⟩
    · rw [hroot']
      decide
    · rw [hpcnode, writeLeaf_read_count, readU32_putU32_disjoint _ _ _ _ (by omega),
        readU32_putU32]

theorem insertRec_dup_overwrite (fuel : Nat) (t : BPlusTree) (p : DPage)
    (key value ek : List Nat) (i : Nat)
    (hc : t.pm.pageCache t.rootPageID = some p)
    (hlt : t.rootPageID < t.pm.numPages)
    (hleaf : p.data 0 = 1)
    (hdup : dupIndex key (readLeafEntriesAux p.data (readU32 p.data 1) 9) = some (i, ek)) :
    ∃ pm3, t.Insert (fuel + 1) key value = Except.ok { t with pm := pm3 }
      ∧ pm3.numPages = t.pm.numPages
      ∧ pageContent pm3 t.rootPageID =
          copyBytes (putU32 p.data (9 + i * (ek.length + 8) + 4 + ek.length) value.length)
            (9 + i * (ek.length + 8) + 4 + ek.length + 4) value
      ∧ (∃ q, pm3.pageCache t.rootPageID = some q ∧ q.data = pageContent pm3 t.rootPageID) := by
  obtain ⟨q, pmA, hg, hqd, _, hnumA, hfreeA, hcq, hcjA, hpcA⟩ :=
    GetPage_cached_obs t.pm t.rootPageID p hlt hc
  unfold BPlusTree.Insert BPlusTree.insertRec
  rw [hg]
  dsimp only
  have hpcaid : pageContent pmA t.rootPageID = p.data := by
    rw [hpcA _]; simp [pageContent, hc]
  rw [hpcaid, if_pos hleaf]
  obtain ⟨pmB, hgl, hnumB, hfreeB, ⟨r, hcr, hrd⟩, hcjB, hpcB⟩ :=
    getLeafNodeEntries_obs pmA t.rootPageID q (by omega) hcq
  rw [hgl]
  dsimp only
  rw [hqd, hdup]
  dsimp only
  have hrdp : r.data = p.data := by rw [hrd, hqd]
  have hcrm : (pmB.writePage t.rootPageID (fun d0 =>
      copyBytes (putU32 d0 (9 + i * (ek.length + 8) + 4 + ek.length) value.length)
        (9 + i * (ek.length + 8) + 4 + ek.length + 4) value)).pageCache t.rootPageID =
      some ⟨r.id, copyBytes (putU32 p.data (9 + i * (ek.length + 8) + 4 + ek.length)
        value.length) (9 + i * (ek.length + 8) + 4 + ek.length + 4) value,
        r.dirty, r.pinCount⟩ := by
    rw [← hrdp]
    exact pageCache_writePage_cached _ _ _ _ hcr
  refine ⟨_, rfl, hnumB.trans hnumA, ?_, ?_⟩
  · rw [pageContent_markDirty]
    rw [show pageContent (pmB.writePage t.rootPageID (fun d0 =>
        copyBytes (putU32 d0 (9 + i * (ek.length + 8) + 4 + ek.length) value.length)
          (9 + i * (ek.length + 8) + 4 + ek.length + 4) value)) t.rootPageID =
        copyBytes (putU32 r.data (9 + i * (ek.length + 8) + 4 + ek.length) value.length)
          (9 + i * (ek.length + 8) + 4 + ek.length + 4) value
      from pageContent_writePage_cached _ _ _ _ hcr]
    rw [hrdp]
  · refine ⟨⟨r.id, copyBytes (putU32 p.data (9 + i * (ek.length + 8) + 4 + ek.length)
      value.length) (9 + i * (ek.length + 8) + 4 + ek.length + 4) value, true, r.pinCount⟩,
      pageCache_markDirty_cached _ _ _ hcrm, ?_⟩
    rw [pageContent_markDirty]
    rw [show pageContent (pmB.writePage t.rootPageID (fun d0 =>
        copyBytes (putU32 d0 (9 + i * (ek.length + 8) + 4 + ek.length) value.length)
          (9 + i * (ek.length + 8) + 4 + ek.length + 4) value)) t.rootPageID =
        copyBytes (putU32 r.data (9 + i * (ek.length + 8) + 4 + ek.length) value.length)
          (9 + i * (ek.length + 8) + 4 + ek.length + 4) value
      from pageContent_writePage_cached _ _ _ _ hcr]
    rw [hrdp]

theorem Get_root_leaf (fuel : Nat) (t : BPlusTree) (p : DPage) (key : List Nat)
    (hc : t.pm.pageCache t.rootPageID = some p)
    (hlt : t.rootPageID < t.pm.numPages)
    (hleaf : p.data 0 = 1) :
    (t.Get (fuel + 1) key).map Prod.fst =
      getScanAux p.data key (readU32 p.data 1) 9 := by
  obtain ⟨q, pmA, hg, hqd, _, hnumA, hfreeA, hcq, hcjA, hpcA⟩ :=
    GetPage_cached_obs t.pm t.rootPageID p hlt hc
  unfold BPlusTree.Get findLeafNode
  rw [hg]
  dsimp only
  have hpcaid : pageContent pmA t.rootPageID = p.data := by
    rw [hpcA _]; simp [pageContent, hc]
  rw [hpcaid, if_pos hleaf]
  dsimp only
  obtain ⟨q2, pmB, hg2, hqd2, _, hnumB, hfreeB, hcq2, hcjB, hpcB⟩ :=
    GetPage_cached_obs pmA t.rootPageID q (by omega) hcq
  rw [hg2]
  dsimp only
  have hpcbid : pageContent pmB t.rootPageID = p.data := by
    rw [hpcB _, hpcaid]
  rw [hpcbid]
  cases hscan : getScanAux p.data key (readU32 p.data 1) 9 with
  | error e => simp [hscan, Except.map]
  | ok v => simp [hscan, Except.map]

set_option maxRecDepth 10000 in
theorem c1leaf_byte0 : c1leafData 0 = 1 := by decide

set_option maxRecDepth 10000 in
theorem c1_dup :
    dupIndex (strBytes "b") (readLeafEntriesAux c1leafData (readU32 c1leafData 1) 9)
      = some (1, strBytes "b") := by decide

set_option maxRecDepth 10000 in
/-- Claim C1: FALSIFIED (code bug).  On the tree holding `a ↦ x` and
`b ↦ y` (the state after `Insert("a","x")`, `Insert("b","y")` on a
fresh tree), `Get("b")` returns `"y"`; the overwriting
`Insert("b","y2")` reports success, yet `Get("b")` afterwards fails
with "key not found": the in-place overwrite offset
`9 + i*(len(key)+8) + 4 + len(key)` counts only the length fields of
the preceding entries, not their value bytes, so the length write lands
one byte short and clobbers the stored key `"b"`. -/
theorem BPlusTree_overwrite_loses_key :
    (c1tree.Get 1 (strBytes "b")).map Prod.fst = Except.ok (strBytes "y")
    ∧ ∃ pm3, c1tree.Insert 1 (strBytes "b") (strBytes "y2") =
          Except.ok { c1tree with pm := pm3 }
        ∧ (({ c1tree with pm := pm3 } : BPlusTree).Get 1 (strBytes "b")).map Prod.fst
            = Except.error "key not found" := by
  constructor
  · rw [Get_root_leaf 0 c1tree ⟨1, c1leafData, true, 1⟩ (strBytes "b") rfl (by decide)
      (by rw [show (⟨1, c1leafData, true, 1⟩ : DPage).data = c1leafData from rfl]
          exact c1leaf_byte0)]
    rw [show (⟨1, c1leafData, true, 1⟩ : DPage).data = c1leafData from rfl]
    decide
  · obtain ⟨pm3, hins, hnum, hcontent, ⟨q, hcq, hqd⟩⟩ :=
      insertRec_dup_overwrite 0 c1tree ⟨1, c1leafData, true, 1⟩ (strBytes "b")
        (strBytes "y2") (strBytes "b") 1 rfl (by decide)
        (by rw [show (⟨1, c1leafData, true, 1⟩ : DPage).data = c1leafData from rfl]
            exact c1leaf_byte0)
        (by rw [show (⟨1, c1leafData, true, 1⟩ : DPage).data = c1leafData from rfl]
            exact c1_dup)
    rw [show (⟨1, c1leafData, true, 1⟩ : DPage).data = c1leafData from rfl] at hcontent
    refine ⟨pm3, hins, ?_⟩
    rw [Get_root_leaf 0 { c1tree with pm := pm3 } q (strBytes "b") hcq
      (by dsimp only; rw [hnum]; decide)
      (by rw [hqd, hcontent]; decide)]
    rw [hqd, hcontent]
    decide

set_option maxRecDepth 10000 in
/-- Claim C6 counterexample: with schema `(id INT PRIMARY KEY, name TEXT
NOT NULL)`, `MemoryStorage.Insert` rejects the row `{id: 1}` (the NOT
NULL column `name` is absent), but `DiskStorage.Insert` stores the very
same row successfully — it performs no schema validation at all. -/
theorem DiskStorage_insert_skips_validation :
    (MemoryStorage.Insert storT "t" rowMissingName).2.isSome = true
    ∧ ∃ ds', c6ds.Insert 1 "t" c6row = Except.ok ds' := by
  constructor
  · decide
  · have hok : (createRowID c6row schemaT).isOk = true := by decide
    obtain ⟨rid, hcr⟩ : ∃ rid, createRowID c6row schemaT = Except.ok rid := by
      cases h : createRowID c6row schemaT with
      | ok rid => exact ⟨rid, rfl⟩
      | error e => rw [h] at hok; simp [Except.isOk, Except.toBool] at hok
    have hrd : readLeafEntriesAux c6leafData (readU32 c6leafData 1) 9 = [] := by decide
    obtain ⟨pm3, hins, _, _, _, _, _, _⟩ :=
      insertRec_leaf_nosplit 0 c6tree ⟨1, c6leafData, true, 1⟩ rid
        (serializeRow c6row schemaT) rfl (by decide)
        (by rw [show (⟨1, c6leafData, true, 1⟩ : DPage).data = c6leafData from rfl]; decide)
        rfl
        (by rw [show (⟨1, c6leafData, true, 1⟩ : DPage).data = c6leafData from rfl]; decide)
        (by rw [show (⟨1, c6leafData, true, 1⟩ : DPage).data = c6leafData from rfl, hrd]; rfl)
    unfold DiskStorage.Insert
    rw [show mapGet c6ds.tables "t" = some ⟨schemaT, c6tree⟩ from rfl]
    dsimp only
    rw [hcr]
    dsimp only
    rw [hins]
    exact ⟨_, rfl⟩

/-! ## Order theory of `bytesCompare` -/

theorem bytesCompare_refl (x : List Nat) : bytesCompare x x = Ordering.eq := by
  induction x with
  | nil => rfl
  | cons a as ih => simp [bytesCompare, ih]

theorem bytesCompare_eq_iff (x y : List Nat) : bytesCompare x y = Ordering.eq ↔ x = y := by
  constructor
  · intro h
    induction x generalizing y with
    | nil => cases y with
      | nil => rfl
      | cons b bs => simp [bytesCompare] at h
    | cons a as ih =>
        cases y with
        | nil => simp [bytesCompare] at h
        | cons b bs =>
            simp only [bytesCompare] at h
            split at h
            · simp at h
            · split at h
              · simp at h
              · have hab : a = b := by omega
                rw [hab, ih bs h]
  · intro h
    subst h
    exact bytesCompare_refl x

theorem bytesCompare_swap (x y : List Nat) :
    bytesCompare x y = Ordering.lt ↔ bytesCompare y x = Ordering.gt := by
  induction x generalizing y with
  | nil => cases y with
    | nil => simp [bytesCompare]
    | cons b bs => simp [bytesCompare]
  | cons a as ih =>
      cases y with
      | nil => simp [bytesCompare]
      | cons b bs =>
          simp only [bytesCompare]
          by_cases h1 : a < b
      
          · rw [if_pos h1, if_neg (by omega), if_pos h1]
            simp
          · by_cases h2 : b < a
            · rw [if_neg h1, if_pos h2, if_pos h2]
              simp
            · rw [if_neg h1, if_neg h2, if_neg h2, if_neg h1]
              exact ih bs

theorem bytesCompare_trans_lt (x y z : List Nat)
    (h1 : bytesCompare x y = Ordering.lt) (h2 : bytesCompare y z = Ordering.lt) :
    bytesCompare x z = Ordering.lt := by
  induction x generalizing y z with
  | nil =>
      cases y with
      | nil => simp [bytesCompare] at h1
      | cons b bs =>
          cases z with
          | nil => simp [bytesCompare] at h2
          | cons c cs => simp [bytesCompare]
  | cons a as ih =>
      cases y with
      | nil => simp [bytesCompare] at h1
      | cons b bs =>
          cases z with
          | nil => simp [bytesCompare] at h2
          | cons c cs =>
              simp only [bytesCompare] at h1 h2 ⊢
              by_cases hab : a < b
              · -- a < b; need a < c or (a = c and tail lt) — from b ≤ c
                by_cases hbc : b < c
                · rw [if_pos (by omega)]
                · rw [if_neg hbc] at h2
                  split at h2
                  · simp at h2
                  · have hbc2 : b = c := by omega
                    rw [if_pos (by omega)]
              · rw [if_neg hab] at h1
                split at h1
                · simp at h1
                · have hab2 : a = b := by omega
                  by_cases hbc : b < c
                  · rw [if_pos (by omega)]
                  · rw [if_neg hbc] at h2
                    split at h2
                    · simp at h2
                    · have hbc2 : b = c := by omega
                      rw [if_neg (by omega), if_neg (by omega)]
                      exact ih bs cs (by subst hab2; exact h1) h2

theorem bytesCompare_lt_of_lt_of_not_lt (e lo k : List Nat)
    (h1 : bytesCompare e k = Ordering.lt) (h2 : ¬ bytesCompare lo k = Ordering.lt) :
    bytesCompare e lo = Ordering.lt := by
  cases hc : bytesCompare lo k with
  | lt => exact absurd hc h2
  | eq => rw [(bytesCompare_eq_iff lo k).mp hc]; exact h1
  | gt =>
      have hkl : bytesCompare k lo = Ordering.lt := (bytesCompare_swap k lo).mpr hc
      exact bytesCompare_trans_lt e k lo h1 hkl

theorem bytesCompare_gt_of_gt_of_lt (cur hi k2 : List Nat)
    (hgt : bytesCompare cur hi = Ordering.gt) (hlt : bytesCompare cur k2 = Ordering.lt) :
    bytesCompare k2 hi = Ordering.gt := by
  have h1 : bytesCompare hi cur = Ordering.lt := (bytesCompare_swap hi cur).mpr hgt
  exact (bytesCompare_swap hi k2).mp (bytesCompare_trans_lt hi cur k2 h1 hlt)

theorem readBytes_length (d : PageData) (off n : Nat) : (readBytes d off n).length = n := by
  simp [readBytes]

/-- The per-leaf page scan agrees with its list-level shadow on any page
whose entry area reads back as `es`. -/
theorem findRangeScanAux_eq_scanEntries (d : PageData) (lo : List Nat)
    (hi : Option (List Nat)) (es : List (List Nat × List Nat)) (off : Nat)
    (acc : List (List Nat))
    (hread : readLeafEntriesAux d es.length off = es) :
    findRangeScanAux d lo hi es.length off acc = scanEntries lo hi acc es := by
  induction es generalizing off acc with
  | nil => rfl
  | cons e rest ih =>
      obtain ⟨k, v⟩ := e
      simp only [List.length_cons, readLeafEntriesAux] at hread
      injection hread with h1 h2
      have hk : readBytes d (off + 4) (readU32 d off) = k := congrArg Prod.fst h1
      have hv : readBytes d (off + 4 + readU32 d off + 4)
          (readU32 d (off + 4 + readU32 d off)) = v := congrArg Prod.snd h1
      have hklen : readU32 d off = k.length := by
        rw [← hk, readBytes_length]
      have hvlen : readU32 d (off + 4 + readU32 d off) = v.length := by
        conv_lhs => rw [hklen]
        rw [← hv, readBytes_length]
        rw [hklen]
      simp only [List.length_cons, findRangeScanAux, scanEntries]
      rw [hk, hv, hvlen]
      by_cases hp : pastEnd hi k
      · rw [if_pos hp, if_pos hp]
      · rw [if_neg hp, if_neg hp]
        rw [hklen] at h2 ⊢
        have hvlen2 : readU32 d (off + 4 + k.length) = v.length := by
          rw [← hklen]; exact hvlen
        rw [hvlen2] at h2
        exact ih _ _ h2
